import Mathlib

/-!
# Native array mirroring in `fficall/src/jni/rffiutils.c`

A shallow embedding of the mirror table, the call-depth stack and the global
reference cache of `rffiutils.c`, with the properties of its specification
stated over it.

Conventions of the embedding.

* C pointers and JNI references are natural numbers, `NULL` is `0`.
* The static variables of the C file are the fields of `State`; every C
  function becomes a function on `State`.
* `fatalError` ends the process: a function that reaches it returns
  `Result.fatal` with the message and the state at that point.
* Where the C code reads or writes through a pointer that is `NULL` (the
  loops over the elements of a boolean vector, the copy of a string) the
  process dies: the function returns `Result.crash`. What a JNI function does
  with a null buffer is not part of `rffiutils.c` and is not modelled.
* `nativeArrayTable` and `cachedGlobalRefs` are lists (one cell per allocated
  element); the two fixed-size stacks of size `CALLDEPTH_STACK_SIZE` are total
  functions on `Int`, so that the index a statement writes to is visible. Only
  the indices in `[0, 16)` are slots of the C arrays: a store at another index
  lands in memory next to the array, and what it overwrites there depends on
  the layout of the statics. Such a store is recorded in `strayStores`; after
  one, the other fields need not show what the memory holds.
* The managed runtime and the C heap are the record `JNIEnv`; what JNI or the
  C library may choose (addresses, new references) is read from it.
* `int` values are unbounded here: the counters would need `2^31` entries to
  overflow. Conversions to `jbyte` are explicit (`toJByte`).
* The native not-available sentinel `NA_INTEGER` is declared in the R headers,
  not in this file of the repository; the functions that use it take it as
  their first argument.
-/

namespace Rffiutils

/-! ## Data model -/

/-- A C pointer or JNI reference; `0` is `NULL`. -/
abbrev Ptr := Nat

/-- The null pointer. -/
def NULL : Ptr := 0

/-- A `jobject` handed to native code (R's `SEXP`). -/
abbrev SEXP := Ptr

/-- The element kinds that `rffiutils.c` names, and every other `SEXPTYPE` code. -/
inductive SEXPTYPE where
  | CHARSXP
  | LGLSXP
  | INTSXP
  | REALSXP
  | RAWSXP
  | OTHER (code : Nat)
  deriving DecidableEq, Repr

/-- The kinds named in `rffiutils.c`, which `getNativeArray` and
`releaseNativeArray` handle. -/
def SEXPTYPE.supported : SEXPTYPE → Bool
  | SEXPTYPE.OTHER _ => false
  | _ => true

/-- `FALSE` of the R headers. -/
def FALSE : Int := 0

/-- `TRUE` of the R headers. -/
def TRUE : Int := 1

/-- `#define CALLDEPTH_STACK_SIZE 16`. -/
def CALLDEPTH_STACK_SIZE : Int := 16

/-- `#define NATIVE_ARRAY_TABLE_INITIAL_SIZE 64`. -/
def NATIVE_ARRAY_TABLE_INITIAL_SIZE : Nat := 64

/-- `#define CACHED_GLOBALREFS_INITIAL_SIZE 64`. -/
def CACHED_GLOBALREFS_INITIAL_SIZE : Nat := 64

/-- Conversion of an `int` to `jbyte` (signed, eight bits): the low byte. -/
def toJByte (v : Int) : Int := (v + 128) % 256 - 128

/-- `struct globalRefTable_struct`. -/
structure GlobalRefElem where
  permanent : Int
  gref : SEXP
  deriving DecidableEq, Repr

/-- `struct nativeArrayTable_struct`. -/
structure NativeArrayElem where
  type : SEXPTYPE
  obj : SEXP
  jArray : Ptr
  data : Ptr
  deriving DecidableEq, Repr

/-- An element as `calloc` leaves it: all fields zero. -/
def NativeArrayElem.zero : NativeArrayElem := ⟨SEXPTYPE.OTHER 0, NULL, NULL, NULL⟩

/-- A global reference element as `calloc` leaves it. -/
def GlobalRefElem.zero : GlobalRefElem := ⟨0, NULL⟩

/-- The managed runtime and the C heap, as far as `rffiutils.c` sees them
through JNI and the C library. -/
structure JNIEnv where
  /-- The object a JNI reference denotes: what `*handle` reads. -/
  oop : Ptr → Nat
  /-- Result of the `INTEGER` / `REAL` / `RAW` / `LOGICAL` up-call: a reference
  to the present backing array of an object, for a kind. -/
  upcall : SEXP → SEXPTYPE → Ptr
  /-- The `contents` field of a `CharSXPWrapper`. -/
  contents : SEXP → Ptr
  /-- Elements of a managed array (UTF bytes of a string), by denoted object. -/
  arrays : Nat → List Int
  /-- Native memory: the buffer starting at an address. -/
  cmem : Ptr → List Int
  /-- The addresses that `malloc`, `calloc`, `Get<T>ArrayElements` and
  `GetStringUTFChars` return, in order of the calls; `NULL` where a call
  fails or returns no block. -/
  addrs : Nat → Ptr
  /-- Number of addresses handed out so far. -/
  nalloc : Nat
  /-- Buffers given back (`free`, `Release...`), latest first. -/
  freed : List Ptr
  /-- The `setComplete` up-calls received, latest first. -/
  completeLog : List (SEXP × Bool)
  /-- The references `NewGlobalRef` returns, in order of the calls. -/
  grefs : Nat → Ptr
  /-- Number of global references created so far. -/
  ngref : Nat
  /-- References passed to `DeleteGlobalRef`, latest first. -/
  deleted : List Ptr

/-- The static variables of `rffiutils.c` together with the environment. -/
structure State where
  nativeArrayTable : List NativeArrayElem
  nativeArrayTableHwm : Nat
  nativeArrayTableLastIndex : Nat
  nativeArrayTableLength : Nat
  callDepth : Int
  nativeArrayTableHwmStack : Int → Nat
  callErrorJmpBufTable : Int → Ptr
  cachedGlobalRefs : List GlobalRefElem
  cachedGlobalRefsHwm : Nat
  cachedGlobalRefsLength : Nat
  /-- The stores made outside the sixteen slots of `callErrorJmpBufTable` and
  `nativeArrayTableHwmStack`, as index and value, latest first. -/
  strayStores : List (Int × Nat)
  env : JNIEnv

/-- Outcome of a C function: it returns; it ends in `fatalError`; or the process
dies because the code goes through a null pointer (`crash`, with the state
reached before that statement). -/
inductive Result (α : Type) where
  | ok (val : α) (st : State)
  | fatal (msg : String) (st : State)
  | crash (st : State)

/-- The state a call ends in. -/
def Result.state {α : Type} : Result α → State
  | Result.ok _ st => st
  | Result.fatal _ st => st
  | Result.crash st => st

/-- Whether the call returned. -/
def Result.isOk {α : Type} : Result α → Bool
  | Result.ok _ _ => true
  | Result.fatal _ _ => false
  | Result.crash _ => false

/-- The value a call returned, if it returned. -/
def Result.val? {α : Type} : Result α → Option α
  | Result.ok val _ => some val
  | Result.fatal _ _ => none
  | Result.crash _ => none

/-- The element `nativeArrayTable[i]`. -/
def State.elem (s : State) (i : Nat) : NativeArrayElem :=
  s.nativeArrayTable.getD i NativeArrayElem.zero

/-- The element `cachedGlobalRefs[i]`. -/
def State.gelem (s : State) (i : Nat) : GlobalRefElem :=
  s.cachedGlobalRefs.getD i GlobalRefElem.zero

/-! ## JNI and C library -/

/-- `GetArrayLength`. -/
def GetArrayLength (env : JNIEnv) (jArray : Ptr) : Nat :=
  (env.arrays (env.oop jArray)).length

/-- The first `len` cells of a buffer (cells past its end read as `0`). -/
def readBuf (len : Nat) (buf : List Int) : List Int :=
  (List.range len).map (fun i => buf.getD i 0)

/-- `malloc`: the next address, with a block of `n` cells behind it. -/
def malloc (env : JNIEnv) (n : Nat) : Ptr × JNIEnv :=
  (env.addrs env.nalloc,
    { env with nalloc := env.nalloc + 1,
               cmem := Function.update env.cmem (env.addrs env.nalloc) (List.replicate n 0) })

/-- `calloc` of a table: the next address. The cells of the two tables are
kept in `State`, not in `cmem`, so only the address is taken here (and `free`
of an old table leaves no trace). -/
def calloc (env : JNIEnv) : Ptr × JNIEnv :=
  (env.addrs env.nalloc, { env with nalloc := env.nalloc + 1 })

/-- `free`. -/
def free (env : JNIEnv) (p : Ptr) : JNIEnv :=
  { env with freed := p :: env.freed }

/-- `Get<T>ArrayElements`: a native buffer holding the elements of the array. -/
def GetArrayElements (env : JNIEnv) (jArray : Ptr) : Ptr × JNIEnv :=
  (env.addrs env.nalloc,
    { env with nalloc := env.nalloc + 1,
               cmem := Function.update env.cmem (env.addrs env.nalloc)
                         (env.arrays (env.oop jArray)) })

/-- `Release<T>ArrayElements` with mode `0`: copy the buffer back into the
array and give the buffer back. -/
def ReleaseArrayElements (env : JNIEnv) (jArray : Ptr) (elems : Ptr) : JNIEnv :=
  { env with arrays := Function.update env.arrays (env.oop jArray)
                         (readBuf (GetArrayLength env jArray) (env.cmem elems)),
             freed := elems :: env.freed }

/-- `Release<T>ArrayElements` with mode `JNI_ABORT`: give the buffer back
without copying. -/
def ReleaseArrayElementsAbort (env : JNIEnv) (elems : Ptr) : JNIEnv :=
  { env with freed := elems :: env.freed }

/-- `Set<T>ArrayRegion(jArray, 0, len, buf)`. -/
def SetArrayRegion (env : JNIEnv) (jArray : Ptr) (len : Nat) (buf : Ptr) : JNIEnv :=
  { env with arrays := Function.update env.arrays (env.oop jArray)
                         (readBuf len (env.cmem buf)
                            ++ (env.arrays (env.oop jArray)).drop len) }

/-- `Get<T>ArrayRegion(jArray, 0, len, buf)`. -/
def GetArrayRegion (env : JNIEnv) (jArray : Ptr) (len : Nat) (buf : Ptr) : JNIEnv :=
  { env with cmem := Function.update env.cmem buf
                       (readBuf len (env.arrays (env.oop jArray))
                          ++ (env.cmem buf).drop len) }

/-- `ReleaseStringUTFChars`. -/
def ReleaseStringUTFChars (env : JNIEnv) (chars : Ptr) : JNIEnv :=
  { env with freed := chars :: env.freed }

/-- The up-call `setComplete(obj, complete)`. -/
def setComplete (env : JNIEnv) (obj : SEXP) (complete : Bool) : JNIEnv :=
  { env with completeLog := (obj, complete) :: env.completeLog }

/-- `NewGlobalRef`: `NULL` for `NULL`, else the next reference, denoting the
same object. -/
def NewGlobalRef (env : JNIEnv) (obj : SEXP) : SEXP × JNIEnv :=
  if obj = NULL then (NULL, env)
  else
    (env.grefs env.ngref,
      { env with ngref := env.ngref + 1,
                 oop := Function.update env.oop (env.grefs env.ngref) (env.oop obj) })

/-- `DeleteGlobalRef`. -/
def DeleteGlobalRef (env : JNIEnv) (gref : SEXP) : JNIEnv :=
  { env with deleted := gref :: env.deleted }

/-! ## The functions of `rffiutils.c` -/

/-- `fast_IsSameObject`: identity of the denoted objects. -/
def fast_IsSameObject (env : JNIEnv) (a b : Ptr) : Bool :=
  if a = NULL ∧ b = NULL then true
  else if a = NULL ∨ b = NULL then false
  else env.oop a == env.oop b

/-- The loop `for (int i = lo; i < lo + n; i++) body(i)`, which stops when the
body does not return. The loops of `rffiutils.c` run up to `nativeArrayTableHwm` or
`cachedGlobalRefsHwm`, which their bodies do not change, so the number of
iterations is fixed when the loop starts. -/
def forRange (body : State → Nat → Result Unit) : Nat → Nat → State → Result Unit
  | _, 0, s => Result.ok () s
  | lo, n + 1, s =>
    match body s lo with
    | Result.ok _ s1 => forRange body (lo + 1) n s1
    | Result.fatal msg s1 => Result.fatal msg s1
    | Result.crash s1 => Result.crash s1

/-- `init_utils`: both tables allocated with their initial size, all other
statics zero. -/
def init_utils (env : JNIEnv) : State :=
  { nativeArrayTable := List.replicate NATIVE_ARRAY_TABLE_INITIAL_SIZE NativeArrayElem.zero
    nativeArrayTableHwm := 0
    nativeArrayTableLastIndex := 0
    nativeArrayTableLength := NATIVE_ARRAY_TABLE_INITIAL_SIZE
    callDepth := 0
    nativeArrayTableHwmStack := fun _ => 0
    callErrorJmpBufTable := fun _ => NULL
    cachedGlobalRefs := List.replicate CACHED_GLOBALREFS_INITIAL_SIZE GlobalRefElem.zero
    cachedGlobalRefsHwm := 0
    cachedGlobalRefsLength := CACHED_GLOBALREFS_INITIAL_SIZE
    strayStores := []
    env := env }

/-- `stringToChars`: a zero-terminated copy of the UTF bytes of a string
(`GetStringUTFChars` hands out a block like `Get<T>ArrayElements`; it is never
given back). Neither result is checked: `none` is the crash when `memcpy`
reads the bytes through a null `stringChars`, or when the copy and its
terminating zero are written through a null `copyChars`. -/
def stringToChars (env : JNIEnv) (string : Ptr) : Option (Ptr × JNIEnv) :=
  let chars := env.arrays (env.oop string)
  let r1 := GetArrayElements env string
  let r2 := malloc r1.2 (chars.length + 1)
  if r2.1 = NULL ∨ (0 < chars.length ∧ r1.1 = NULL) then none
  else some (r2.1, { r2.2 with cmem := Function.update r2.2.cmem r2.1 (chars ++ [0]) })

/-- `stringFromCharSXP`: the `contents` field. -/
def stringFromCharSXP (env : JNIEnv) (charsxp : SEXP) : Ptr :=
  env.contents charsxp

/-- `callEnter`. The recovery point is stored before the depth is checked: at
a depth outside `[0, 16)` that store is outside the array, and is recorded
as a stray store; so is the store of the mark at a negative depth.
(`setEnv` only saves the `JNIEnv` pointer, which is explicit here.) -/
def callEnter (s : State) (jmpbuf : Ptr) : Result Unit :=
  let s1 := { s with callErrorJmpBufTable :=
                       Function.update s.callErrorJmpBufTable s.callDepth jmpbuf,
                     strayStores :=
                       if 0 ≤ s.callDepth ∧ s.callDepth < CALLDEPTH_STACK_SIZE then s.strayStores
                       else (s.callDepth, jmpbuf) :: s.strayStores }
  if s1.callDepth ≥ CALLDEPTH_STACK_SIZE then
    Result.fatal "call stack overflow\n" s1
  else
    Result.ok ()
      { s1 with nativeArrayTableHwmStack :=
                  Function.update s1.nativeArrayTableHwmStack s1.callDepth s1.nativeArrayTableHwm,
                strayStores :=
                  if 0 ≤ s1.callDepth then s1.strayStores
                  else (s1.callDepth, s1.nativeArrayTableHwm) :: s1.strayStores,
                callDepth := s1.callDepth + 1 }

/-- `getErrorJmpBuf`. -/
def getErrorJmpBuf (s : State) : Ptr :=
  s.callErrorJmpBufTable (s.callDepth - 1)

/-- The boolean case of `releaseNativeArray`: the bytes written for the native
values, and the `complete` flag. -/
def releaseLogical (NA_INTEGER : Int) (data : List Int) : List Int × Bool :=
  (data.map (fun v => if v = NA_INTEGER then toJByte 255 else toJByte v),
   data.all (fun v => !decide (v = NA_INTEGER)))

/-- `releaseNativeArray`. The flag `complete` starts as `JNI_FALSE` and is set
only in the boolean case. In that case the loop reads `data[i]` and writes
`internalData[i]` with neither pointer checked: on a non-empty array it
crashes when the buffer of the entry or the block that
`GetByteArrayElements` returns is `NULL`. -/
def releaseNativeArray (NA_INTEGER : Int) (s : State) (i : Nat) : Result Unit :=
  let cv := s.elem i
  if cv.obj ≠ NULL then
    let done (env : JNIEnv) (complete : Bool) : Result Unit :=
      Result.ok ()
        { s with env := setComplete env cv.obj complete,
                 nativeArrayTable := s.nativeArrayTable.set i { s.elem i with obj := NULL } }
    match cv.type with
    | SEXPTYPE.INTSXP => done (ReleaseArrayElements s.env cv.jArray cv.data) false
    | SEXPTYPE.LGLSXP =>
      let len := GetArrayLength s.env cv.jArray
      let r := GetArrayElements s.env cv.jArray
      if 0 < len ∧ (r.1 = NULL ∨ cv.data = NULL) then Result.crash { s with env := r.2 }
      else
        let out := releaseLogical NA_INTEGER (readBuf len (r.2.cmem cv.data))
        let env1 := { r.2 with cmem := Function.update r.2.cmem r.1
                                         (out.1 ++ (r.2.cmem r.1).drop len) }
        let env2 := ReleaseArrayElements env1 cv.jArray r.1
        done (free env2 cv.data) out.2
    | SEXPTYPE.REALSXP => done (ReleaseArrayElements s.env cv.jArray cv.data) false
    | SEXPTYPE.RAWSXP => done (ReleaseArrayElements s.env cv.jArray cv.data) false
    | SEXPTYPE.CHARSXP => done (ReleaseStringUTFChars s.env cv.data) false
    | SEXPTYPE.OTHER _ => Result.fatal "updateManagedVector type" s
  else
    Result.ok () s

/-- `callExit`. -/
def callExit (NA_INTEGER : Int) (s : State) : Result Unit :=
  let oldHwm := s.nativeArrayTableHwmStack (s.callDepth - 1)
  match forRange (releaseNativeArray NA_INTEGER) oldHwm (s.nativeArrayTableHwm - oldHwm) s with
  | Result.ok _ s1 =>
    Result.ok () { s1 with nativeArrayTableHwm := oldHwm, callDepth := s1.callDepth - 1 }
  | Result.fatal msg s1 => Result.fatal msg s1
  | Result.crash s1 => Result.crash s1

/-- `invalidateNativeArray`. -/
def invalidateNativeArray (NA_INTEGER : Int) (s : State) (oldObj : SEXP) : Result Unit :=
  forRange
    (fun st i =>
      if fast_IsSameObject st.env (st.elem i).obj oldObj then releaseNativeArray NA_INTEGER st i
      else Result.ok () st)
    0 s.nativeArrayTableHwm s

/-- The linear scan of `findNativeArray`, over the `n` indices from `i` on. -/
def findScan (s : State) (x : SEXP) : Nat → Nat → Option Nat
  | _, 0 => none
  | i, n + 1 =>
    if (s.elem i).obj ≠ NULL ∧ fast_IsSameObject s.env (s.elem i).obj x = true then some i
    else findScan s x (i + 1) n

/-- `findNativeArray`: the index of the element found (the C function returns
its address), and the state, in which `nativeArrayTableLastIndex` may have
moved. -/
def findNativeArray (s : State) (x : SEXP) : Option Nat × State :=
  if s.nativeArrayTableLastIndex < s.nativeArrayTableHwm ∧
      (s.elem s.nativeArrayTableLastIndex).obj ≠ NULL ∧
      ((s.elem s.nativeArrayTableLastIndex).obj = x ∨
        fast_IsSameObject s.env (s.elem s.nativeArrayTableLastIndex).obj x = true) then
    (some s.nativeArrayTableLastIndex, s)
  else
    match findScan s x 0 s.nativeArrayTableHwm with
    | some i => (some i, { s with nativeArrayTableLastIndex := i })
    | none => (none, s)

/-- The boolean case of `updateJObject`: the bytes written for the native values. -/
def updateLogical (data : List Int) : List Int :=
  data.map toJByte

/-- `updateJObject`. In the boolean case the result of `malloc` is not checked:
on a non-empty array the loop crashes writing `byteData[0]` when it is `NULL`. -/
def updateJObject (s : State) (x : SEXP) : Result Unit :=
  match findNativeArray s x with
  | (some k, s1) =>
    let cv := s1.elem k
    if cv.data ≠ NULL ∧ cv.type ≠ SEXPTYPE.CHARSXP then
      let len := GetArrayLength s1.env cv.jArray
      match cv.type with
      | SEXPTYPE.INTSXP => Result.ok () { s1 with env := SetArrayRegion s1.env cv.jArray len cv.data }
      | SEXPTYPE.REALSXP => Result.ok () { s1 with env := SetArrayRegion s1.env cv.jArray len cv.data }
      | SEXPTYPE.RAWSXP => Result.ok () { s1 with env := SetArrayRegion s1.env cv.jArray len cv.data }
      | SEXPTYPE.LGLSXP =>
        let r := malloc s1.env len
        if 0 < len ∧ r.1 = NULL then Result.crash { s1 with env := r.2 }
        else
          let env1 := { r.2 with cmem := Function.update r.2.cmem r.1
                                           (updateLogical (readBuf len (r.2.cmem cv.data))) }
          let env2 := SetArrayRegion env1 cv.jArray len r.1
          Result.ok () { s1 with env := free env2 r.1 }
      | _ => Result.fatal "updateJObject: unexpected type" s1
    else Result.ok () s1
  | (none, s1) => Result.ok () s1

/-- `updateJObjects`. -/
def updateJObjects (s : State) : Result Unit :=
  let oldHwm := s.nativeArrayTableHwmStack (s.callDepth - 1)
  forRange
    (fun st i => if (st.elem i).obj ≠ NULL then updateJObject st (st.elem i).obj
                 else Result.ok () st)
    oldHwm (s.nativeArrayTableHwm - oldHwm) s

/-- `addNativeArray`. -/
def addNativeArray (s : State) (x : SEXP) (type : SEXPTYPE) (jArray data : Ptr) : Result Unit :=
  let store (st : State) : Result Unit :=
    Result.ok ()
      { st with nativeArrayTable := st.nativeArrayTable.set st.nativeArrayTableHwm ⟨type, x, jArray, data⟩,
                nativeArrayTableHwm := st.nativeArrayTableHwm + 1 }
  if s.nativeArrayTableHwm ≥ s.nativeArrayTableLength then
    let newLength := 2 * s.nativeArrayTableLength
    let r := calloc s.env
    if r.1 = NULL then
      Result.fatal "FFI copied vectors table expansion failure" { s with env := r.2 }
    else
      store
        { s with env := r.2,
                 nativeArrayTable :=
                   s.nativeArrayTable.take s.nativeArrayTableLength
                     ++ List.replicate (newLength - s.nativeArrayTableLength) NativeArrayElem.zero,
                 nativeArrayTableLength := newLength }
  else store s

/-- The boolean case of `extractVectorNativeArray`: the native values for the
packed bytes. -/
def extractLogical (NA_INTEGER : Int) (internalData : List Int) : List Int :=
  internalData.map (fun value => if value = 0 then FALSE else if value = 1 then TRUE else NA_INTEGER)

/-- `extractVectorNativeArray`: the buffer it returns and the environment it
leaves. In the boolean case neither the block of `GetByteArrayElements` nor
the result of `malloc` is checked: on a non-empty array the loop reads
`internalData[0]` and writes `idata[0]`, and crashes when one of them is
`NULL`; `none` is that crash. The C function has no `return` for a kind other
than the four below (it is never called with one); `NULL` stands for the
missing value there. -/
def extractVectorNativeArray (NA_INTEGER : Int) (env : JNIEnv) (jArray : Ptr) (type : SEXPTYPE) :
    Option (Ptr × JNIEnv) :=
  let len := GetArrayLength env jArray
  match type with
  | SEXPTYPE.INTSXP => some (GetArrayElements env jArray)
  | SEXPTYPE.REALSXP => some (GetArrayElements env jArray)
  | SEXPTYPE.RAWSXP => some (GetArrayElements env jArray)
  | SEXPTYPE.LGLSXP =>
    let r := GetArrayElements env jArray
    let m := malloc r.2 len
    if 0 < len ∧ (r.1 = NULL ∨ m.1 = NULL) then none
    else
      let env1 := { m.2 with cmem := Function.update m.2.cmem m.1
                                       (extractLogical NA_INTEGER (readBuf len (m.2.cmem r.1))) }
      some (m.1, ReleaseArrayElementsAbort env1 r.1)
  | _ => some (NULL, env)

/-- `getJArray`: `none` is the `fatalError` of the default case. -/
def getJArray (env : JNIEnv) (x : SEXP) (type : SEXPTYPE) : Option Ptr :=
  match type with
  | SEXPTYPE.INTSXP => some (env.upcall x type)
  | SEXPTYPE.REALSXP => some (env.upcall x type)
  | SEXPTYPE.RAWSXP => some (env.upcall x type)
  | SEXPTYPE.LGLSXP => some (env.upcall x type)
  | _ => none

/-- `getNativeArray`. -/
def getNativeArray (NA_INTEGER : Int) (s : State) (x : SEXP) (type : SEXPTYPE) : Result Ptr :=
  let f := findNativeArray s x
  let s1 := f.2
  let data : Ptr := match f.1 with
    | some k => (s1.elem k).data
    | none => NULL
  if data = NULL then
    let vector : Result Ptr :=
      match getJArray s1.env x type with
      | some jArray =>
        match extractVectorNativeArray NA_INTEGER s1.env jArray type with
        | some r =>
          match addNativeArray { s1 with env := r.2 } x type jArray r.1 with
          | Result.ok _ s2 => Result.ok r.1 s2
          | Result.fatal msg s2 => Result.fatal msg s2
          | Result.crash s2 => Result.crash s2
        | none => Result.crash s1
      | none => Result.fatal "getNativeArray: unexpected type" s1
    match type with
    | SEXPTYPE.INTSXP => vector
    | SEXPTYPE.REALSXP => vector
    | SEXPTYPE.RAWSXP => vector
    | SEXPTYPE.LGLSXP => vector
    | SEXPTYPE.CHARSXP =>
      let string := stringFromCharSXP s1.env x
      match stringToChars s1.env string with
      | some r =>
        match addNativeArray { s1 with env := r.2 } x type string r.1 with
        | Result.ok _ s2 => Result.ok r.1 s2
        | Result.fatal msg s2 => Result.fatal msg s2
        | Result.crash s2 => Result.crash s2
      | none => Result.crash s1
    | SEXPTYPE.OTHER _ => Result.fatal "getNativeArray: unexpected type" s1
  else Result.ok data s1

/-- The array reference and buffer that `getNativeArray` registers when it does
not find a usable entry, with the environment after the extraction; `none`
for a kind it rejects and where the extraction crashes. -/
def extraction (NA_INTEGER : Int) (env : JNIEnv) (x : SEXP) (type : SEXPTYPE) :
    Option (Ptr × Ptr × JNIEnv) :=
  match type with
  | SEXPTYPE.CHARSXP =>
    (stringToChars env (stringFromCharSXP env x)).map
      (fun r => (stringFromCharSXP env x, r.1, r.2))
  | SEXPTYPE.OTHER _ => none
  | _ =>
    (extractVectorNativeArray NA_INTEGER env (env.upcall x type) type).map
      (fun r => (env.upcall x type, r.1, r.2))

/-- `updateNativeArray`. In the boolean case the result of `malloc` and the
buffer of the entry are not checked: on a non-empty array the copy crashes
when one of them is `NULL`. -/
def updateNativeArray (s : State) (i : Nat) : Result Unit :=
  let cv := s.elem i
  if cv.obj ≠ NULL ∧ cv.type ≠ SEXPTYPE.CHARSXP then
    match getJArray s.env cv.obj cv.type with
    | none => Result.fatal "getNativeArray: unexpected type" s
    | some current =>
      if fast_IsSameObject s.env current cv.jArray = true then
        let len := GetArrayLength s.env cv.jArray
        match cv.type with
        | SEXPTYPE.INTSXP => Result.ok () { s with env := GetArrayRegion s.env cv.jArray len cv.data }
        | SEXPTYPE.REALSXP => Result.ok () { s with env := GetArrayRegion s.env cv.jArray len cv.data }
        | SEXPTYPE.RAWSXP => Result.ok () { s with env := GetArrayRegion s.env cv.jArray len cv.data }
        | SEXPTYPE.LGLSXP =>
          let m := malloc s.env len
          if 0 < len ∧ (m.1 = NULL ∨ cv.data = NULL) then Result.crash { s with env := m.2 }
          else
            let env1 := GetArrayRegion m.2 cv.jArray len m.1
            let env2 := { env1 with cmem := Function.update env1.cmem cv.data
                                              (readBuf len (env1.cmem m.1)
                                                 ++ (env1.cmem cv.data).drop len) }
            Result.ok () { s with env := free env2 m.1 }
        | _ => Result.fatal "updateJObject: unexpected type" s
      else
        Result.ok () { s with nativeArrayTable := s.nativeArrayTable.set i { s.elem i with obj := NULL } }
  else Result.ok () s

/-- `updateNativeArrays`. -/
def updateNativeArrays (s : State) : Result Unit :=
  let oldHwm := s.nativeArrayTableHwmStack (s.callDepth - 1)
  forRange updateNativeArray oldHwm (s.nativeArrayTableHwm - oldHwm) s

/-- The scan of `findCachedGlobalRef`, over the `n` indices from `i` on. -/
def findCachedGlobalRefFrom (s : State) (obj : SEXP) : Nat → Nat → SEXP
  | _, 0 => NULL
  | i, n + 1 =>
    if (s.gelem i).gref = NULL then findCachedGlobalRefFrom s obj (i + 1) n
    else if fast_IsSameObject s.env (s.gelem i).gref obj = true then (s.gelem i).gref
    else findCachedGlobalRefFrom s obj (i + 1) n

/-- `findCachedGlobalRef`. -/
def findCachedGlobalRef (s : State) (obj : SEXP) : SEXP :=
  findCachedGlobalRefFrom s obj 0 s.cachedGlobalRefsHwm

/-- `addGlobalRef`. -/
def addGlobalRef (s : State) (obj : SEXP) (permanent : Int) : Result SEXP :=
  let store (st : State) : Result SEXP :=
    let g := NewGlobalRef st.env obj
    Result.ok g.1
      { st with env := g.2,
                cachedGlobalRefs := st.cachedGlobalRefs.set st.cachedGlobalRefsHwm ⟨permanent, g.1⟩,
                cachedGlobalRefsHwm := st.cachedGlobalRefsHwm + 1 }
  if s.cachedGlobalRefsHwm ≥ s.cachedGlobalRefsLength then
    let newLength := s.cachedGlobalRefsLength * 2
    let r := calloc s.env
    if r.1 = NULL then
      Result.fatal "FFI global refs table expansion failure" { s with env := r.2 }
    else
      store
        { s with env := r.2,
                 cachedGlobalRefs :=
                   s.cachedGlobalRefs.take s.cachedGlobalRefsLength
                     ++ List.replicate (newLength - s.cachedGlobalRefsLength) GlobalRefElem.zero,
                 cachedGlobalRefsLength := newLength }
  else store s

/-- `checkRef`. -/
def checkRef (s : State) (obj : SEXP) : SEXP :=
  if findCachedGlobalRef s obj = NULL then obj else findCachedGlobalRef s obj

/-- `createGlobalRef`. -/
def createGlobalRef (s : State) (obj : SEXP) (permanent : Int) : Result SEXP :=
  if findCachedGlobalRef s obj = NULL then addGlobalRef s obj permanent
  else Result.ok (findCachedGlobalRef s obj) s

/-- One iteration of the loop of `releaseGlobalRef`. -/
def releaseGlobalRefAt (obj : SEXP) (s : State) (i : Nat) : Result Unit :=
  if (s.gelem i).gref = NULL ∨ (s.gelem i).permanent ≠ 0 then Result.ok () s
  else if fast_IsSameObject s.env (s.gelem i).gref obj = true then
    Result.ok ()
      { s with env := DeleteGlobalRef s.env (s.gelem i).gref,
               cachedGlobalRefs := s.cachedGlobalRefs.set i { s.gelem i with gref := NULL } }
  else Result.ok () s

/-- `releaseGlobalRef`. -/
def releaseGlobalRef (s : State) (obj : SEXP) : Result Unit :=
  forRange (releaseGlobalRefAt obj) 0 s.cachedGlobalRefsHwm s

/-- The entries that `releaseGlobalRef` clears: below the high-water mark,
non-permanent, non-null, and identical to the object. -/
def Cleared (s : State) (obj : SEXP) (i : Nat) : Prop :=
  i < s.cachedGlobalRefsHwm ∧ (s.gelem i).permanent = 0 ∧ (s.gelem i).gref ≠ NULL ∧
    fast_IsSameObject s.env (s.gelem i).gref obj = true

instance (s : State) (obj : SEXP) (i : Nat) : Decidable (Cleared s obj i) := by
  unfold Cleared; infer_instance

/-! ## Sequences of calls -/

/-- A sequence of `releaseGlobalRef` calls. -/
def releaseGlobalRefs : State → List SEXP → Result Unit
  | s, [] => Result.ok () s
  | s, obj :: objs =>
    match releaseGlobalRef s obj with
    | Result.ok _ s1 => releaseGlobalRefs s1 objs
    | Result.fatal msg s1 => Result.fatal msg s1
    | Result.crash s1 => Result.crash s1

/-- A sequence of `releaseNativeArray` calls, at the listed indices. -/
def releaseEach (NA_INTEGER : Int) : List Nat → State → Result Unit
  | [], s => Result.ok () s
  | i :: is, s =>
    match releaseNativeArray NA_INTEGER s i with
    | Result.ok _ s1 => releaseEach NA_INTEGER is s1
    | Result.fatal msg s1 => Result.fatal msg s1
    | Result.crash s1 => Result.crash s1

/-- A call made by the call-marshalling layer or by native code. -/
inductive Op where
  | callEnter (jmpbuf : Ptr)
  | callExit
  | getNativeArray (x : SEXP) (type : SEXPTYPE)
  | invalidateNativeArray (x : SEXP)
  | updateNativeArrays
  | updateJObjects
  deriving DecidableEq, Repr

/-- Outcome of a call with its result dropped. -/
def Result.void {α : Type} : Result α → Result Unit
  | Result.ok _ st => Result.ok () st
  | Result.fatal msg st => Result.fatal msg st
  | Result.crash st => Result.crash st

/-- One call. -/
def step (NA_INTEGER : Int) (s : State) : Op → Result Unit
  | Op.callEnter jmpbuf => callEnter s jmpbuf
  | Op.callExit => callExit NA_INTEGER s
  | Op.getNativeArray x type => (getNativeArray NA_INTEGER s x type).void
  | Op.invalidateNativeArray x => invalidateNativeArray NA_INTEGER s x
  | Op.updateNativeArrays => updateNativeArrays s
  | Op.updateJObjects => updateJObjects s

/-- A sequence of calls, which stops at the first call that does not return. -/
def run (NA_INTEGER : Int) : State → List Op → Result Unit
  | s, [] => Result.ok () s
  | s, op :: ops =>
    match step NA_INTEGER s op with
    | Result.ok _ s1 => run NA_INTEGER s1 ops
    | Result.fatal msg s1 => Result.fatal msg s1
    | Result.crash s1 => Result.crash s1

/-- A sequence of `getNativeArray` calls, with the buffers they return. -/
def acquireAll (NA_INTEGER : Int) : State → List (SEXP × SEXPTYPE) → Result (List Ptr)
  | s, [] => Result.ok [] s
  | s, r :: rest =>
    match getNativeArray NA_INTEGER s r.1 r.2 with
    | Result.ok p s1 =>
      match acquireAll NA_INTEGER s1 rest with
      | Result.ok ps s2 => Result.ok (p :: ps) s2
      | Result.fatal msg s2 => Result.fatal msg s2
      | Result.crash s2 => Result.crash s2
    | Result.fatal msg s1 => Result.fatal msg s1
    | Result.crash s1 => Result.crash s1

/-- Native code writing into a buffer: the value `v` at every index `k` with
`ow k = some v`, the other cells as they are. -/
def overwrite (ow : Nat → Option Int) (buf : List Int) : List Int :=
  (List.range buf.length).map (fun k => (ow k).getD (buf.getD k 0))

/-- The calls of a frame considered in the frame-scoped release: entering,
leaving, acquiring. A sequence is balanced at depth `d` when every `callExit`
has its `callEnter` within the sequence or among the `d` frames open at its
start, and all `d` frames are closed at its end. -/
def balanced : Nat → List Op → Bool
  | d, [] => d == 0
  | d, Op.callEnter _ :: ops => balanced (d + 1) ops
  | 0, Op.callExit :: _ => false
  | d + 1, Op.callExit :: ops => balanced d ops
  | d, Op.getNativeArray _ _ :: ops => balanced d ops
  | _, _ :: _ => false

/-- The recovery points of the frames that a sequence of calls leaves open,
innermost first, given those open at its start; `none` if the sequence
leaves a frame that was not open (it is not properly nested). -/
def openFrames : List Ptr → List Op → Option (List Ptr)
  | js, [] => some js
  | js, Op.callEnter j :: ops => openFrames (j :: js) ops
  | [], Op.callExit :: _ => none
  | _ :: js, Op.callExit :: ops => openFrames js ops
  | js, Op.getNativeArray _ _ :: ops => openFrames js ops
  | js, Op.invalidateNativeArray _ :: ops => openFrames js ops
  | js, Op.updateNativeArrays :: ops => openFrames js ops
  | js, Op.updateJObjects :: ops => openFrames js ops

/-! ## Invariants of the mirror table -/

/-- The list of the table has the recorded capacity, the capacity is positive
and the high-water mark is within it. -/
def WF (s : State) : Prop :=
  s.nativeArrayTable.length = s.nativeArrayTableLength ∧ 0 < s.nativeArrayTableLength ∧
    s.nativeArrayTableHwm ≤ s.nativeArrayTableLength

instance (s : State) : Decidable (WF s) := by
  unfold WF; infer_instance

/-- Every element with a source object has one of the kinds that
`getNativeArray` registers. -/
def KindsOK (s : State) : Prop :=
  ∀ e ∈ s.nativeArrayTable, e.obj = NULL ∨ e.type.supported = true

instance (s : State) : Decidable (KindsOK s) := by
  unfold KindsOK; infer_instance

/-- Every element from the high-water mark on has no source object. -/
def Clean (s : State) : Prop :=
  ∀ e ∈ s.nativeArrayTable.drop s.nativeArrayTableHwm, e.obj = NULL

instance (s : State) : Decidable (Clean s) := by
  unfold Clean; infer_instance

/-- The element is live and its source object is identical to `x`. -/
def Mirrors (env : JNIEnv) (e : NativeArrayElem) (x : SEXP) : Prop :=
  e.obj ≠ NULL ∧ fast_IsSameObject env e.obj x = true

instance (env : JNIEnv) (e : NativeArrayElem) (x : SEXP) : Decidable (Mirrors env e x) := by
  unfold Mirrors; infer_instance

/-- The indices below `k` whose element `invalidateNativeArray` releases. -/
def invalidated (s : State) (x : SEXP) (k : Nat) : List Nat :=
  (List.range k).filter (fun i => decide (Mirrors s.env (s.elem i) x))

/-- The state `st` lies inside the frame that `callEnter` opened from `s0`,
with `d` further frames open: the depth, the recorded marks of these frames,
and what the frame may not have touched. -/
structure FrameInv (s0 : State) (d : Nat) (st : State) : Prop where
  depth : st.callDepth = s0.callDepth + 1 + d
  mark0 : st.nativeArrayTableHwmStack s0.callDepth = s0.nativeArrayTableHwm
  marks : ∀ e : Int, s0.callDepth < e → e < s0.callDepth + 1 + d →
    s0.nativeArrayTableHwm ≤ st.nativeArrayTableHwmStack e ∧
      st.nativeArrayTableHwmStack e ≤ st.nativeArrayTableLength
  hwm_ge : s0.nativeArrayTableHwm ≤ st.nativeArrayTableHwm
  wf : WF st
  kinds : KindsOK st
  below : ∀ i, i < s0.nativeArrayTableHwm → st.elem i = s0.elem i
  clean : Clean st

/-- The state `st` differs from `s` at most in the environment, in
`nativeArrayTableLastIndex` and in source objects of the table that were
cleared. -/
structure Shrinks (s st : State) : Prop where
  frame : st = { s with nativeArrayTable := st.nativeArrayTable, env := st.env,
                        nativeArrayTableLastIndex := st.nativeArrayTableLastIndex }
  len : st.nativeArrayTable.length = s.nativeArrayTable.length
  elems : ∀ i, st.elem i = s.elem i ∨ st.elem i = { s.elem i with obj := NULL }
  oop : st.env.oop = s.env.oop

/-- The invariant of the mirror table and the frame stack that `init_utils`
establishes and every call keeps. -/
structure Inv (s : State) : Prop where
  wf : WF s
  kinds : KindsOK s
  clean : Clean s
  marks : ∀ e : Int, s.nativeArrayTableHwmStack e ≤ s.nativeArrayTableLength

/-- The object `x` has a live entry below the high-water mark, and every such
entry records the buffer `p`. -/
structure Cached (x : SEXP) (p : Ptr) (st : State) : Prop where
  ex : ∃ k, k < st.nativeArrayTableHwm ∧ Mirrors st.env (st.elem k) x
  all : ∀ k, k < st.nativeArrayTableHwm → Mirrors st.env (st.elem k) x → (st.elem k).data = p
  wf : WF st

/-- The calls `ops`, made from the state `s`, include no invalidation of the
object `x`: no `callExit`, no `invalidateNativeArray` of a reference identical
to `x`, and no `updateNativeArrays` that finds, in the frame it refreshes, a
live entry of `x` of a vector kind whose recorded array is not identical to
the present backing array of its source object (a stale entry, which the
refresh tombstones). -/
def noInvalidation (NA_INTEGER : Int) (x : SEXP) : State → List Op → Bool
  | _, [] => true
  | s, op :: ops =>
    (match op with
      | Op.callExit => false
      | Op.invalidateNativeArray y => !fast_IsSameObject s.env y x
      | Op.updateNativeArrays =>
        decide (∀ i, i < s.nativeArrayTableHwm →
          s.nativeArrayTableHwmStack (s.callDepth - 1) ≤ i → Mirrors s.env (s.elem i) x →
          (s.elem i).type ≠ SEXPTYPE.CHARSXP →
          fast_IsSameObject s.env (s.env.upcall (s.elem i).obj (s.elem i).type)
            (s.elem i).jArray = true)
      | _ => true) &&
    noInvalidation NA_INTEGER x (step NA_INTEGER s op).state ops

/-- At most one live entry below the high-water mark per source object. -/
def Unique (s : State) : Prop :=
  ∀ i, i < s.nativeArrayTableHwm → ∀ j, j < s.nativeArrayTableHwm →
    (s.elem i).obj ≠ NULL → (s.elem j).obj ≠ NULL →
    fast_IsSameObject s.env (s.elem i).obj (s.elem j).obj = true → i = j

instance (s : State) : Decidable (Unique s) := by
  unfold Unique; infer_instance

/-- Every live entry below the high-water mark records a non-null buffer. -/
def Buffered (s : State) : Prop :=
  ∀ i, i < s.nativeArrayTableHwm → (s.elem i).obj ≠ NULL → (s.elem i).data ≠ NULL

instance (s : State) : Decidable (Buffered s) := by
  unfold Buffered; infer_instance

/-- The lookup without the last-hit cache, written from its description and
not from `findNativeArray`: a plain linear scan of `[0, hwm)` for the first
live entry identical to `x`. -/
def plainLinearScan (s : State) (x : SEXP) : Option Nat :=
  (List.range s.nativeArrayTableHwm).find? (fun i => decide (Mirrors s.env (s.elem i) x))

/-- The environment `e2` has the identities, up-call results and allocator
choices of `e1`, and the allocator has not gone back. -/
structure EnvKeeps (e1 e2 : JNIEnv) : Prop where
  oop : e2.oop = e1.oop
  upcall : e2.upcall = e1.upcall
  contents : e2.contents = e1.contents
  addrs : e2.addrs = e1.addrs
  nalloc : e1.nalloc ≤ e2.nalloc

/-- The state `st` has the call depth, the two frame stacks and the global
reference table of `s`. -/
structure FrameKeeps (s st : State) : Prop where
  depth : st.callDepth = s.callDepth
  marks : st.nativeArrayTableHwmStack = s.nativeArrayTableHwmStack
  jmps : st.callErrorJmpBufTable = s.callErrorJmpBufTable
  grefs : st.cachedGlobalRefs = s.cachedGlobalRefs

/-! ## Concrete states -/

/-- The value the R headers give `NA_INTEGER`: `INT_MIN`. -/
def R_NaInt : Int := -2147483648

/-- Modelled from the spec: the native not-available sentinel. `NA_INTEGER` is
declared in the R headers, which are not under `src/`; the spec says of it
that extraction maps the packed not-available byte "to a reserved native
sentinel value distinct from 0/1". A sentinel is any integer with these two
properties. -/
structure NaSentinel where
  val : Int
  ne_zero : val ≠ 0
  ne_one : val ≠ 1

/-- The sentinel of the R headers. -/
def naInt : NaSentinel := ⟨R_NaInt, by decide, by decide⟩

/-- A runtime in which every reference denotes an object of its own, the
backing array of object `x` is the reference `x + 1000`, all arrays are empty
and the allocator hands out `5000, 5001, ...`. -/
def env0 : JNIEnv :=
  { oop := fun p => p
    upcall := fun x _ => x + 1000
    contents := fun x => x + 2000
    arrays := fun _ => []
    cmem := fun _ => []
    addrs := fun k => 5000 + k
    nalloc := 0
    freed := []
    completeLog := []
    grefs := fun k => 9000 + k
    ngref := 0
    deleted := [] }

/-- The state after `init_utils` in the runtime `env0`. -/
def state0 : State := init_utils env0

/-- The state `state0` at call depth 16. -/
def stateDeep : State := { state0 with callDepth := 16 }

/-- A table with one live boolean entry: object `1`, backing array `2` holding
one byte `b`, native buffer at address `3` holding one value `v`. -/
def stateLgl (b v : Int) : State :=
  { state0 with
      nativeArrayTable := state0.nativeArrayTable.set 0 ⟨SEXPTYPE.LGLSXP, 1, 2, 3⟩
      nativeArrayTableHwm := 1
      callDepth := 1
      env := { env0 with arrays := Function.update env0.arrays 2 [b]
                         cmem := Function.update env0.cmem 3 [v] } }

/-- A runtime in which the references `10 k + j` denote the object `j`. -/
def envRefs : JNIEnv := { env0 with oop := fun p => p % 10 }

/-- A global reference table with a non-permanent and a permanent reference to
object `1` and a permanent reference to object `2`. -/
def stateRefs : State :=
  { init_utils envRefs with
      cachedGlobalRefs := [⟨0, 11⟩, ⟨1, 21⟩, ⟨1, 12⟩]
      cachedGlobalRefsHwm := 3
      cachedGlobalRefsLength := 3 }

/-- Two nested frames: the outer one holds an integer entry for object `1`, the
inner one an integer entry for object `2`. -/
def stateTwo : State :=
  { state0 with
      nativeArrayTable :=
        (state0.nativeArrayTable.set 0 ⟨SEXPTYPE.INTSXP, 1, 1001, 4000⟩).set 1
          ⟨SEXPTYPE.INTSXP, 2, 1002, 4001⟩
      nativeArrayTableHwm := 2
      callDepth := 2
      nativeArrayTableHwmStack := fun d => if d = 1 then 1 else 0 }

/-- A full table of capacity two, holding integer entries for objects `1` and `2`. -/
def stateFull : State :=
  { state0 with
      nativeArrayTable := [⟨SEXPTYPE.INTSXP, 1, 1001, 4000⟩, ⟨SEXPTYPE.INTSXP, 2, 1002, 4001⟩]
      nativeArrayTableHwm := 2
      nativeArrayTableLength := 2 }

/-- Requests for the objects `1, ..., n`, all of integer kind. -/
def requests (n : Nat) : List (SEXP × SEXPTYPE) :=
  (List.range n).map (fun i => (i + 1, SEXPTYPE.INTSXP))

/-- The runtime `env0` with the packed boolean array `[true, false, NA]` behind
reference `2`. -/
def envBool : JNIEnv := { env0 with arrays := Function.update env0.arrays 2 [1, 0, -1] }

/-- Native code setting element `0` to `0`. -/
def owFirst : Nat → Option Int := fun k => if k = 0 then some 0 else none

/-- The buffer that the extraction of array `2` as a boolean vector returns in
`envBool`, and the environment it leaves (the extraction does not crash
there: both blocks are non-null). -/
def extractedBool : Ptr × JNIEnv :=
  (extractVectorNativeArray R_NaInt envBool 2 SEXPTYPE.LGLSXP).getD (NULL, envBool)

/-- The state after object `1`, with backing array `2` in `envBool`, was
extracted as a boolean vector and registered, and native code set element
`0` of the buffer to `0`. -/
def stateBool : State :=
  { state0 with
      nativeArrayTable := state0.nativeArrayTable.set 0 ⟨SEXPTYPE.LGLSXP, 1, 2, extractedBool.1⟩
      nativeArrayTableHwm := 1
      callDepth := 1
      env :=
        { extractedBool.2 with
            cmem := Function.update extractedBool.2.cmem extractedBool.1
              (overwrite owFirst (extractedBool.2.cmem extractedBool.1)) } }

/-- The runtime `env0` on a platform where `malloc(0)` returns `NULL`: all
arrays are empty, so every extraction of a boolean vector takes a block for
the temporary copy (even calls) and an empty block for the buffer (odd calls). -/
def envNull : JNIEnv := { env0 with addrs := fun k => if k % 2 = 1 then NULL else 5000 + k }

/-- The state after `init_utils` in the runtime `envNull`. -/
def stateNull : State := init_utils envNull

/-- A table with one live boolean entry whose recorded array is the present
backing array of its object: object `1`, backing array `1001` holding one
byte `b`, native buffer at address `3` holding one value `v`. -/
def stateSame (b v : Int) : State :=
  { state0 with
      nativeArrayTable := state0.nativeArrayTable.set 0 ⟨SEXPTYPE.LGLSXP, 1, 1001, 3⟩
      nativeArrayTableHwm := 1
      callDepth := 1
      env := { env0 with arrays := Function.update env0.arrays 1001 [b]
                         cmem := Function.update env0.cmem 3 [v] } }

/-- A table with one live integer entry for object `1` that has gone stale: it
records backing array `2` (one element, `7`, mirrored at address `3`), while
the runtime now returns array `1001`, which holds `8, 9`. -/
def stateStale : State :=
  { state0 with
      nativeArrayTable := state0.nativeArrayTable.set 0 ⟨SEXPTYPE.INTSXP, 1, 2, 3⟩
      nativeArrayTableHwm := 1
      callDepth := 1
      env := { env0 with arrays := Function.update (Function.update env0.arrays 2 [7]) 1001 [8, 9]
                         cmem := Function.update env0.cmem 3 [7] } }

/-- The two frames of `stateTwo` with contents: the arrays of objects `1` and
`2` hold `1` and `2`, their native buffers hold `10` and `20`. -/
def stateFrames : State :=
  { stateTwo with
      env := { env0 with
                 arrays := Function.update (Function.update env0.arrays 1001 [1]) 1002 [2]
                 cmem := Function.update (Function.update env0.cmem 4000 [10]) 4001 [20] } }

/-! ## Lemmas on lists and loops -/

theorem getD_set {α : Type} (l : List α) (i j : Nat) (a d : α) :
    (l.set i a).getD j d = if i = j ∧ i < l.length then a else l.getD j d := by
  simp only [List.getD_eq_getElem?_getD, List.getElem?_set]
  by_cases h : i = j
  · subst h
    by_cases h2 : i < l.length
    · simp [h2]
    · have h3 : l.length ≤ i := Nat.le_of_not_lt h2
      simp [h2, List.getElem?_eq_none h3]
  · simp [h]

theorem readBuf_length (len : Nat) (buf : List Int) : (readBuf len buf).length = len := by
  simp [readBuf]

theorem readBuf_getD (len k : Nat) (buf : List Int) (h : k < len) :
    (readBuf len buf).getD k 0 = buf.getD k 0 := by
  simp [readBuf, List.getD_eq_getElem?_getD, h]

theorem readBuf_self (buf : List Int) : readBuf buf.length buf = buf := by
  apply List.ext_getElem
  · simp [readBuf]
  · intro n h1 h2
    simp [readBuf, List.getD_eq_getElem?_getD, List.getElem?_eq_getElem h2]

theorem toJByte_zero : toJByte 0 = 0 := by decide

theorem toJByte_one : toJByte 1 = 1 := by decide

/-! ## C7: call-depth overflow -/

/-- Releasing a live boolean entry: the state it ends in. -/
theorem releaseNativeArray_logical_eq (NA_INTEGER : Int) (s : State) (i : Nat)
    (hobj : (s.elem i).obj ≠ NULL) (htype : (s.elem i).type = SEXPTYPE.LGLSXP)
    (hfresh : s.env.addrs s.env.nalloc ≠ (s.elem i).data)
    (hsafe : 0 < GetArrayLength s.env (s.elem i).jArray →
      s.env.addrs s.env.nalloc ≠ NULL ∧ (s.elem i).data ≠ NULL) :
    ∃ st, releaseNativeArray NA_INTEGER s i = Result.ok () st ∧
      st.env.arrays = Function.update s.env.arrays (s.env.oop (s.elem i).jArray)
        (releaseLogical NA_INTEGER
          (readBuf (GetArrayLength s.env (s.elem i).jArray) (s.env.cmem (s.elem i).data))).1 ∧
      st.env.completeLog = ((s.elem i).obj, (releaseLogical NA_INTEGER
          (readBuf (GetArrayLength s.env (s.elem i).jArray) (s.env.cmem (s.elem i).data))).2)
            :: s.env.completeLog ∧
      st.nativeArrayTable = s.nativeArrayTable.set i { s.elem i with obj := NULL } := by
  have hnc : ¬ (0 < GetArrayLength s.env (s.elem i).jArray ∧
      ((GetArrayElements s.env (s.elem i).jArray).1 = NULL ∨ (s.elem i).data = NULL)) := by
    rintro ⟨h1, h2 | h2⟩
    · exact (hsafe h1).1 h2
    · exact (hsafe h1).2 h2
  unfold releaseNativeArray
  simp only [htype]
  rw [if_pos hobj, if_neg hnc]
  have hc : (GetArrayElements s.env (s.elem i).jArray).2.cmem (s.elem i).data
      = s.env.cmem (s.elem i).data := by
    simp [GetArrayElements, Function.update, Ne.symm hfresh]
  have hl : (releaseLogical NA_INTEGER
      (readBuf (GetArrayLength s.env (s.elem i).jArray) (s.env.cmem (s.elem i).data))).1.length
        = (s.env.arrays (s.env.oop (s.elem i).jArray)).length := by
    simp [releaseLogical, readBuf, GetArrayLength]
  refine ⟨_, rfl, ?_, ?_, ?_⟩
  · simp only [setComplete, free, ReleaseArrayElements, hc]
    simp only [GetArrayElements, GetArrayLength, Function.update_same]
    rw [List.drop_length, List.append_nil]
    have h2 := readBuf_self (releaseLogical NA_INTEGER
      (readBuf (GetArrayLength s.env (s.elem i).jArray) (s.env.cmem (s.elem i).data))).1
    rw [hl] at h2
    simp only [GetArrayLength] at h2 ⊢
    rw [h2]
  · simp only [setComplete, free, ReleaseArrayElements, hc]
    rfl
  · simp [htype]

/-- C9, as amended. For every live boolean entry and every content of its native
buffer, when the block that `GetByteArrayElements` returns is other than the
buffer and, on a non-empty array, neither is `NULL` (the code goes through
them unchecked), `releaseNativeArray` returns; the managed array keeps its
length;
at each index it holds `(jbyte) 255` where the native value is `NA_INTEGER`
and the low byte of the native value elsewhere, which is the value itself
for `0` and `1`; so the byte written is the not-available byte exactly where
the native value is `NA_INTEGER` or has the low byte `255`; the outcome
passed to `setComplete` is `false` exactly when some native value is
`NA_INTEGER`; the entry is tombstoned. -/
theorem releaseNativeArray_logical (NA_INTEGER : Int) (s : State) (i : Nat)
    (hobj : (s.elem i).obj ≠ NULL) (htype : (s.elem i).type = SEXPTYPE.LGLSXP)
    (hfresh : s.env.addrs s.env.nalloc ≠ (s.elem i).data)
    (hsafe : 0 < GetArrayLength s.env (s.elem i).jArray →
      s.env.addrs s.env.nalloc ≠ NULL ∧ (s.elem i).data ≠ NULL)
    (hNA0 : NA_INTEGER ≠ 0) (hNA1 : NA_INTEGER ≠ 1) :
    ∃ st complete, releaseNativeArray NA_INTEGER s i = Result.ok () st ∧
      (st.env.arrays (s.env.oop (s.elem i).jArray)).length = GetArrayLength s.env (s.elem i).jArray ∧
      (∀ k, k < GetArrayLength s.env (s.elem i).jArray →
        (s.env.cmem (s.elem i).data).getD k 0 = NA_INTEGER →
        (st.env.arrays (s.env.oop (s.elem i).jArray)).getD k 0 = toJByte 255) ∧
      (∀ k, k < GetArrayLength s.env (s.elem i).jArray →
        (s.env.cmem (s.elem i).data).getD k 0 ≠ NA_INTEGER →
        (st.env.arrays (s.env.oop (s.elem i).jArray)).getD k 0
          = toJByte ((s.env.cmem (s.elem i).data).getD k 0)) ∧
      (∀ k, k < GetArrayLength s.env (s.elem i).jArray →
        (s.env.cmem (s.elem i).data).getD k 0 = 0 ∨ (s.env.cmem (s.elem i).data).getD k 0 = 1 →
        (st.env.arrays (s.env.oop (s.elem i).jArray)).getD k 0
          = (s.env.cmem (s.elem i).data).getD k 0) ∧
      (∀ k, k < GetArrayLength s.env (s.elem i).jArray →
        ((st.env.arrays (s.env.oop (s.elem i).jArray)).getD k 0 = toJByte 255 ↔
          (s.env.cmem (s.elem i).data).getD k 0 = NA_INTEGER ∨
            toJByte ((s.env.cmem (s.elem i).data).getD k 0) = toJByte 255)) ∧
      st.env.completeLog = ((s.elem i).obj, complete) :: s.env.completeLog ∧
      (complete = false ↔
        ∃ k, k < GetArrayLength s.env (s.elem i).jArray ∧
          (s.env.cmem (s.elem i).data).getD k 0 = NA_INTEGER) ∧
      (st.elem i).obj = NULL := by
  obtain ⟨st, hst, harr, hlog, htab⟩ :=
    releaseNativeArray_logical_eq NA_INTEGER s i hobj htype hfresh hsafe
  have hget : ∀ k, k < GetArrayLength s.env (s.elem i).jArray →
      (st.env.arrays (s.env.oop (s.elem i).jArray)).getD k 0
        = if (s.env.cmem (s.elem i).data).getD k 0 = NA_INTEGER then toJByte 255
          else toJByte ((s.env.cmem (s.elem i).data).getD k 0) := by
    intro k hk
    rw [harr, Function.update_same]
    simp [releaseLogical, readBuf, List.getD_eq_getElem?_getD, hk]
  refine ⟨st, _, hst, ?_, ?_, ?_, ?_, ?_, hlog, ?_, ?_⟩
  · rw [harr, Function.update_same]
    simp [releaseLogical, readBuf]
  · intro k hk hna
    rw [hget k hk, if_pos hna]
  · intro k hk hna
    rw [hget k hk, if_neg hna]
  · intro k hk h01
    rw [hget k hk]
    rcases h01 with h | h
    · rw [h, if_neg (Ne.symm hNA0)]; rfl
    · rw [h, if_neg (Ne.symm hNA1)]; rfl
  · intro k hk
    rw [hget k hk]
    by_cases hna : (s.env.cmem (s.elem i).data).getD k 0 = NA_INTEGER
    · rw [if_pos hna]
      exact ⟨fun _ => Or.inl hna, fun _ => rfl⟩
    · rw [if_neg hna]
      exact ⟨fun h => Or.inr h, fun h => h.resolve_left hna⟩
  · simp only [releaseLogical, readBuf]
    rw [List.all_eq_false]
    constructor
    · rintro ⟨v, hv, hvna⟩
      simp only [List.mem_map, List.mem_range] at hv
      obtain ⟨k, hk, rfl⟩ := hv
      refine ⟨k, hk, ?_⟩
      simpa using hvna
    · rintro ⟨k, hk, hna⟩
      refine ⟨_, List.mem_map.mpr ⟨k, List.mem_range.mpr hk, rfl⟩, ?_⟩
      simp only [hna, decide_True, Bool.not_true]
      exact Bool.false_ne_true
  · simp only [State.elem, htab, getD_set]
    split
    · rfl
    · rename_i h
      have : ¬ i < s.nativeArrayTable.length := fun hh => h ⟨trivial, hh⟩
      simp [NativeArrayElem.zero, List.getD_eq_getElem?_getD,
        List.getElem?_eq_none (Nat.le_of_not_lt this)]

/-- Witness for C9: a buffer holding `NA_INTEGER` is written back as `-1` and
reported incomplete. -/
theorem releaseNativeArray_logical_witness :
    ∃ st complete, releaseNativeArray R_NaInt (stateLgl 1 R_NaInt) 0 = Result.ok () st ∧
      (st.env.arrays 2).getD 0 0 = -1 ∧ complete = false ∧
      st.env.completeLog = [(1, complete)] := by
  obtain ⟨st, c, h1, _, h3, _, _, _, h6, h7, _⟩ :=
    releaseNativeArray_logical R_NaInt (stateLgl 1 R_NaInt) 0 (by decide) (by decide) (by decide)
      (fun _ => by decide) (by decide) (by decide)
  exact ⟨st, c, h1, h3 0 (by decide) (by decide), h7.mpr ⟨0, by decide, by decide⟩, h6⟩

/-- C9 as stated fails: a native value `2` is written back as the byte `2`, not
as the packed not-available byte `(jbyte) 255 = -1`, and the outcome reported
is complete. -/
theorem releaseNativeArray_logical_counterexample :
    (stateLgl 1 2).elem 0 = ⟨SEXPTYPE.LGLSXP, 1, 2, 3⟩ ∧
    (stateLgl 1 2).env.cmem 3 = [2] ∧
    (releaseNativeArray R_NaInt (stateLgl 1 2) 0).isOk = true ∧
    (releaseNativeArray R_NaInt (stateLgl 1 2) 0).state.env.arrays 2 = [2] ∧
    toJByte 255 = -1 ∧
    (releaseNativeArray R_NaInt (stateLgl 1 2) 0).state.env.completeLog = [(1, true)] := by
  decide

/-! ## C10: pushing a boolean mirror to the managed side -/

/-- C10, the code at the failing input. For a live boolean entry whose native
buffer holds `NA_INTEGER`, `updateJObject` leaves the table as it is and
writes the byte `0` (false) into the managed array, where
`releaseNativeArray` writes `-1`, the packed not-available byte. -/
theorem updateJObject_logical_na :
    (stateLgl (-1) R_NaInt).elem 0 = ⟨SEXPTYPE.LGLSXP, 1, 2, 3⟩ ∧
    (stateLgl (-1) R_NaInt).env.cmem 3 = [R_NaInt] ∧
    (updateJObject (stateLgl (-1) R_NaInt) 1).state.env.arrays 2 = [0] ∧
    (updateJObject (stateLgl (-1) R_NaInt) 1).state.nativeArrayTable
      = (stateLgl (-1) R_NaInt).nativeArrayTable ∧
    (releaseNativeArray R_NaInt (stateLgl (-1) R_NaInt) 0).state.env.arrays 2 = [-1] := by
  decide

/-! ## C4: stale detection -/

/-- The element read back after a write to the table. -/
theorem elem_set (s : State) (i j : Nat) (e : NativeArrayElem) (st : State)
    (h : st.nativeArrayTable = s.nativeArrayTable.set i e) :
    st.elem j = if i = j ∧ i < s.nativeArrayTable.length then e else s.elem j := by
  simp only [State.elem, h, getD_set]

/-- An index holding a live entry lies inside the allocated table. -/
theorem lt_length_of_live (s : State) (i : Nat) (h : (s.elem i).obj ≠ NULL) :
    i < s.nativeArrayTable.length := by
  by_contra hlt
  apply h
  simp [State.elem, List.getD_eq_getElem?_getD, List.getElem?_eq_none (Nat.le_of_not_lt hlt),
    NativeArrayElem.zero]

/-- C4. For every live entry of a vector kind whose object's present backing
array, as the up-call returns it, is not the array recorded in the entry,
`updateNativeArray` returns with the entry tombstoned and copies nothing:
the environment (native buffers, managed arrays) is the same, and so are
every other entry of the table and its high-water mark. -/
theorem updateNativeArray_stale (s : State) (i : Nat)
    (hobj : (s.elem i).obj ≠ NULL)
    (hkind : (s.elem i).type = SEXPTYPE.INTSXP ∨ (s.elem i).type = SEXPTYPE.REALSXP ∨
      (s.elem i).type = SEXPTYPE.RAWSXP ∨ (s.elem i).type = SEXPTYPE.LGLSXP)
    (hstale : fast_IsSameObject s.env (s.env.upcall (s.elem i).obj (s.elem i).type)
      (s.elem i).jArray = false) :
    ∃ st, updateNativeArray s i = Result.ok () st ∧
      (st.elem i).obj = NULL ∧
      st.env = s.env ∧
      (∀ j, j ≠ i → st.elem j = s.elem j) ∧
      (st.elem i).type = (s.elem i).type ∧ (st.elem i).jArray = (s.elem i).jArray ∧
      (st.elem i).data = (s.elem i).data ∧
      st.nativeArrayTableHwm = s.nativeArrayTableHwm ∧
      st.nativeArrayTableLength = s.nativeArrayTableLength ∧
      st.callDepth = s.callDepth := by
  have hlen := lt_length_of_live s i hobj
  have hchar : (s.elem i).type ≠ SEXPTYPE.CHARSXP := by
    rcases hkind with h | h | h | h <;> rw [h] <;> decide
  have hj : getJArray s.env (s.elem i).obj (s.elem i).type
      = some (s.env.upcall (s.elem i).obj (s.elem i).type) := by
    rcases hkind with h | h | h | h <;> rw [h] <;> rfl
  have hne : ¬ fast_IsSameObject s.env (s.env.upcall (s.elem i).obj (s.elem i).type)
      (s.elem i).jArray = true := by
    rw [hstale]; exact Bool.false_ne_true
  unfold updateNativeArray
  simp only []
  rw [if_pos ⟨hobj, hchar⟩, hj]
  simp only []
  rw [if_neg hne]
  refine ⟨_, rfl, ?_, rfl, ?_, ?_, ?_, ?_, rfl, rfl, rfl⟩
  · rw [elem_set s i i _ _ rfl, if_pos ⟨rfl, hlen⟩]
  · intro j hj
    rw [elem_set s i j _ _ rfl, if_neg (fun h => hj h.1.symm)]
  · rw [elem_set s i i _ _ rfl, if_pos ⟨rfl, hlen⟩]
  · rw [elem_set s i i _ _ rfl, if_pos ⟨rfl, hlen⟩]
  · rw [elem_set s i i _ _ rfl, if_pos ⟨rfl, hlen⟩]

/-- Witness for C4: the entry of object `1` records array `2`, the runtime now
returns array `1001`; the refresh tombstones the entry and copies nothing. -/
theorem updateNativeArray_stale_witness :
    ∃ st, updateNativeArray (stateLgl 1 1) 0 = Result.ok () st ∧
      (st.elem 0).obj = NULL ∧ st.env = (stateLgl 1 1).env := by
  obtain ⟨st, h1, h2, h3, _⟩ :=
    updateNativeArray_stale (stateLgl 1 1) 0 (by decide) (by decide) (by decide)
  exact ⟨st, h1, h2, h3⟩

/-! ## C6: permanent global references -/

/-- A loop whose body keeps an invariant returns, with the invariant at its end. -/
theorem forRange_inv (body : State → Nat → Result Unit) (P : Nat → State → Prop) :
    ∀ (n lo : Nat) (s : State), P lo s →
      (∀ k st, lo ≤ k → k < lo + n → P k st → ∃ st1, body st k = Result.ok () st1 ∧ P (k + 1) st1) →
      ∃ st1, forRange body lo n s = Result.ok () st1 ∧ P (lo + n) st1 := by
  intro n
  induction n with
  | zero => intro lo s h _; exact ⟨s, rfl, h⟩
  | succ n ih =>
    intro lo s h hbody
    obtain ⟨s1, hs1, hP1⟩ := hbody lo s (le_refl _) (by omega) h
    obtain ⟨s2, hs2, hP2⟩ := ih (lo + 1) s1 hP1
      (fun k st hk1 hk2 hP => hbody k st (by omega) (by omega) hP)
    refine ⟨s2, ?_, ?_⟩
    · simp only [forRange, hs1, hs2]
    · have : lo + (n + 1) = lo + 1 + n := by omega
      rw [this]; exact hP2

/-- A loop that returns: an invariant that every returning iteration keeps
holds at its end. -/
theorem forRange_ok (body : State → Nat → Result Unit) (P : Nat → State → Prop) :
    ∀ (n lo : Nat) (s st : State), forRange body lo n s = Result.ok () st → P lo s →
      (∀ k t t1, lo ≤ k → k < lo + n → P k t → body t k = Result.ok () t1 → P (k + 1) t1) →
      P (lo + n) st := by
  intro n
  induction n with
  | zero => intro lo s st h hP _; simp only [forRange] at h; cases h; exact hP
  | succ n ih =>
    intro lo s st h hP hbody
    simp only [forRange] at h
    cases hb : body s lo with
    | ok u s1 =>
      rw [hb] at h
      have key := ih (lo + 1) s1 st h (hbody lo s s1 (le_refl _) (by omega) hP hb)
        (fun k t t1 hk1 hk2 => hbody k t t1 (by omega) (by omega))
      have e : lo + (n + 1) = lo + 1 + n := by omega
      rw [e]; exact key
    | fatal msg s1 => rw [hb] at h; cases h
    | crash s1 => rw [hb] at h; cases h

/-- Identity of references depends on the environment through `oop` only. -/
theorem fast_IsSameObject_congr (e1 e2 : JNIEnv) (h : e1.oop = e2.oop) (a b : Ptr) :
    fast_IsSameObject e1 a b = fast_IsSameObject e2 a b := by
  simp only [fast_IsSameObject, h]

/-- The global reference read back after a write to the table. -/
theorem gelem_set (s : State) (i j : Nat) (e : GlobalRefElem) (st : State)
    (h : st.cachedGlobalRefs = s.cachedGlobalRefs.set i e) :
    st.gelem j = if i = j ∧ i < s.cachedGlobalRefs.length then e else s.gelem j := by
  simp only [State.gelem, h, getD_set]

/-- An index holding a non-null global reference lies inside the allocated table. -/
theorem lt_length_of_gref (s : State) (i : Nat) (h : (s.gelem i).gref ≠ NULL) :
    i < s.cachedGlobalRefs.length := by
  by_contra hlt
  apply h
  simp [State.gelem, List.getD_eq_getElem?_getD, List.getElem?_eq_none (Nat.le_of_not_lt hlt),
    GlobalRefElem.zero]

/-- What `releaseGlobalRef` does to each entry. -/
theorem releaseGlobalRef_spec (s : State) (obj : SEXP) :
    ∃ st, releaseGlobalRef s obj = Result.ok () st ∧
      st.cachedGlobalRefsHwm = s.cachedGlobalRefsHwm ∧
      st.cachedGlobalRefsLength = s.cachedGlobalRefsLength ∧
      st.cachedGlobalRefs.length = s.cachedGlobalRefs.length ∧
      st.env.oop = s.env.oop ∧
      (∀ i, Cleared s obj i → st.gelem i = { s.gelem i with gref := NULL }) ∧
      (∀ i, ¬ Cleared s obj i → st.gelem i = s.gelem i) := by
  have h := forRange_inv (releaseGlobalRefAt obj)
    (fun k st => st.cachedGlobalRefsHwm = s.cachedGlobalRefsHwm ∧
      st.cachedGlobalRefsLength = s.cachedGlobalRefsLength ∧
      st.cachedGlobalRefs.length = s.cachedGlobalRefs.length ∧
      st.env.oop = s.env.oop ∧
      (∀ i, (i < k ∧ Cleared s obj i) → st.gelem i = { s.gelem i with gref := NULL }) ∧
      (∀ i, ¬ (i < k ∧ Cleared s obj i) → st.gelem i = s.gelem i))
    s.cachedGlobalRefsHwm 0 s
    ⟨rfl, rfl, rfl, rfl, fun i hi => absurd hi.1 (Nat.not_lt_zero i), fun i _ => rfl⟩
    (by
      intro k st _ hk ⟨h1, h2, h3, h4, h5, h6⟩
      have hk' : k < s.cachedGlobalRefsHwm := by omega
      have hsame : st.gelem k = s.gelem k := h6 k (fun h => absurd h.1 (lt_irrefl k))
      have hfs : fast_IsSameObject st.env (st.gelem k).gref obj
          = fast_IsSameObject s.env (s.gelem k).gref obj := by
        rw [hsame]; exact fast_IsSameObject_congr _ _ h4 _ _
      by_cases hc : Cleared s obj k
      · obtain ⟨_, hp, hg, hf⟩ := hc
        have hcond : ¬ ((st.gelem k).gref = NULL ∨ (st.gelem k).permanent ≠ 0) := by
          rw [hsame]; intro h; rcases h with h | h
          · exact hg h
          · exact h hp
        have hlen : k < st.cachedGlobalRefs.length := by
          rw [h3]; exact lt_length_of_gref s k hg
        refine ⟨{ st with env := DeleteGlobalRef st.env (st.gelem k).gref,
                          cachedGlobalRefs :=
                            st.cachedGlobalRefs.set k { st.gelem k with gref := NULL } },
          ?_, h1, h2, ?_, h4, ?_, ?_⟩
        · simp only [releaseGlobalRefAt]
          rw [if_neg hcond, if_pos (by rw [hfs]; exact hf)]
        · simp [h3]
        · intro i hi
          rw [gelem_set st k i _ _ rfl]
          by_cases hik : k = i
          · subst hik; rw [if_pos ⟨rfl, hlen⟩, hsame]
          · rw [if_neg (fun h => hik h.1)]
            exact h5 i ⟨by omega, hi.2⟩
        · intro i hi
          rw [gelem_set st k i _ _ rfl]
          by_cases hik : k = i
          · subst hik
            exact absurd ⟨Nat.lt_succ_self k, hk', hp, hg, hf⟩ hi
          · rw [if_neg (fun h => hik h.1)]
            exact h6 i (fun h => hi ⟨by omega, h.2⟩)
      · have hstep : releaseGlobalRefAt obj st k = Result.ok () st := by
          simp only [releaseGlobalRefAt]
          by_cases hcond : (st.gelem k).gref = NULL ∨ (st.gelem k).permanent ≠ 0
          · rw [if_pos hcond]
          · rw [if_neg hcond]
            rw [hsame] at hcond
            have hg : (s.gelem k).gref ≠ NULL := fun h => hcond (Or.inl h)
            have hp : (s.gelem k).permanent = 0 := by
              by_contra h; exact hcond (Or.inr h)
            have hf : ¬ fast_IsSameObject st.env (st.gelem k).gref obj = true := by
              rw [hfs]; intro hf; exact hc ⟨hk', hp, hg, hf⟩
            rw [if_neg hf]
        refine ⟨st, hstep, h1, h2, h3, h4, ?_, ?_⟩
        · intro i hi
          have : i ≠ k := fun h => hc (h ▸ hi.2)
          exact h5 i ⟨by omega, hi.2⟩
        · intro i hi
          exact h6 i (fun h => hi ⟨by omega, h.2⟩))
  obtain ⟨st, hst, h1, h2, h3, h4, h5, h6⟩ := h
  refine ⟨st, hst, h1, h2, h3, h4, ?_, ?_⟩
  · intro i hi; exact h5 i ⟨by simpa using hi.1, hi⟩
  · intro i hi; exact h6 i (fun h => hi h.2)


/-- The scan of `findCachedGlobalRef` returns the first non-null reference
identical to the object. -/
theorem findCachedGlobalRefFrom_first (st : State) (o : SEXP) (k : Nat)
    (hg : (st.gelem k).gref ≠ NULL)
    (hf : fast_IsSameObject st.env (st.gelem k).gref o = true) :
    ∀ (n i : Nat), i ≤ k → k < i + n →
      (∀ j, i ≤ j → j < k →
        ¬ ((st.gelem j).gref ≠ NULL ∧ fast_IsSameObject st.env (st.gelem j).gref o = true)) →
      findCachedGlobalRefFrom st o i n = (st.gelem k).gref := by
  intro n
  induction n with
  | zero => intro i h1 h2; omega
  | succ n ih =>
    intro i h1 h2 hbefore
    by_cases hik : i = k
    · subst hik
      simp only [findCachedGlobalRefFrom]
      rw [if_neg hg, if_pos hf]
    · have hlt : i < k := by omega
      have hnot := hbefore i (le_refl _) hlt
      simp only [findCachedGlobalRefFrom]
      by_cases hnull : (st.gelem i).gref = NULL
      · rw [if_pos hnull]
        exact ih (i + 1) (by omega) (by omega) (fun j hj1 hj2 => hbefore j (by omega) hj2)
      · rw [if_neg hnull, if_neg (fun h => hnot ⟨hnull, h⟩)]
        exact ih (i + 1) (by omega) (by omega) (fun j hj1 hj2 => hbefore j (by omega) hj2)

/-- After any number of releases the permanent entries are as before, and every
reference is as before or cleared. -/
theorem releaseGlobalRefs_inv (s0 : State) :
    ∀ (objs : List SEXP) (s : State),
      s.cachedGlobalRefsHwm = s0.cachedGlobalRefsHwm → s.env.oop = s0.env.oop →
      (∀ i, (s0.gelem i).permanent ≠ 0 → s.gelem i = s0.gelem i) →
      (∀ i, (s.gelem i).gref = (s0.gelem i).gref ∨ (s.gelem i).gref = NULL) →
      ∃ st, releaseGlobalRefs s objs = Result.ok () st ∧
        st.cachedGlobalRefsHwm = s0.cachedGlobalRefsHwm ∧ st.env.oop = s0.env.oop ∧
        (∀ i, (s0.gelem i).permanent ≠ 0 → st.gelem i = s0.gelem i) ∧
        (∀ i, (st.gelem i).gref = (s0.gelem i).gref ∨ (st.gelem i).gref = NULL) := by
  intro objs
  induction objs with
  | nil => intro s h1 h2 h3 h4; exact ⟨s, rfl, h1, h2, h3, h4⟩
  | cons o os ih =>
    intro s h1 h2 h3 h4
    obtain ⟨s1, hs1, g1, _, _, g4, g5, g6⟩ := releaseGlobalRef_spec s o
    have hperm : ∀ i, (s0.gelem i).permanent ≠ 0 → s1.gelem i = s0.gelem i := by
      intro i hi
      have : ¬ Cleared s o i := by
        intro hc
        have := hc.2.1
        rw [h3 i hi] at this
        exact hi this
      rw [g6 i this]; exact h3 i hi
    have hgref : ∀ i, (s1.gelem i).gref = (s0.gelem i).gref ∨ (s1.gelem i).gref = NULL := by
      intro i
      by_cases hc : Cleared s o i
      · right; rw [g5 i hc]
      · rw [g6 i hc]; exact h4 i
    obtain ⟨st, hst, r⟩ := ih s1 (g1.trans h1) (g4.trans h2) hperm hgref
    refine ⟨st, ?_, r⟩
    simp only [releaseGlobalRefs, hs1, hst]

/-- C6. `releaseGlobalRef(object)` returns; it leaves every entry whose permanent
flag is set as it was, clears the reference of every non-permanent entry
identical to the object, and leaves all other entries as they were, so that
afterwards no non-permanent entry identical to the object remains. After any
number of releases every permanent entry is as before, and a permanent
reference that `findCachedGlobalRef` returned for an object is still what it
returns. -/
theorem releaseGlobalRef_permanent (s : State) (obj : SEXP) (objs : List SEXP) :
    (∃ st, releaseGlobalRef s obj = Result.ok () st ∧
      st.cachedGlobalRefsHwm = s.cachedGlobalRefsHwm ∧
      (∀ i, (s.gelem i).permanent ≠ 0 → st.gelem i = s.gelem i) ∧
      (∀ i, Cleared s obj i →
        (st.gelem i).gref = NULL ∧ (st.gelem i).permanent = (s.gelem i).permanent) ∧
      (∀ i, ¬ Cleared s obj i → st.gelem i = s.gelem i) ∧
      (∀ i, ¬ Cleared st obj i)) ∧
    (∃ st, releaseGlobalRefs s objs = Result.ok () st ∧
      st.cachedGlobalRefsHwm = s.cachedGlobalRefsHwm ∧
      (∀ i, (s.gelem i).permanent ≠ 0 → st.gelem i = s.gelem i) ∧
      (∀ o k, k < s.cachedGlobalRefsHwm → (s.gelem k).permanent ≠ 0 →
        (s.gelem k).gref ≠ NULL → fast_IsSameObject s.env (s.gelem k).gref o = true →
        (∀ j, j < k →
          ¬ ((s.gelem j).gref ≠ NULL ∧ fast_IsSameObject s.env (s.gelem j).gref o = true)) →
        findCachedGlobalRef s o = (s.gelem k).gref ∧
        findCachedGlobalRef st o = (s.gelem k).gref)) := by
  constructor
  · obtain ⟨st, hst, g1, _, _, g4, g5, g6⟩ := releaseGlobalRef_spec s obj
    refine ⟨st, hst, g1, ?_, ?_, g6, ?_⟩
    · intro i hi
      exact g6 i (fun hc => hi hc.2.1)
    · intro i hc
      rw [g5 i hc]; exact ⟨rfl, rfl⟩
    · intro i hc
      obtain ⟨c1, c2, c3, c4⟩ := hc
      by_cases hs : Cleared s obj i
      · rw [g5 i hs] at c3; exact c3 rfl
      · rw [g6 i hs] at c2 c3 c4
        rw [fast_IsSameObject_congr _ _ g4] at c4
        exact hs ⟨g1 ▸ c1, c2, c3, c4⟩
  · obtain ⟨st, hst, r1, r2, r3, r4⟩ :=
      releaseGlobalRefs_inv s objs s rfl rfl (fun _ _ => rfl) (fun _ => Or.inl rfl)
    refine ⟨st, hst, r1, r3, ?_⟩
    intro o k hk hp hg hf hfirst
    constructor
    · exact findCachedGlobalRefFrom_first s o k hg hf s.cachedGlobalRefsHwm 0 (Nat.zero_le _)
        (by omega) (fun j _ hj => hfirst j hj)
    · have hk' := r3 k hp
      have := findCachedGlobalRefFrom_first st o k (by rw [hk']; exact hg)
        (by rw [hk', fast_IsSameObject_congr _ _ r2]; exact hf)
        st.cachedGlobalRefsHwm 0 (Nat.zero_le _) (by rw [r1]; omega)
        (by
          intro j _ hj ⟨hn, hsame⟩
          rcases r4 j with h | h
          · rw [h] at hn hsame
            rw [fast_IsSameObject_congr _ _ r2] at hsame
            exact hfirst j hj ⟨hn, hsame⟩
          · exact hn h)
      rw [← hk']
      exact this

/-- Witness for C6: in a table holding a non-permanent and a permanent reference
to the same object, releasing the object twice clears the first and leaves
the second, which `findCachedGlobalRef` then returns. -/
theorem releaseGlobalRef_permanent_witness :
    (∃ st, releaseGlobalRef stateRefs 31 = Result.ok () st ∧
      (st.gelem 0).gref = NULL ∧ st.gelem 1 = ⟨1, 21⟩) ∧
    (∃ st, releaseGlobalRefs stateRefs [31, 31] = Result.ok () st ∧
      findCachedGlobalRef st 32 = 12) := by
  obtain ⟨⟨st, h1, _, h3, h4, _⟩, ⟨st2, k1, _, _, k4⟩⟩ :=
    releaseGlobalRef_permanent stateRefs 31 [31, 31]
  refine ⟨⟨st, h1, (h4 0 (by decide)).1, h3 1 (by decide)⟩, ⟨st2, k1, ?_⟩⟩
  exact (k4 32 2 (by decide) (by decide) (by decide) (by decide) (by decide)).2

/-! ## C5: growth of the mirror table -/

/-- Appending below the capacity: the new element is stored at the high-water
mark, nothing else changes. -/
theorem addNativeArray_room (s : State) (x : SEXP) (type : SEXPTYPE) (jArray data : Ptr)
    (hlen : s.nativeArrayTable.length = s.nativeArrayTableLength)
    (hroom : s.nativeArrayTableHwm < s.nativeArrayTableLength) :
    ∃ st, addNativeArray s x type jArray data = Result.ok () st ∧
      st.nativeArrayTableLength = s.nativeArrayTableLength ∧
      st.nativeArrayTable.length = s.nativeArrayTableLength ∧
      st.nativeArrayTableHwm = s.nativeArrayTableHwm + 1 ∧
      st.elem s.nativeArrayTableHwm = ⟨type, x, jArray, data⟩ ∧
      (∀ i, i ≠ s.nativeArrayTableHwm → st.elem i = s.elem i) ∧
      st.env = s.env ∧ st.callDepth = s.callDepth ∧
      st.nativeArrayTableHwmStack = s.nativeArrayTableHwmStack ∧
      st.nativeArrayTableLastIndex = s.nativeArrayTableLastIndex := by
  unfold addNativeArray
  simp only []
  rw [if_neg (not_le.mpr hroom)]
  refine ⟨_, rfl, rfl, ?_, rfl, ?_, ?_, rfl, rfl, rfl, rfl⟩
  · simp [hlen]
  · rw [elem_set s _ _ _ _ rfl, if_pos ⟨rfl, by rw [hlen]; exact hroom⟩]
  · intro i hi
    rw [elem_set s _ i _ _ rfl, if_neg (fun h => hi h.1.symm)]

/-- Appending to a full table when `calloc` succeeds: the capacity doubles, the
old elements are copied, the new one is stored at the old high-water mark. -/
theorem addNativeArray_full (s : State) (x : SEXP) (type : SEXPTYPE) (jArray data : Ptr)
    (hlen : s.nativeArrayTable.length = s.nativeArrayTableLength)
    (hfull : s.nativeArrayTableHwm = s.nativeArrayTableLength)
    (hpos : 0 < s.nativeArrayTableLength)
    (halloc : s.env.addrs s.env.nalloc ≠ NULL) :
    ∃ st, addNativeArray s x type jArray data = Result.ok () st ∧
      st.nativeArrayTableLength = 2 * s.nativeArrayTableLength ∧
      st.nativeArrayTable.length = 2 * s.nativeArrayTableLength ∧
      st.nativeArrayTableHwm = s.nativeArrayTableHwm + 1 ∧
      st.elem s.nativeArrayTableHwm = ⟨type, x, jArray, data⟩ ∧
      (∀ i, i ≠ s.nativeArrayTableHwm → st.elem i = s.elem i) ∧
      st.env = (calloc s.env).2 ∧ st.callDepth = s.callDepth ∧
      st.nativeArrayTableHwmStack = s.nativeArrayTableHwmStack ∧
      st.nativeArrayTableLastIndex = s.nativeArrayTableLastIndex := by
  unfold addNativeArray
  simp only []
  rw [if_pos (le_of_eq hfull.symm), if_neg (by simpa [calloc] using halloc)]
  have hl2 : (s.nativeArrayTable.take s.nativeArrayTableLength
      ++ List.replicate (2 * s.nativeArrayTableLength - s.nativeArrayTableLength)
          NativeArrayElem.zero).length = 2 * s.nativeArrayTableLength := by
    simp [hlen]; omega
  have htake : s.nativeArrayTable.take s.nativeArrayTableLength = s.nativeArrayTable := by
    rw [← hlen]; exact List.take_length _
  refine ⟨_, rfl, rfl, ?_, rfl, ?_, ?_, rfl, rfl, rfl, rfl⟩
  · simp only [List.length_set]; exact hl2
  · simp only [State.elem, getD_set]
    rw [if_pos ⟨trivial, by rw [hl2]; omega⟩]
  · intro i hi
    simp only [State.elem, getD_set]
    rw [if_neg (fun h => hi h.1.symm), htake]
    simp only [List.getD_eq_getElem?_getD]
    by_cases hil : i < s.nativeArrayTable.length
    · rw [List.getElem?_append_left hil]
    · have hge : s.nativeArrayTable.length ≤ i := Nat.le_of_not_lt hil
      rw [List.getElem?_append_right hge, List.getElem?_eq_none hge]
      by_cases h2 : i - s.nativeArrayTable.length
          < 2 * s.nativeArrayTableLength - s.nativeArrayTableLength
      · rw [List.getElem?_replicate, if_pos h2]; rfl
      · rw [List.getElem?_eq_none (by simpa using Nat.le_of_not_lt h2)]

/-! ## Lemmas on `findNativeArray` -/

/-- The scan returns a live entry identical to the object, inside its range. -/
theorem findScan_some (s : State) (x : SEXP) :
    ∀ (n i k : Nat), findScan s x i n = some k →
      i ≤ k ∧ k < i + n ∧ (s.elem k).obj ≠ NULL ∧
        fast_IsSameObject s.env (s.elem k).obj x = true ∧
        ∀ j, i ≤ j → j < k →
          ¬ ((s.elem j).obj ≠ NULL ∧ fast_IsSameObject s.env (s.elem j).obj x = true) := by
  intro n
  induction n with
  | zero => intro i k h; simp [findScan] at h
  | succ n ih =>
    intro i k h
    simp only [findScan] at h
    by_cases hc : (s.elem i).obj ≠ NULL ∧ fast_IsSameObject s.env (s.elem i).obj x = true
    · rw [if_pos hc] at h
      cases h
      exact ⟨le_refl _, by omega, hc.1, hc.2, fun j h1 h2 => by omega⟩
    · rw [if_neg hc] at h
      obtain ⟨h1, h2, h3, h4, h5⟩ := ih (i + 1) k h
      refine ⟨by omega, by omega, h3, h4, ?_⟩
      intro j hj1 hj2
      by_cases hji : j = i
      · rw [hji]; exact hc
      · exact h5 j (by omega) hj2

/-- The scan finds nothing only if no live entry in its range is identical to
the object. -/
theorem findScan_none (s : State) (x : SEXP) :
    ∀ (n i : Nat), findScan s x i n = none →
      ∀ j, i ≤ j → j < i + n →
        ¬ ((s.elem j).obj ≠ NULL ∧ fast_IsSameObject s.env (s.elem j).obj x = true) := by
  intro n
  induction n with
  | zero => intro i _ j h1 h2; omega
  | succ n ih =>
    intro i h j hj1 hj2
    simp only [findScan] at h
    by_cases hc : (s.elem i).obj ≠ NULL ∧ fast_IsSameObject s.env (s.elem i).obj x = true
    · rw [if_pos hc] at h; cases h
    · rw [if_neg hc] at h
      by_cases hji : j = i
      · rw [hji]; exact hc
      · exact ih (i + 1) h j (by omega) (by omega)

/-- The scan reads the table and the identities only. -/
theorem findScan_congr (s t : State) (x : SEXP)
    (htab : s.nativeArrayTable = t.nativeArrayTable) (hoop : s.env.oop = t.env.oop) :
    ∀ (n i : Nat), findScan s x i n = findScan t x i n := by
  intro n
  induction n with
  | zero => intro i; rfl
  | succ n ih =>
    intro i
    simp only [findScan, State.elem, htab, fast_IsSameObject_congr s.env t.env hoop, ih]

/-- A reference is identical to itself. -/
theorem fast_IsSameObject_self (env : JNIEnv) (a : Ptr) : fast_IsSameObject env a a = true := by
  simp [fast_IsSameObject]

/-- `findNativeArray` changes `nativeArrayTableLastIndex` at most. -/
theorem findNativeArray_state (s : State) (x : SEXP) :
    (findNativeArray s x).2 =
      { s with nativeArrayTableLastIndex := (findNativeArray s x).2.nativeArrayTableLastIndex } := by
  unfold findNativeArray
  split
  · rfl
  · split <;> rfl

/-- What `findNativeArray` returns is a live entry below the high-water mark,
identical to the object. -/
theorem findNativeArray_some (s : State) (x : SEXP) (k : Nat)
    (h : (findNativeArray s x).1 = some k) :
    k < s.nativeArrayTableHwm ∧ (s.elem k).obj ≠ NULL ∧
      fast_IsSameObject s.env (s.elem k).obj x = true := by
  unfold findNativeArray at h
  split at h
  · rename_i hc
    cases h
    refine ⟨hc.1, hc.2.1, ?_⟩
    rcases hc.2.2 with h | h
    · rw [h]; exact fast_IsSameObject_self _ _
    · exact h
  · split at h
    · rename_i i hi
      cases h
      obtain ⟨_, h2, h3, h4, _⟩ := findScan_some s x _ _ _ hi
      exact ⟨by omega, h3, h4⟩
    · cases h

/-- `findNativeArray` returns nothing only if no live entry below the high-water
mark is identical to the object. -/
theorem findNativeArray_none (s : State) (x : SEXP) (h : (findNativeArray s x).1 = none) :
    ∀ j, j < s.nativeArrayTableHwm →
      ¬ ((s.elem j).obj ≠ NULL ∧ fast_IsSameObject s.env (s.elem j).obj x = true) := by
  unfold findNativeArray at h
  split at h
  · cases h
  · split at h
    · cases h
    · rename_i hn
      intro j hj
      exact findScan_none s x _ _ hn j (Nat.zero_le _) (by omega)

/-- If some live entry below the high-water mark is identical to the object,
`findNativeArray` returns an entry. -/
theorem findNativeArray_isSome (s : State) (x : SEXP) (j : Nat)
    (hj : j < s.nativeArrayTableHwm) (hlive : (s.elem j).obj ≠ NULL)
    (hsame : fast_IsSameObject s.env (s.elem j).obj x = true) :
    ∃ k, (findNativeArray s x).1 = some k := by
  cases h : (findNativeArray s x).1 with
  | some k => exact ⟨k, rfl⟩
  | none => exact absurd ⟨hlive, hsame⟩ (findNativeArray_none s x h j hj)

/-! ## Lemmas on `releaseNativeArray` and `getNativeArray` -/

/-- Writing back the element read changes nothing. -/
theorem set_elem_self (s : State) (i : Nat) :
    s.nativeArrayTable.set i (s.elem i) = s.nativeArrayTable := by
  apply List.ext_getElem?
  intro j
  rw [List.getElem?_set]
  by_cases h : i = j
  · subst h
    by_cases h2 : i < s.nativeArrayTable.length
    · simp [h2, State.elem, List.getD_eq_getElem?_getD, List.getElem?_eq_getElem h2]
    · simp [h2, List.getElem?_eq_none (Nat.le_of_not_lt h2)]
  · simp [h]

/-- When `releaseNativeArray` returns, it has cleared the source object of the
entry and touched no other static variable; identities, up-calls and the
allocator's choices stay. -/
theorem releaseNativeArray_spec (NA_INTEGER : Int) (s st : State) (i : Nat)
    (h : releaseNativeArray NA_INTEGER s i = Result.ok () st) :
    st = { s with nativeArrayTable := s.nativeArrayTable.set i { s.elem i with obj := NULL },
                  env := st.env } ∧
      st.env.oop = s.env.oop ∧ st.env.upcall = s.env.upcall ∧ st.env.addrs = s.env.addrs := by
  unfold releaseNativeArray at h
  simp only [] at h
  by_cases hobj : (s.elem i).obj = NULL
  · rw [if_neg (not_not.mpr hobj)] at h
    cases h
    refine ⟨?_, rfl, rfl, rfl⟩
    have : ({ s.elem i with obj := NULL } : NativeArrayElem) = s.elem i := by
      cases h : s.elem i with
      | mk t o j d => rw [h] at hobj; simp only at hobj; rw [hobj]
    rw [this, set_elem_self]
  · rw [if_pos hobj] at h
    cases ht : (s.elem i).type with
    | OTHER c => rw [ht] at h; cases h
    | CHARSXP => rw [ht] at h; cases h; exact ⟨by simp only [ht], rfl, rfl, rfl⟩
    | LGLSXP =>
      rw [ht] at h
      simp only [] at h
      split at h
      · cases h
      · cases h; exact ⟨by simp only [ht], rfl, rfl, rfl⟩
    | INTSXP => rw [ht] at h; cases h; exact ⟨by simp only [ht], rfl, rfl, rfl⟩
    | REALSXP => rw [ht] at h; cases h; exact ⟨by simp only [ht], rfl, rfl, rfl⟩
    | RAWSXP => rw [ht] at h; cases h; exact ⟨by simp only [ht], rfl, rfl, rfl⟩

/-- `releaseNativeArray` returns on an entry that is dead or of a supported
kind, provided that for a live boolean entry of a non-empty array neither the
buffer of the entry nor the next block of the allocator is `NULL`. -/
theorem releaseNativeArray_returns (NA_INTEGER : Int) (s : State) (i : Nat)
    (hk : (s.elem i).obj = NULL ∨ (s.elem i).type.supported = true)
    (hsafe : (s.elem i).obj ≠ NULL → (s.elem i).type = SEXPTYPE.LGLSXP →
      0 < GetArrayLength s.env (s.elem i).jArray →
      s.env.addrs s.env.nalloc ≠ NULL ∧ (s.elem i).data ≠ NULL) :
    ∃ st, releaseNativeArray NA_INTEGER s i = Result.ok () st := by
  unfold releaseNativeArray
  by_cases hobj : (s.elem i).obj = NULL
  · simp only []
    rw [if_neg (not_not.mpr hobj)]
    exact ⟨s, rfl⟩
  · simp only []
    rw [if_pos hobj]
    have hs : (s.elem i).type.supported = true := by
      rcases hk with h | h
      · exact absurd h hobj
      · exact h
    cases ht : (s.elem i).type with
    | OTHER c => rw [ht] at hs; cases hs
    | CHARSXP => exact ⟨_, rfl⟩
    | LGLSXP =>
      simp only []
      rw [if_neg]
      · exact ⟨_, rfl⟩
      · intro hc
        obtain ⟨a, b⟩ := hsafe hobj ht hc.1
        rcases hc.2 with c | c
        · exact a c
        · exact b c
    | INTSXP => exact ⟨_, rfl⟩
    | REALSXP => exact ⟨_, rfl⟩
    | RAWSXP => exact ⟨_, rfl⟩

/-- When `addNativeArray` returns on a table whose list has the recorded
capacity: the new element is stored at the old high-water mark, all other
elements are as before, the capacity has not shrunk, and only the allocator's
count may have moved in the environment. -/
theorem addNativeArray_ok (s : State) (x : SEXP) (type : SEXPTYPE) (jArray data : Ptr)
    (st : State)
    (hlen : s.nativeArrayTable.length = s.nativeArrayTableLength)
    (hpos : 0 < s.nativeArrayTableLength)
    (hle : s.nativeArrayTableHwm ≤ s.nativeArrayTableLength)
    (hok : addNativeArray s x type jArray data = Result.ok () st) :
    st.nativeArrayTable.length = st.nativeArrayTableLength ∧
      s.nativeArrayTableLength ≤ st.nativeArrayTableLength ∧
      st.nativeArrayTableHwm = s.nativeArrayTableHwm + 1 ∧
      st.nativeArrayTableHwm ≤ st.nativeArrayTableLength ∧
      st.elem s.nativeArrayTableHwm = ⟨type, x, jArray, data⟩ ∧
      (∀ i, i ≠ s.nativeArrayTableHwm → st.elem i = s.elem i) ∧
      (st.env = s.env ∨ st.env = (calloc s.env).2) ∧ st.callDepth = s.callDepth ∧
      st.nativeArrayTableHwmStack = s.nativeArrayTableHwmStack ∧
      st.nativeArrayTableLastIndex = s.nativeArrayTableLastIndex := by
  by_cases hroom : s.nativeArrayTableHwm < s.nativeArrayTableLength
  · obtain ⟨st1, h0, h1, h2, h3, h4, h5, h6, h7, h8, h9⟩ :=
      addNativeArray_room s x type jArray data hlen hroom
    rw [h0] at hok
    cases hok
    exact ⟨by rw [h2, h1], by rw [h1], h3, by omega, h4, h5, Or.inl h6, h7, h8, h9⟩
  · have hfull : s.nativeArrayTableHwm = s.nativeArrayTableLength := by omega
    by_cases halloc : s.env.addrs s.env.nalloc = NULL
    · exfalso
      unfold addNativeArray at hok
      simp only [] at hok
      rw [if_pos (le_of_eq hfull.symm), if_pos (by simpa [calloc] using halloc)] at hok
      cases hok
    · obtain ⟨st1, h0, h1, h2, h3, h4, h5, h6, h7, h8, h9⟩ :=
        addNativeArray_full s x type jArray data hlen hfull hpos halloc
      rw [h0] at hok
      cases hok
      exact ⟨by rw [h2, h1], by omega, h3, by omega, h4, h5, Or.inr h6, h7, h8, h9⟩

/-- When `stringToChars` does not crash: the copy is the second block the
allocator hands out, and identities, up-calls and the allocator's choices
are kept. -/
theorem stringToChars_some (env : JNIEnv) (string : Ptr) (r : Ptr × JNIEnv)
    (h : stringToChars env string = some r) :
    r.1 = env.addrs (env.nalloc + 1) ∧ r.1 ≠ NULL ∧ EnvKeeps env r.2 := by
  unfold stringToChars at h
  simp only [] at h
  split at h
  · cases h
  · rename_i hc
    cases h
    exact ⟨rfl, fun hn => hc (Or.inl hn), ⟨rfl, rfl, rfl, rfl, Nat.le_add_right _ 2⟩⟩

/-- When `extractVectorNativeArray` does not crash, identities, up-calls and
the allocator's choices are kept. -/
theorem extractVectorNativeArray_keeps (NA_INTEGER : Int) (env : JNIEnv) (jArray : Ptr)
    (type : SEXPTYPE) (r : Ptr × JNIEnv)
    (h : extractVectorNativeArray NA_INTEGER env jArray type = some r) :
    EnvKeeps env r.2 := by
  unfold extractVectorNativeArray at h
  cases type with
  | OTHER c => cases h; exact ⟨rfl, rfl, rfl, rfl, le_refl _⟩
  | CHARSXP => cases h; exact ⟨rfl, rfl, rfl, rfl, le_refl _⟩
  | LGLSXP =>
    simp only [] at h
    split at h
    · cases h
    · cases h; exact ⟨rfl, rfl, rfl, rfl, Nat.le_add_right _ 2⟩
  | INTSXP => cases h; exact ⟨rfl, rfl, rfl, rfl, Nat.le_succ _⟩
  | REALSXP => cases h; exact ⟨rfl, rfl, rfl, rfl, Nat.le_succ _⟩
  | RAWSXP => cases h; exact ⟨rfl, rfl, rfl, rfl, Nat.le_succ _⟩

/-- When `extractVectorNativeArray` does not crash on one of the four vector
kinds, the buffer it returns is a block handed out by the allocator. -/
theorem extractVectorNativeArray_addr (NA_INTEGER : Int) (env : JNIEnv) (jArray : Ptr)
    (type : SEXPTYPE) (r : Ptr × JNIEnv)
    (h : extractVectorNativeArray NA_INTEGER env jArray type = some r)
    (ht : type.supported = true) (hc : type ≠ SEXPTYPE.CHARSXP) :
    ∃ k, env.nalloc ≤ k ∧ r.1 = env.addrs k := by
  unfold extractVectorNativeArray at h
  cases type with
  | OTHER c => cases ht
  | CHARSXP => exact absurd rfl hc
  | LGLSXP =>
    simp only [] at h
    split at h
    · cases h
    · cases h; exact ⟨env.nalloc + 1, Nat.le_succ _, rfl⟩
  | INTSXP => cases h; exact ⟨env.nalloc, le_refl _, rfl⟩
  | REALSXP => cases h; exact ⟨env.nalloc, le_refl _, rfl⟩
  | RAWSXP => cases h; exact ⟨env.nalloc, le_refl _, rfl⟩

/-- What an extraction that does not crash leaves: the kind is supported,
identities, up-calls and the allocator's choices are kept, and the buffer is
a block handed out by the allocator. -/
theorem extraction_some (NA_INTEGER : Int) (env : JNIEnv) (x : SEXP) (type : SEXPTYPE)
    (jArray data : Ptr) (env1 : JNIEnv)
    (h : extraction NA_INTEGER env x type = some (jArray, data, env1)) :
    type.supported = true ∧ EnvKeeps env env1 ∧ ∃ k, env.nalloc ≤ k ∧ data = env.addrs k := by
  cases type with
  | OTHER c => simp only [extraction] at h; cases h
  | CHARSXP =>
    simp only [extraction, Option.map_eq_some'] at h
    obtain ⟨r, hr, he⟩ := h
    cases he
    obtain ⟨a, _, b⟩ := stringToChars_some env _ r hr
    exact ⟨rfl, b, env.nalloc + 1, Nat.le_succ _, a⟩
  | LGLSXP =>
    simp only [extraction, Option.map_eq_some'] at h
    obtain ⟨r, hr, he⟩ := h
    cases he
    exact ⟨rfl, extractVectorNativeArray_keeps NA_INTEGER env _ _ r hr,
      extractVectorNativeArray_addr NA_INTEGER env _ _ r hr rfl (by decide)⟩
  | INTSXP =>
    simp only [extraction, Option.map_eq_some'] at h
    obtain ⟨r, hr, he⟩ := h
    cases he
    exact ⟨rfl, extractVectorNativeArray_keeps NA_INTEGER env _ _ r hr,
      extractVectorNativeArray_addr NA_INTEGER env _ _ r hr rfl (by decide)⟩
  | REALSXP =>
    simp only [extraction, Option.map_eq_some'] at h
    obtain ⟨r, hr, he⟩ := h
    cases he
    exact ⟨rfl, extractVectorNativeArray_keeps NA_INTEGER env _ _ r hr,
      extractVectorNativeArray_addr NA_INTEGER env _ _ r hr rfl (by decide)⟩
  | RAWSXP =>
    simp only [extraction, Option.map_eq_some'] at h
    obtain ⟨r, hr, he⟩ := h
    cases he
    exact ⟨rfl, extractVectorNativeArray_keeps NA_INTEGER env _ _ r hr,
      extractVectorNativeArray_addr NA_INTEGER env _ _ r hr rfl (by decide)⟩

/-- The extraction for a supported kind does not crash when the allocator
never returns `NULL`. -/
theorem extraction_returns (NA_INTEGER : Int) (env : JNIEnv) (x : SEXP) (type : SEXPTYPE)
    (hsup : type.supported = true) (ha : ∀ k, env.addrs k ≠ NULL) :
    ∃ r, extraction NA_INTEGER env x type = some r := by
  cases type with
  | OTHER c => cases hsup
  | CHARSXP =>
    simp only [extraction, stringToChars]
    rw [if_neg]
    · exact ⟨_, rfl⟩
    · rintro (h | ⟨_, h⟩)
      · exact ha _ h
      · exact ha _ h
  | LGLSXP =>
    simp only [extraction, extractVectorNativeArray]
    rw [if_neg]
    · exact ⟨_, rfl⟩
    · rintro ⟨_, h | h⟩
      · exact ha _ h
      · exact ha _ h
  | INTSXP => exact ⟨_, rfl⟩
  | REALSXP => exact ⟨_, rfl⟩
  | RAWSXP => exact ⟨_, rfl⟩

/-- Extraction leaves identities, up-calls and the allocator's choices as they are. -/
theorem extraction_env (NA_INTEGER : Int) (env : JNIEnv) (x : SEXP) (type : SEXPTYPE)
    (jArray data : Ptr) (env1 : JNIEnv)
    (h : extraction NA_INTEGER env x type = some (jArray, data, env1)) :
    env1.oop = env.oop ∧ env1.upcall = env.upcall ∧ env1.addrs = env.addrs ∧
      type.supported = true := by
  obtain ⟨a, b, _⟩ := extraction_some NA_INTEGER env x type jArray data env1 h
  exact ⟨b.oop, b.upcall, b.addrs, a⟩

/-- `getNativeArray` when `findNativeArray` returns an entry with a non-null
buffer: that buffer is returned, in the state `findNativeArray` leaves. -/
theorem getNativeArray_hit (NA_INTEGER : Int) (s : State) (x : SEXP) (type : SEXPTYPE) (k : Nat)
    (hk : (findNativeArray s x).1 = some k) (hdata : (s.elem k).data ≠ NULL) :
    getNativeArray NA_INTEGER s x type = Result.ok (s.elem k).data (findNativeArray s x).2 := by
  have hs : (findNativeArray s x).2.elem k = s.elem k := by
    rw [findNativeArray_state]; rfl
  unfold getNativeArray
  simp only [hk, hs]
  rw [if_neg hdata]

/-- `getNativeArray` when `findNativeArray` returns nothing, or an entry with a
null buffer: a fatal error for a rejected kind, a crash where the extraction
goes through a null block, else the extraction followed by `addNativeArray`. -/
theorem getNativeArray_miss (NA_INTEGER : Int) (s : State) (x : SEXP) (type : SEXPTYPE)
    (hmiss : (findNativeArray s x).1 = none ∨
      ∃ k, (findNativeArray s x).1 = some k ∧ (s.elem k).data = NULL) :
    getNativeArray NA_INTEGER s x type =
      match extraction NA_INTEGER s.env x type with
      | none =>
        if type.supported = true then Result.crash (findNativeArray s x).2
        else Result.fatal "getNativeArray: unexpected type" (findNativeArray s x).2
      | some (jArray, data, env1) =>
        match addNativeArray { (findNativeArray s x).2 with env := env1 } x type jArray data with
        | Result.ok _ s2 => Result.ok data s2
        | Result.fatal msg s2 => Result.fatal msg s2
        | Result.crash s2 => Result.crash s2 := by
  have henv : (findNativeArray s x).2.env = s.env := by
    rw [findNativeArray_state]
  have hs : ∀ k, (findNativeArray s x).2.elem k = s.elem k := by
    intro k; rw [findNativeArray_state]; rfl
  have key : ∀ s1 : State,
      (match type with
        | SEXPTYPE.INTSXP =>
          (match getJArray s1.env x type with
            | some jArray =>
              match extractVectorNativeArray NA_INTEGER s1.env jArray type with
              | some r =>
                match addNativeArray { s1 with env := r.2 } x type jArray r.1 with
                | Result.ok _ s2 => Result.ok r.1 s2
                | Result.fatal msg s2 => Result.fatal msg s2
                | Result.crash s2 => Result.crash s2
              | none => Result.crash s1
            | none => Result.fatal "getNativeArray: unexpected type" s1)
        | SEXPTYPE.REALSXP =>
          (match getJArray s1.env x type with
            | some jArray =>
              match extractVectorNativeArray NA_INTEGER s1.env jArray type with
              | some r =>
                match addNativeArray { s1 with env := r.2 } x type jArray r.1 with
                | Result.ok _ s2 => Result.ok r.1 s2
                | Result.fatal msg s2 => Result.fatal msg s2
                | Result.crash s2 => Result.crash s2
              | none => Result.crash s1
            | none => Result.fatal "getNativeArray: unexpected type" s1)
        | SEXPTYPE.RAWSXP =>
          (match getJArray s1.env x type with
            | some jArray =>
              match extractVectorNativeArray NA_INTEGER s1.env jArray type with
              | some r =>
                match addNativeArray { s1 with env := r.2 } x type jArray r.1 with
                | Result.ok _ s2 => Result.ok r.1 s2
                | Result.fatal msg s2 => Result.fatal msg s2
                | Result.crash s2 => Result.crash s2
              | none => Result.crash s1
            | none => Result.fatal "getNativeArray: unexpected type" s1)
        | SEXPTYPE.LGLSXP =>
          (match getJArray s1.env x type with
            | some jArray =>
              match extractVectorNativeArray NA_INTEGER s1.env jArray type with
              | some r =>
                match addNativeArray { s1 with env := r.2 } x type jArray r.1 with
                | Result.ok _ s2 => Result.ok r.1 s2
                | Result.fatal msg s2 => Result.fatal msg s2
                | Result.crash s2 => Result.crash s2
              | none => Result.crash s1
            | none => Result.fatal "getNativeArray: unexpected type" s1)
        | SEXPTYPE.CHARSXP =>
          (match stringToChars s1.env (stringFromCharSXP s1.env x) with
            | some r =>
              match addNativeArray { s1 with env := r.2 } x type
                  (stringFromCharSXP s1.env x) r.1 with
              | Result.ok _ s2 => Result.ok r.1 s2
              | Result.fatal msg s2 => Result.fatal msg s2
              | Result.crash s2 => Result.crash s2
            | none => Result.crash s1)
        | SEXPTYPE.OTHER _ => Result.fatal "getNativeArray: unexpected type" s1 : Result Ptr) =
      match extraction NA_INTEGER s1.env x type with
      | none =>
        if type.supported = true then Result.crash s1
        else Result.fatal "getNativeArray: unexpected type" s1
      | some (jArray, data, env1) =>
        match addNativeArray { s1 with env := env1 } x type jArray data with
        | Result.ok _ s2 => Result.ok data s2
        | Result.fatal msg s2 => Result.fatal msg s2
        | Result.crash s2 => Result.crash s2 := by
    intro s1
    cases type with
    | OTHER c => rfl
    | CHARSXP =>
      simp only [extraction]
      cases stringToChars s1.env (stringFromCharSXP s1.env x) <;> rfl
    | LGLSXP =>
      simp only [extraction, getJArray]
      cases extractVectorNativeArray NA_INTEGER s1.env (s1.env.upcall x SEXPTYPE.LGLSXP)
        SEXPTYPE.LGLSXP <;> rfl
    | INTSXP => rfl
    | REALSXP => rfl
    | RAWSXP => rfl
  unfold getNativeArray
  simp only []
  rcases hmiss with h | ⟨k, h, hd⟩
  · simp only [h]
    rw [if_pos trivial, key (findNativeArray s x).2, henv]
  · simp only [h, hs, hd]
    rw [if_pos trivial, key (findNativeArray s x).2, henv]

/-! ## Lemmas on the invariants and on the release loops -/

/-- An index outside the allocated table reads as the zero element. -/
theorem elem_of_length_le (s : State) (i : Nat) (h : s.nativeArrayTable.length ≤ i) :
    s.elem i = NativeArrayElem.zero := by
  simp [State.elem, List.getD_eq_getElem?_getD, List.getElem?_eq_none h]

/-- An index inside the allocated table reads a member of the list. -/
theorem elem_mem (s : State) (i : Nat) (h : i < s.nativeArrayTable.length) :
    s.elem i ∈ s.nativeArrayTable := by
  simp only [State.elem, List.getD_eq_getElem?_getD, List.getElem?_eq_getElem h, Option.getD_some]
  exact List.getElem_mem h

theorem kindsOK_elem (s : State) (h : KindsOK s) (i : Nat) :
    (s.elem i).obj = NULL ∨ (s.elem i).type.supported = true := by
  by_cases hi : i < s.nativeArrayTable.length
  · exact h _ (elem_mem s i hi)
  · left; rw [elem_of_length_le s i (Nat.le_of_not_lt hi)]; rfl

theorem kindsOK_of_elem (s : State)
    (h : ∀ i, (s.elem i).obj = NULL ∨ (s.elem i).type.supported = true) : KindsOK s := by
  intro e he
  obtain ⟨i, hi, rfl⟩ := List.getElem_of_mem he
  have := h i
  simpa [State.elem, List.getD_eq_getElem?_getD, List.getElem?_eq_getElem hi] using this

theorem clean_elem (s : State) (h : Clean s) (i : Nat) (hi : s.nativeArrayTableHwm ≤ i) :
    (s.elem i).obj = NULL := by
  by_cases hl : i < s.nativeArrayTable.length
  · apply h
    have : s.elem i = s.nativeArrayTable[i] := by
      simp [State.elem, List.getD_eq_getElem?_getD, List.getElem?_eq_getElem hl]
    rw [this]
    have hd : i - s.nativeArrayTableHwm < (s.nativeArrayTable.drop s.nativeArrayTableHwm).length := by
      simp; omega
    have := List.getElem_mem hd
    simpa [List.getElem_drop, Nat.add_sub_cancel' hi] using this
  · rw [elem_of_length_le s i (Nat.le_of_not_lt hl)]; rfl

theorem clean_of_elem (s : State)
    (h : ∀ i, s.nativeArrayTableHwm ≤ i → (s.elem i).obj = NULL) : Clean s := by
  intro e he
  obtain ⟨i, hi, rfl⟩ := List.getElem_of_mem he
  have hi' : s.nativeArrayTableHwm + i < s.nativeArrayTable.length := by
    simp at hi; omega
  have := h (s.nativeArrayTableHwm + i) (Nat.le_add_right _ _)
  simpa [State.elem, List.getD_eq_getElem?_getD, List.getElem?_eq_getElem hi', List.getElem_drop]
    using this

/-- Reading the table after the source object of element `i` was cleared. -/
theorem elem_tombstone (s st : State) (i : Nat)
    (h : st.nativeArrayTable = s.nativeArrayTable.set i { s.elem i with obj := NULL }) (j : Nat) :
    st.elem j = if i = j then { s.elem i with obj := NULL } else s.elem j := by
  rw [elem_set s i j _ st h]
  by_cases hij : i = j
  · subst hij
    by_cases hl : i < s.nativeArrayTable.length
    · rw [if_pos ⟨rfl, hl⟩, if_pos rfl]
    · rw [if_neg (fun hh => hl hh.2), if_pos rfl, elem_of_length_le s i (Nat.le_of_not_lt hl)]
      rfl
  · rw [if_neg (fun hh => hij hh.1), if_neg hij]

/-- When `callExit` returns: the elements from the frame's recorded mark up to
the high-water mark have lost their source object, no other element has
changed; the high-water mark is the recorded mark and `callDepth` has gone
down by one. -/
theorem callExit_spec (NA_INTEGER : Int) (s st : State)
    (h : callExit NA_INTEGER s = Result.ok () st) :
    st = { s with nativeArrayTable := st.nativeArrayTable, env := st.env,
                  nativeArrayTableHwm := s.nativeArrayTableHwmStack (s.callDepth - 1),
                  callDepth := s.callDepth - 1 } ∧
      st.nativeArrayTable.length = s.nativeArrayTable.length ∧
      st.env.oop = s.env.oop ∧ st.env.upcall = s.env.upcall ∧ st.env.addrs = s.env.addrs ∧
      ∀ i, st.elem i =
        if s.nativeArrayTableHwmStack (s.callDepth - 1) ≤ i ∧ i < s.nativeArrayTableHwm then
          { s.elem i with obj := NULL }
        else s.elem i := by
  unfold callExit at h
  simp only [] at h
  cases hf : forRange (releaseNativeArray NA_INTEGER) (s.nativeArrayTableHwmStack (s.callDepth - 1))
      (s.nativeArrayTableHwm - s.nativeArrayTableHwmStack (s.callDepth - 1)) s with
  | fatal msg s1 => rw [hf] at h; cases h
  | crash s1 => rw [hf] at h; cases h
  | ok u s1 =>
    rw [hf] at h
    cases h
    have key := forRange_ok (releaseNativeArray NA_INTEGER)
      (fun k st => st = { s with nativeArrayTable := st.nativeArrayTable, env := st.env } ∧
        st.nativeArrayTable.length = s.nativeArrayTable.length ∧
        st.env.oop = s.env.oop ∧ st.env.upcall = s.env.upcall ∧ st.env.addrs = s.env.addrs ∧
        ∀ i, st.elem i =
          if s.nativeArrayTableHwmStack (s.callDepth - 1) ≤ i ∧ i < k then
            { s.elem i with obj := NULL }
          else s.elem i)
      (s.nativeArrayTableHwm - s.nativeArrayTableHwmStack (s.callDepth - 1))
      (s.nativeArrayTableHwmStack (s.callDepth - 1)) s s1 hf
      ⟨rfl, rfl, rfl, rfl, rfl, fun i => by rw [if_neg (fun h => by omega)]⟩
      (by
        intro k st st1 hk1 _ ⟨h1, h2, h3, h4, h5, h6⟩ hb
        have hsame : st.elem k = s.elem k := by
          rw [h6 k, if_neg (fun h => absurd h.2 (lt_irrefl k))]
        obtain ⟨r2, r3, r4, r5⟩ := releaseNativeArray_spec NA_INTEGER st st1 k hb
        have htab : st1.nativeArrayTable
            = st.nativeArrayTable.set k { st.elem k with obj := NULL } := by
          rw [r2]
        refine ⟨?_, ?_, r3.trans h3, r4.trans h4, r5.trans h5, ?_⟩
        · rw [r2, h1]
        · rw [htab, List.length_set, h2]
        · intro i
          rw [elem_tombstone st st1 k htab i]
          by_cases hki : k = i
          · subst hki
            rw [if_pos rfl, if_pos ⟨hk1, Nat.lt_succ_self k⟩, hsame]
          · rw [if_neg hki, h6 i]
            by_cases hc : s.nativeArrayTableHwmStack (s.callDepth - 1) ≤ i ∧ i < k
            · rw [if_pos hc, if_pos ⟨hc.1, by omega⟩]
            · rw [if_neg hc, if_neg (fun h => hc ⟨h.1, by omega⟩)])
    obtain ⟨h1, h2, h3, h4, h5, h6⟩ := key
    refine ⟨?_, h2, h3, h4, h5, ?_⟩
    · rw [h1]
    · intro i
      have := h6 i
      simp only [State.elem] at this ⊢
      rw [this]
      by_cases hc : s.nativeArrayTableHwmStack (s.callDepth - 1) ≤ i ∧ i < s.nativeArrayTableHwm
      · rw [if_pos hc, if_pos ⟨hc.1, by omega⟩]
      · rw [if_neg hc, if_neg (fun h => hc ⟨h.1, by omega⟩)]

/-- `callExit` returns on a table whose live entries have supported kinds, when
every live boolean entry of the frame has a non-null buffer and, if there is
one, the allocator never returns `NULL`. -/
theorem callExit_returns (NA_INTEGER : Int) (s : State) (hk : KindsOK s)
    (hsafe : ∀ i, s.nativeArrayTableHwmStack (s.callDepth - 1) ≤ i → i < s.nativeArrayTableHwm →
      (s.elem i).obj ≠ NULL → (s.elem i).type = SEXPTYPE.LGLSXP →
      (s.elem i).data ≠ NULL ∧ ∀ k, s.env.addrs k ≠ NULL) :
    ∃ st, callExit NA_INTEGER s = Result.ok () st := by
  have h := forRange_inv (releaseNativeArray NA_INTEGER)
    (fun k st => st.env.addrs = s.env.addrs ∧ ∀ i, k ≤ i → st.elem i = s.elem i)
    (s.nativeArrayTableHwm - s.nativeArrayTableHwmStack (s.callDepth - 1))
    (s.nativeArrayTableHwmStack (s.callDepth - 1)) s
    ⟨rfl, fun _ _ => rfl⟩
    (by
      intro k st hk1 hk2 ⟨h1, h2⟩
      have hsame : st.elem k = s.elem k := h2 k (le_refl _)
      obtain ⟨st1, r1⟩ := releaseNativeArray_returns NA_INTEGER st k
        (by rw [hsame]; exact kindsOK_elem s hk k)
        (by
          intro hobj ht _
          rw [hsame] at hobj ht ⊢
          rw [h1]
          obtain ⟨a, b⟩ := hsafe k hk1 (by omega) hobj ht
          exact ⟨b _, a⟩)
      obtain ⟨r2, _, _, r5⟩ := releaseNativeArray_spec NA_INTEGER st st1 k r1
      have htab : st1.nativeArrayTable
          = st.nativeArrayTable.set k { st.elem k with obj := NULL } := by
        rw [r2]
      refine ⟨st1, r1, r5.trans h1, ?_⟩
      intro i hi
      rw [elem_tombstone st st1 k htab i, if_neg (by omega)]
      exact h2 i (by omega))
  obtain ⟨st, hst, _⟩ := h
  refine ⟨{ st with nativeArrayTableHwm := s.nativeArrayTableHwmStack (s.callDepth - 1),
                    callDepth := st.callDepth - 1 }, ?_⟩
  simp only [callExit, hst]

/-! ## C8: invalidation -/

/-- The `setComplete` up-call of `releaseNativeArray`: one for a live entry, none
for a dead one. -/
theorem releaseNativeArray_log (NA_INTEGER : Int) (s st : State) (i : Nat)
    (h : releaseNativeArray NA_INTEGER s i = Result.ok () st) :
    st.env.completeLog.map Prod.fst =
      (if (s.elem i).obj ≠ NULL then [(s.elem i).obj] else []) ++ s.env.completeLog.map Prod.fst := by
  unfold releaseNativeArray at h
  simp only [] at h
  by_cases hobj : (s.elem i).obj ≠ NULL
  · rw [if_pos hobj] at h
    rw [if_pos hobj]
    cases ht : (s.elem i).type with
    | OTHER c => rw [ht] at h; cases h
    | CHARSXP => rw [ht] at h; cases h; rfl
    | LGLSXP =>
      rw [ht] at h
      simp only [] at h
      split at h
      · cases h
      · cases h; rfl
    | INTSXP => rw [ht] at h; cases h; rfl
    | REALSXP => rw [ht] at h; cases h; rfl
    | RAWSXP => rw [ht] at h; cases h; rfl
  · rw [if_neg hobj] at h
    rw [if_neg hobj]
    cases h; rfl

/-- When `releaseNativeArray` returns, every buffer given back before is still
given back, and the buffer of a live entry has been given back. -/
theorem releaseNativeArray_freed (NA_INTEGER : Int) (s st : State) (i : Nat)
    (h : releaseNativeArray NA_INTEGER s i = Result.ok () st) :
    (∀ p, p ∈ s.env.freed → p ∈ st.env.freed) ∧
      ((s.elem i).obj ≠ NULL → (s.elem i).data ∈ st.env.freed) := by
  unfold releaseNativeArray at h
  simp only [] at h
  by_cases hobj : (s.elem i).obj ≠ NULL
  · rw [if_pos hobj] at h
    cases ht : (s.elem i).type with
    | OTHER c => rw [ht] at h; cases h
    | CHARSXP =>
      rw [ht] at h; cases h
      exact ⟨fun p hp => List.mem_cons_of_mem _ hp, fun _ => List.mem_cons_self _ _⟩
    | LGLSXP =>
      rw [ht] at h
      simp only [] at h
      split at h
      · cases h
      · cases h
        exact ⟨fun p hp => List.mem_cons_of_mem _ (List.mem_cons_of_mem _ hp),
          fun _ => List.mem_cons_self _ _⟩
    | INTSXP =>
      rw [ht] at h; cases h
      exact ⟨fun p hp => List.mem_cons_of_mem _ hp, fun _ => List.mem_cons_self _ _⟩
    | REALSXP =>
      rw [ht] at h; cases h
      exact ⟨fun p hp => List.mem_cons_of_mem _ hp, fun _ => List.mem_cons_self _ _⟩
    | RAWSXP =>
      rw [ht] at h; cases h
      exact ⟨fun p hp => List.mem_cons_of_mem _ hp, fun _ => List.mem_cons_self _ _⟩
  · rw [if_neg hobj] at h
    cases h
    exact ⟨fun p hp => hp, fun hn => absurd hn hobj⟩

/-- `releaseNativeArray` on a dead entry returns at once. -/
theorem releaseNativeArray_dead (NA_INTEGER : Int) (s : State) (i : Nat)
    (h : (s.elem i).obj = NULL) : releaseNativeArray NA_INTEGER s i = Result.ok () s := by
  unfold releaseNativeArray
  simp only []
  rw [if_neg (not_not.mpr h)]

theorem invalidated_succ (s : State) (x : SEXP) (k : Nat) :
    invalidated s x (k + 1) =
      invalidated s x k ++ (if Mirrors s.env (s.elem k) x then [k] else []) := by
  simp only [invalidated, List.range_succ, List.filter_append, List.filter_cons, List.filter_nil]
  by_cases h : Mirrors s.env (s.elem k) x
  · simp [h]
  · simp [h]

/-- When `invalidateNativeArray` returns: what it has done to each element, the
up-calls it has made, and the buffers it has given back. -/
theorem invalidateNativeArray_spec (NA_INTEGER : Int) (s st : State) (x : SEXP)
    (h : invalidateNativeArray NA_INTEGER s x = Result.ok () st) :
    st = { s with nativeArrayTable := st.nativeArrayTable, env := st.env } ∧
      st.nativeArrayTable.length = s.nativeArrayTable.length ∧
      st.env.oop = s.env.oop ∧ st.env.upcall = s.env.upcall ∧ st.env.addrs = s.env.addrs ∧
      (∀ i, st.elem i =
        if i < s.nativeArrayTableHwm ∧ fast_IsSameObject s.env (s.elem i).obj x = true then
          { s.elem i with obj := NULL }
        else s.elem i) ∧
      st.env.completeLog.map Prod.fst =
        ((invalidated s x s.nativeArrayTableHwm).map (fun i => (s.elem i).obj)).reverse
          ++ s.env.completeLog.map Prod.fst ∧
      (∀ i, i < s.nativeArrayTableHwm → Mirrors s.env (s.elem i) x →
        (s.elem i).data ∈ st.env.freed) := by
  have key := forRange_ok
    (fun st i =>
      if fast_IsSameObject st.env (st.elem i).obj x then releaseNativeArray NA_INTEGER st i
      else Result.ok () st)
    (fun k st => st = { s with nativeArrayTable := st.nativeArrayTable, env := st.env } ∧
      st.nativeArrayTable.length = s.nativeArrayTable.length ∧
      st.env.oop = s.env.oop ∧ st.env.upcall = s.env.upcall ∧ st.env.addrs = s.env.addrs ∧
      (∀ i, st.elem i =
        if i < k ∧ fast_IsSameObject s.env (s.elem i).obj x = true then
          { s.elem i with obj := NULL }
        else s.elem i) ∧
      st.env.completeLog.map Prod.fst =
        ((invalidated s x k).map (fun i => (s.elem i).obj)).reverse
          ++ s.env.completeLog.map Prod.fst ∧
      (∀ i, i < k → Mirrors s.env (s.elem i) x → (s.elem i).data ∈ st.env.freed))
    s.nativeArrayTableHwm 0 s st h
    ⟨rfl, rfl, rfl, rfl, rfl, fun i => by rw [if_neg (fun h => absurd h.1 (Nat.not_lt_zero i))],
      by simp [invalidated], fun i hi => absurd hi (Nat.not_lt_zero i)⟩
    (by
      intro k st st1 _ _ ⟨h1, h2, h3, h4, h5, h6, h7, h8⟩ hb
      have hsame : st.elem k = s.elem k := by
        rw [h6 k, if_neg (fun h => absurd h.1 (lt_irrefl k))]
      have hfs : fast_IsSameObject st.env (st.elem k).obj x
          = fast_IsSameObject s.env (s.elem k).obj x := by
        rw [hsame]; exact fast_IsSameObject_congr _ _ h3 _ _
      simp only [] at hb
      rw [hfs] at hb
      by_cases hc : fast_IsSameObject s.env (s.elem k).obj x = true
      · rw [hc, if_pos rfl] at hb
        obtain ⟨r2, r3, r4, r5⟩ := releaseNativeArray_spec NA_INTEGER st st1 k hb
        have htab : st1.nativeArrayTable
            = st.nativeArrayTable.set k { st.elem k with obj := NULL } := by
          rw [r2]
        have hlog := releaseNativeArray_log NA_INTEGER st st1 k hb
        obtain ⟨f1, f2⟩ := releaseNativeArray_freed NA_INTEGER st st1 k hb
        refine ⟨?_, ?_, r3.trans h3, r4.trans h4, r5.trans h5, ?_, ?_, ?_⟩
        · rw [r2, h1]
        · rw [htab, List.length_set, h2]
        · intro i
          rw [elem_tombstone st st1 k htab i]
          by_cases hki : k = i
          · subst hki
            rw [if_pos rfl, if_pos ⟨Nat.lt_succ_self k, hc⟩, hsame]
          · rw [if_neg hki, h6 i]
            by_cases hc2 : i < k ∧ fast_IsSameObject s.env (s.elem i).obj x = true
            · rw [if_pos hc2, if_pos ⟨by omega, hc2.2⟩]
            · rw [if_neg hc2, if_neg (fun h => hc2 ⟨by omega, h.2⟩)]
        · rw [hlog, h7, invalidated_succ, hsame]
          by_cases hobj : (s.elem k).obj ≠ NULL
          · rw [if_pos hobj, if_pos (show Mirrors s.env (s.elem k) x from ⟨hobj, hc⟩)]
            simp
          · rw [if_neg hobj, if_neg (fun h : Mirrors s.env (s.elem k) x => hobj h.1)]
            simp
        · intro i hi hm
          by_cases hki : i = k
          · subst hki
            have := f2 (by rw [hsame]; exact hm.1)
            rw [hsame] at this
            exact this
          · exact f1 _ (h8 i (by omega) hm)
      · rw [if_neg hc] at hb
        cases hb
        refine ⟨h1, h2, h3, h4, h5, ?_, ?_, ?_⟩
        · intro i
          rw [h6 i]
          by_cases hc2 : i < k ∧ fast_IsSameObject s.env (s.elem i).obj x = true
          · rw [if_pos hc2, if_pos ⟨by omega, hc2.2⟩]
          · rw [if_neg hc2, if_neg]
            intro h
            have : i = k := by
              by_contra hne; exact hc2 ⟨by omega, h.2⟩
            rw [this] at h; exact hc h.2
        · rw [h7, invalidated_succ, if_neg (fun h : Mirrors s.env (s.elem k) x => hc h.2)]
          simp
        · intro i hi hm
          by_cases hki : i = k
          · subst hki; exact absurd hm.2 hc
          · exact h8 i (by omega) hm)
  obtain ⟨h1, h2, h3, h4, h5, h6, h7, h8⟩ := key
  refine ⟨h1, h2, h3, h4, h5, ?_, ?_, ?_⟩
  · intro i; rw [h6 i]; simp only [Nat.zero_add]
  · rw [h7]; simp only [Nat.zero_add]
  · intro i hi; exact h8 i (by omega)

/-- `invalidateNativeArray` returns on a table whose live entries have supported
kinds, when every live boolean entry of the object has a non-null buffer
and, if there is one, the allocator never returns `NULL`. -/
theorem invalidateNativeArray_returns (NA_INTEGER : Int) (s : State) (x : SEXP)
    (hk : KindsOK s)
    (hsafe : ∀ i, i < s.nativeArrayTableHwm → Mirrors s.env (s.elem i) x →
      (s.elem i).type = SEXPTYPE.LGLSXP → (s.elem i).data ≠ NULL ∧ ∀ k, s.env.addrs k ≠ NULL) :
    ∃ st, invalidateNativeArray NA_INTEGER s x = Result.ok () st := by
  have h := forRange_inv
    (fun st i =>
      if fast_IsSameObject st.env (st.elem i).obj x then releaseNativeArray NA_INTEGER st i
      else Result.ok () st)
    (fun k st => st.env.addrs = s.env.addrs ∧ st.env.oop = s.env.oop ∧
      ∀ i, k ≤ i → st.elem i = s.elem i)
    s.nativeArrayTableHwm 0 s
    ⟨rfl, rfl, fun _ _ => rfl⟩
    (by
      intro k st _ hk2 ⟨h1, h0, h2⟩
      have hsame : st.elem k = s.elem k := h2 k (le_refl _)
      by_cases hc : fast_IsSameObject st.env (st.elem k).obj x = true
      · obtain ⟨st1, r1⟩ := releaseNativeArray_returns NA_INTEGER st k
          (by rw [hsame]; exact kindsOK_elem s hk k)
          (by
            intro hobj ht _
            rw [hsame, fast_IsSameObject_congr _ _ h0] at hc
            rw [hsame] at hobj ht ⊢
            rw [h1]
            obtain ⟨a, b⟩ := hsafe k (by omega) ⟨hobj, hc⟩ ht
            exact ⟨b _, a⟩)
        obtain ⟨r2, r3, _, r5⟩ := releaseNativeArray_spec NA_INTEGER st st1 k r1
        have htab : st1.nativeArrayTable
            = st.nativeArrayTable.set k { st.elem k with obj := NULL } := by
          rw [r2]
        refine ⟨st1, ?_, r5.trans h1, r3.trans h0, ?_⟩
        · simp only []
          rw [hc, if_pos rfl]; exact r1
        · intro i hi
          rw [elem_tombstone st st1 k htab i, if_neg (by omega)]
          exact h2 i (by omega)
      · refine ⟨st, ?_, h1, h0, fun i hi => h2 i (by omega)⟩
        simp only []
        rw [if_neg hc])
  obtain ⟨st, hst, _⟩ := h
  exact ⟨st, hst⟩

/-- The loop of `invalidateNativeArray` is the sequence of `releaseNativeArray`
calls at the entries that mirror the object, in ascending order. -/
theorem invalidateNativeArray_loop (NA_INTEGER : Int) (s : State) (x : SEXP) :
    ∀ (n lo : Nat) (t : State), t.env.oop = s.env.oop → (∀ i, lo ≤ i → t.elem i = s.elem i) →
      forRange
        (fun st i =>
          if fast_IsSameObject st.env (st.elem i).obj x then releaseNativeArray NA_INTEGER st i
          else Result.ok () st)
        lo n t =
      releaseEach NA_INTEGER
        ((List.range' lo n).filter (fun i => decide (Mirrors s.env (s.elem i) x))) t := by
  intro n
  induction n with
  | zero => intro lo t _ _; rfl
  | succ n ih =>
    intro lo t ho he
    have hsame : t.elem lo = s.elem lo := he lo (le_refl _)
    have hfs : fast_IsSameObject t.env (t.elem lo).obj x
        = fast_IsSameObject s.env (s.elem lo).obj x := by
      rw [hsame]; exact fast_IsSameObject_congr _ _ ho _ _
    simp only [forRange, List.range'_succ, List.filter_cons]
    rw [hfs]
    by_cases hm : Mirrors s.env (s.elem lo) x
    · rw [hm.2, if_pos rfl, if_pos (decide_eq_true hm)]
      simp only [releaseEach]
      cases hr : releaseNativeArray NA_INTEGER t lo with
      | fatal msg t1 => rfl
      | crash t1 => rfl
      | ok u t1 =>
        obtain ⟨r2, r3, _, _⟩ := releaseNativeArray_spec NA_INTEGER t t1 lo hr
        have htab : t1.nativeArrayTable
            = t.nativeArrayTable.set lo { t.elem lo with obj := NULL } := by
          rw [r2]
        exact ih (lo + 1) t1 (r3.trans ho) (fun i hi => by
          rw [elem_tombstone t t1 lo htab i, if_neg (by omega)]
          exact he i (by omega))
    · rw [decide_eq_false hm]
      simp only [Bool.false_eq_true, if_false]
      by_cases hc : fast_IsSameObject s.env (s.elem lo).obj x = true
      · have hdead : (t.elem lo).obj = NULL := by
          rw [hsame]
          by_contra hne
          exact hm ⟨hne, hc⟩
        rw [hc, if_pos rfl, releaseNativeArray_dead NA_INTEGER t lo hdead]
        exact ih (lo + 1) t ho (fun i hi => he i (by omega))
      · rw [if_neg hc]
        exact ih (lo + 1) t ho (fun i hi => he i (by omega))

/-- `findNativeArray` returns nothing when no live entry below the high-water
mark is identical to the object. -/
theorem findNativeArray_eq_none (s : State) (x : SEXP)
    (h : ∀ j, j < s.nativeArrayTableHwm → ¬ Mirrors s.env (s.elem j) x) :
    (findNativeArray s x).1 = none := by
  cases hf : (findNativeArray s x).1 with
  | none => rfl
  | some k =>
    obtain ⟨h1, h2, h3⟩ := findNativeArray_some s x k hf
    exact absurd ⟨h2, h3⟩ (h k h1)

/-- C8. On a table whose live entries have the kinds `getNativeArray` registers
(as in every state reached from `init_utils`), when every live boolean entry
of `O` has a non-null buffer and, if there is one, the allocator never
returns `NULL` (the boolean release goes through its buffer and the block of
`GetByteArrayElements` unchecked), `invalidateNativeArray(O)` returns, and it
is the sequence of `releaseNativeArray` calls at the live entries below the
high-water mark whose source object is identical to `O`, in ascending
order of index, whatever frame they were created in. Every such entry is
tombstoned and its buffer has been given back; one `setComplete` up-call is
made for each; afterwards `findNativeArray(O)` finds nothing; every entry
whose source object is not identical to `O` is unchanged; the high-water
mark, the capacity, `callDepth` and the recorded frame marks are unchanged.
Each of these releases, on a live entry of any state: for an integer, real
or raw entry it is `Release<T>ArrayElements` of the buffer into the recorded
array, the up-call `setComplete(obj, false)` and the tombstone; for a string
entry `ReleaseStringUTFChars` of the buffer, the same up-call and the
tombstone. -/
theorem invalidateNativeArray_all (NA_INTEGER : Int) (s : State) (x : SEXP) (hk : KindsOK s)
    (hsafe : ∀ i, i < s.nativeArrayTableHwm → Mirrors s.env (s.elem i) x →
      (s.elem i).type = SEXPTYPE.LGLSXP → (s.elem i).data ≠ NULL ∧ ∀ k, s.env.addrs k ≠ NULL) :
    ∃ st, invalidateNativeArray NA_INTEGER s x = Result.ok () st ∧
      releaseEach NA_INTEGER (invalidated s x s.nativeArrayTableHwm) s = Result.ok () st ∧
      (∀ i, i < s.nativeArrayTableHwm → Mirrors s.env (s.elem i) x →
        st.elem i = { s.elem i with obj := NULL } ∧ (s.elem i).data ∈ st.env.freed) ∧
      st.env.completeLog.map Prod.fst =
        ((invalidated s x s.nativeArrayTableHwm).map (fun i => (s.elem i).obj)).reverse
          ++ s.env.completeLog.map Prod.fst ∧
      (findNativeArray st x).1 = none ∧
      (∀ i, fast_IsSameObject s.env (s.elem i).obj x = false → st.elem i = s.elem i) ∧
      st.nativeArrayTableHwm = s.nativeArrayTableHwm ∧
      st.nativeArrayTableLength = s.nativeArrayTableLength ∧
      st.callDepth = s.callDepth ∧
      st.nativeArrayTableHwmStack = s.nativeArrayTableHwmStack ∧
      (∀ (t : State) (i : Nat), (t.elem i).obj ≠ NULL →
        ((t.elem i).type = SEXPTYPE.INTSXP ∨ (t.elem i).type = SEXPTYPE.REALSXP ∨
          (t.elem i).type = SEXPTYPE.RAWSXP) →
        releaseNativeArray NA_INTEGER t i = Result.ok ()
          { t with env := setComplete
                     (ReleaseArrayElements t.env (t.elem i).jArray (t.elem i).data)
                     (t.elem i).obj false,
                   nativeArrayTable := t.nativeArrayTable.set i { t.elem i with obj := NULL } }) ∧
      (∀ (t : State) (i : Nat), (t.elem i).obj ≠ NULL → (t.elem i).type = SEXPTYPE.CHARSXP →
        releaseNativeArray NA_INTEGER t i = Result.ok ()
          { t with env := setComplete (ReleaseStringUTFChars t.env (t.elem i).data)
                     (t.elem i).obj false,
                   nativeArrayTable := t.nativeArrayTable.set i { t.elem i with obj := NULL } }) := by
  obtain ⟨st, hst⟩ := invalidateNativeArray_returns NA_INTEGER s x hk hsafe
  obtain ⟨h1, _, h3, _, _, h6, h7, h8⟩ := invalidateNativeArray_spec NA_INTEGER s st x hst
  have hloop := invalidateNativeArray_loop NA_INTEGER s x s.nativeArrayTableHwm 0 s rfl
    (fun _ _ => rfl)
  refine ⟨st, hst, ?_, ?_, h7, ?_, ?_, by rw [h1], by rw [h1], by rw [h1], by rw [h1], ?_, ?_⟩
  · rw [← hst]
    simp only [invalidateNativeArray, invalidated, List.range_eq_range']
    exact hloop.symm
  · intro i hi hm
    exact ⟨by rw [h6 i, if_pos ⟨hi, hm.2⟩], h8 i hi hm⟩
  · apply findNativeArray_eq_none
    intro j hj hm
    have hj' : j < s.nativeArrayTableHwm := by rw [h1] at hj; exact hj
    rw [h6 j] at hm
    by_cases hc : fast_IsSameObject s.env (s.elem j).obj x = true
    · rw [if_pos ⟨hj', hc⟩] at hm
      exact hm.1 rfl
    · rw [if_neg (fun h => hc h.2)] at hm
      rw [Mirrors, fast_IsSameObject_congr _ _ h3] at hm
      exact hc hm.2
  · intro i hi
    rw [h6 i, if_neg]
    intro h
    rw [hi] at h
    exact Bool.false_ne_true h.2
  · intro t i hobj ht
    unfold releaseNativeArray
    simp only []
    rw [if_pos hobj]
    rcases ht with ht | ht | ht <;> simp only [ht]
  · intro t i hobj ht
    unfold releaseNativeArray
    simp only []
    rw [if_pos hobj]
    simp only [ht]

/-- Witness for C8: object `1` has its entry in the outer frame (array `1001`
holding `1`, buffer `4000` holding `10`), the inner frame holds object `2`;
invalidating `1` writes `10` back into array `1001`, gives buffer `4000` back,
reports `setComplete(1, false)`, tombstones the outer entry and leaves the
entry of `2` and its array. -/
theorem invalidateNativeArray_all_witness :
    ∃ st, invalidateNativeArray R_NaInt stateFrames 1 = Result.ok () st ∧
      (st.elem 0).obj = NULL ∧ st.elem 1 = stateFrames.elem 1 ∧
      (findNativeArray st 1).1 = none ∧
      st.env.arrays 1001 = [10] ∧ st.env.arrays 1002 = [2] ∧ st.env.freed = [4000] ∧
      st.env.completeLog = [(1, false)] := by
  obtain ⟨st, h1, _, h2, _, h4, h5, _⟩ :=
    invalidateNativeArray_all R_NaInt stateFrames 1 (by decide)
      (fun i hi hm ht => by
        have h2 : i < 2 := hi
        interval_cases i
        · exact absurd ht (by decide)
        · exact absurd hm (by decide))
  have e : (invalidateNativeArray R_NaInt stateFrames 1).state = st := by rw [h1]; rfl
  have d : (invalidateNativeArray R_NaInt stateFrames 1).state.env.arrays 1001 = [10] ∧
      (invalidateNativeArray R_NaInt stateFrames 1).state.env.arrays 1002 = [2] ∧
      (invalidateNativeArray R_NaInt stateFrames 1).state.env.freed = [4000] ∧
      (invalidateNativeArray R_NaInt stateFrames 1).state.env.completeLog = [(1, false)] := by
    decide
  rw [e] at d
  refine ⟨st, h1, ?_, h5 1 (by decide), h4, d⟩
  rw [(h2 0 (by decide) (by decide)).1]

/-! ## C2: frame-scoped release -/

/-- A sequence of calls run in two parts. -/
theorem run_append (NA_INTEGER : Int) (ops1 ops2 : List Op) :
    ∀ s, run NA_INTEGER s (ops1 ++ ops2) =
      match run NA_INTEGER s ops1 with
      | Result.ok _ s1 => run NA_INTEGER s1 ops2
      | Result.fatal msg s1 => Result.fatal msg s1
      | Result.crash s1 => Result.crash s1 := by
  induction ops1 with
  | nil => intro s; rfl
  | cons op ops ih =>
    intro s
    simp only [List.cons_append, run]
    cases step NA_INTEGER s op with
    | ok _ s1 => exact ih s1
    | fatal msg s1 => rfl
    | crash s1 => rfl

/-- A sequence of calls run call by call. -/
theorem run_cons (NA_INTEGER : Int) (s : State) (op : Op) (ops : List Op) :
    run NA_INTEGER s (op :: ops) =
      match step NA_INTEGER s op with
      | Result.ok _ s1 => run NA_INTEGER s1 ops
      | Result.fatal msg s1 => Result.fatal msg s1
      | Result.crash s1 => Result.crash s1 := rfl

/-- When `callEnter` returns, it has stored the recovery point and the mark and
added one to the depth (and recorded the stores that went outside the
arrays, which happens at a negative depth only). -/
theorem callEnter_ok (s st : State) (jmpbuf : Ptr) (h : callEnter s jmpbuf = Result.ok () st) :
    s.callDepth < CALLDEPTH_STACK_SIZE ∧
    st = { s with callErrorJmpBufTable := Function.update s.callErrorJmpBufTable s.callDepth jmpbuf,
                  nativeArrayTableHwmStack :=
                    Function.update s.nativeArrayTableHwmStack s.callDepth s.nativeArrayTableHwm,
                  callDepth := s.callDepth + 1,
                  strayStores := (callEnter s jmpbuf).state.strayStores } := by
  have h2 := h
  unfold callEnter at h
  simp only [] at h
  by_cases hc : s.callDepth ≥ CALLDEPTH_STACK_SIZE
  · rw [if_pos hc] at h; cases h
  · rw [if_neg hc] at h
    rw [h2]
    cases h
    exact ⟨not_le.mp hc, rfl⟩

theorem frameInv_callEnter (s0 st st1 : State) (d : Nat) (jmpbuf : Ptr)
    (inv : FrameInv s0 d st) (h : callEnter st jmpbuf = Result.ok () st1) :
    FrameInv s0 (d + 1) st1 := by
  obtain ⟨_, rfl⟩ := callEnter_ok st st1 jmpbuf h
  refine ⟨?_, ?_, ?_, inv.hwm_ge, inv.wf, inv.kinds, inv.below, inv.clean⟩
  · simp only [inv.depth]; push_cast; ring
  · simp only []
    rw [Function.update_noteq, inv.mark0]
    rw [inv.depth]; omega
  · intro e he1 he2
    simp only []
    by_cases hed : e = st.callDepth
    · rw [hed, Function.update_same]
      exact ⟨inv.hwm_ge, inv.wf.2.2⟩
    · rw [Function.update_noteq hed]
      apply inv.marks e he1
      have := inv.depth
      push_cast at he2
      omega

theorem frameInv_getNativeArray (NA_INTEGER : Int) (s0 st st1 : State) (d : Nat) (x : SEXP)
    (type : SEXPTYPE) (p : Ptr) (inv : FrameInv s0 d st)
    (h : getNativeArray NA_INTEGER st x type = Result.ok p st1) :
    FrameInv s0 d st1 := by
  have hfs := findNativeArray_state st x
  by_cases hhit : ∃ k, (findNativeArray st x).1 = some k ∧ (st.elem k).data ≠ NULL
  · obtain ⟨k, hk, hd⟩ := hhit
    rw [getNativeArray_hit NA_INTEGER st x type k hk hd] at h
    cases h
    rw [hfs]
    exact ⟨inv.depth, inv.mark0, inv.marks, inv.hwm_ge, inv.wf, inv.kinds, inv.below, inv.clean⟩
  · have hmiss : (findNativeArray st x).1 = none ∨
        ∃ k, (findNativeArray st x).1 = some k ∧ (st.elem k).data = NULL := by
      cases hf : (findNativeArray st x).1 with
      | none => exact Or.inl rfl
      | some k =>
        right
        refine ⟨k, rfl, ?_⟩
        by_contra hd
        exact hhit ⟨k, hf, hd⟩
    rw [getNativeArray_miss NA_INTEGER st x type hmiss] at h
    cases hex : extraction NA_INTEGER st.env x type with
    | none => rw [hex] at h; simp only [] at h; split at h <;> cases h
    | some r =>
      obtain ⟨jArray, data, env1⟩ := r
      rw [hex] at h
      simp only [] at h
      cases hadd : addNativeArray { (findNativeArray st x).2 with env := env1 } x type jArray data with
      | fatal msg s2 => rw [hadd] at h; cases h
      | crash s2 => rw [hadd] at h; cases h
      | ok u s2 =>
        rw [hadd] at h
        cases h
        rw [hfs] at hadd
        obtain ⟨a1, a2, a3, a4, a5, a6, _, a8, a9, _⟩ :=
          addNativeArray_ok _ x type jArray p st1 (by exact inv.wf.1) (by exact inv.wf.2.1)
            (by exact inv.wf.2.2) hadd
        have a2 : st.nativeArrayTableLength ≤ st1.nativeArrayTableLength := a2
        have a3 : st1.nativeArrayTableHwm = st.nativeArrayTableHwm + 1 := a3
        have a5 : st1.elem st.nativeArrayTableHwm = ⟨type, x, jArray, p⟩ := a5
        have a6 : ∀ i, i ≠ st.nativeArrayTableHwm → st1.elem i = st.elem i := a6
        have a8 : st1.callDepth = st.callDepth := a8
        have a9 : st1.nativeArrayTableHwmStack = st.nativeArrayTableHwmStack := a9
        have hsup := (extraction_env NA_INTEGER st.env x type jArray p env1 hex).2.2.2
        refine ⟨a8.trans inv.depth, by rw [a9]; exact inv.mark0, ?_, ?_, ⟨a1, ?_, a4⟩, ?_, ?_, ?_⟩
        · intro e he1 he2
          rw [a9]
          exact ⟨(inv.marks e he1 he2).1, le_trans (inv.marks e he1 he2).2 a2⟩
        · rw [a3]; exact Nat.le_succ_of_le inv.hwm_ge
        · exact lt_of_lt_of_le inv.wf.2.1 a2
        · apply kindsOK_of_elem
          intro i
          by_cases hi : i = st.nativeArrayTableHwm
          · rw [hi]
            have e1 : st1.elem st.nativeArrayTableHwm = ⟨type, x, jArray, p⟩ := a5
            rw [e1]; right; exact hsup
          · have e2 : st1.elem i = st.elem i := a6 i hi
            rw [e2]; exact kindsOK_elem st inv.kinds i
        · intro i hi
          have hne : i ≠ st.nativeArrayTableHwm := by
            have := inv.hwm_ge; omega
          have e2 : st1.elem i = st.elem i := a6 i hne
          rw [e2]; exact inv.below i hi
        · apply clean_of_elem
          intro i hi
          have hne : i ≠ st.nativeArrayTableHwm := by omega
          have e2 : st1.elem i = st.elem i := a6 i hne
          rw [e2]
          exact clean_elem st inv.clean i (by omega)

theorem frameInv_callExit (NA_INTEGER : Int) (s0 st st1 : State) (d : Nat)
    (inv : FrameInv s0 (d + 1) st) (h : callExit NA_INTEGER st = Result.ok () st1) :
    FrameInv s0 d st1 := by
  obtain ⟨h1, h2, _, _, _, h6⟩ := callExit_spec NA_INTEGER st st1 h
  have hd : st.callDepth - 1 = s0.callDepth + 1 + d := by
    rw [inv.depth]; push_cast; ring
  have hm := inv.marks (st.callDepth - 1) (by rw [hd]; omega) (by rw [hd]; push_cast; omega)
  have hhwm : st1.nativeArrayTableHwm = st.nativeArrayTableHwmStack (st.callDepth - 1) := by
    rw [h1]
  have hlen : st1.nativeArrayTableLength = st.nativeArrayTableLength := by rw [h1]
  have hstack : st1.nativeArrayTableHwmStack = st.nativeArrayTableHwmStack := by rw [h1]
  have hdepth : st1.callDepth = st.callDepth - 1 := by rw [h1]
  refine ⟨hdepth.trans hd, by rw [hstack]; exact inv.mark0, ?_, by rw [hhwm]; exact hm.1,
    ⟨by rw [h2, hlen]; exact inv.wf.1, by rw [hlen]; exact inv.wf.2.1,
      by rw [hhwm, hlen]; exact hm.2⟩, ?_, ?_, ?_⟩
  · intro e he1 he2
    rw [hstack, hlen]
    exact inv.marks e he1 (by push_cast; omega)
  · apply kindsOK_of_elem
    intro i
    rw [h6 i]
    split
    · left; rfl
    · exact kindsOK_elem st inv.kinds i
  · intro i hi
    rw [h6 i, if_neg (fun hh => by omega)]
    exact inv.below i hi
  · apply clean_of_elem
    intro i hi
    rw [hhwm] at hi
    rw [h6 i]
    by_cases hc : i < st.nativeArrayTableHwm
    · rw [if_pos ⟨hi, hc⟩]
    · rw [if_neg (fun hh => hc hh.2)]
      exact clean_elem st inv.clean i (by omega)

/-- A balanced sequence of calls that returns keeps the frame invariant and
closes the frames it found open. -/
theorem frameInv_run (NA_INTEGER : Int) (s0 : State) :
    ∀ (ops : List Op) (d : Nat) (st : State), FrameInv s0 d st → balanced d ops = true →
      (run NA_INTEGER st ops).isOk = true → FrameInv s0 0 (run NA_INTEGER st ops).state := by
  intro ops
  induction ops with
  | nil =>
    intro d st inv hb _
    have : d = 0 := by simpa [balanced] using hb
    subst this
    exact inv
  | cons op ops ih =>
    intro d st inv hb hok
    rw [run_cons] at hok ⊢
    cases hs : step NA_INTEGER st op with
    | fatal msg s1 => rw [hs] at hok; cases hok
    | crash s1 => rw [hs] at hok; cases hok
    | ok u s1 =>
      rw [hs] at hok
      simp only [] at hok ⊢
      cases op with
      | callEnter j =>
        exact ih (d + 1) s1 (frameInv_callEnter s0 st s1 d j inv hs) (by simpa [balanced] using hb) hok
      | callExit =>
        cases d with
        | zero => simp [balanced] at hb
        | succ d =>
          exact ih d s1 (frameInv_callExit NA_INTEGER s0 st s1 d inv hs)
            (by simpa [balanced] using hb) hok
      | getNativeArray x type =>
        simp only [step] at hs
        cases hg : getNativeArray NA_INTEGER st x type with
        | fatal msg s2 => rw [hg] at hs; cases hs
        | crash s2 => rw [hg] at hs; cases hs
        | ok p s2 =>
          rw [hg] at hs
          cases hs
          exact ih d s1 (frameInv_getNativeArray NA_INTEGER s0 st s1 d x type p inv hg)
            (by simpa [balanced] using hb) hok
      | invalidateNativeArray x => simp [balanced] at hb
      | updateNativeArrays => simp [balanced] at hb
      | updateJObjects => simp [balanced] at hb

/-- C2. For every state with `callDepth >= 1` whose live entries have the kinds
`getNativeArray` registers (as in every state reached from `init_utils`),
with `h` the mark recorded for the innermost frame: when every live boolean
entry in `[h, hwm)` has a non-null buffer and, if there is one, the allocator
never returns `NULL` (the boolean release goes through its buffer and the
block of `GetByteArrayElements` unchecked), `callExit` returns; every element
with index in `[h, hwm)` is left with a
null source object, every element below `h` is exactly as before, the
high-water mark becomes `h` and `callDepth` goes down by one. Consequently,
from a well-formed state, for a `callEnter`, followed by any properly nested
sequence of `callEnter`, `callExit` and `getNativeArray` calls, followed by
the matching `callExit`, if the calls return: every element from the mark at
entry on has a null source object (so every entry created in between is
tombstoned), every element below that mark is exactly as before the
`callEnter`, and the high-water mark and `callDepth` are those before it. The
resulting state is well formed again, so the same holds for every later
frame and for the frames nested in the sequence. -/
theorem callExit_frame (NA_INTEGER : Int) (s : State) (jmpbuf : Ptr) (body : List Op)
    (hk : KindsOK s) :
    (1 ≤ s.callDepth →
      (∀ i, s.nativeArrayTableHwmStack (s.callDepth - 1) ≤ i → i < s.nativeArrayTableHwm →
        (s.elem i).obj ≠ NULL → (s.elem i).type = SEXPTYPE.LGLSXP →
        (s.elem i).data ≠ NULL ∧ ∀ k, s.env.addrs k ≠ NULL) →
      ∃ st, callExit NA_INTEGER s = Result.ok () st ∧
        (∀ i, s.nativeArrayTableHwmStack (s.callDepth - 1) ≤ i → i < s.nativeArrayTableHwm →
          (st.elem i).obj = NULL) ∧
        (∀ i, i < s.nativeArrayTableHwmStack (s.callDepth - 1) → st.elem i = s.elem i) ∧
        st.nativeArrayTableHwm = s.nativeArrayTableHwmStack (s.callDepth - 1) ∧
        st.callDepth = s.callDepth - 1) ∧
    (WF s → Clean s → balanced 0 body = true →
      (run NA_INTEGER s (Op.callEnter jmpbuf :: body ++ [Op.callExit])).isOk = true →
      (∀ i, s.nativeArrayTableHwm ≤ i →
        ((run NA_INTEGER s (Op.callEnter jmpbuf :: body ++ [Op.callExit])).state.elem i).obj
          = NULL) ∧
      (∀ i, i < s.nativeArrayTableHwm →
        (run NA_INTEGER s (Op.callEnter jmpbuf :: body ++ [Op.callExit])).state.elem i
          = s.elem i) ∧
      (run NA_INTEGER s (Op.callEnter jmpbuf :: body ++ [Op.callExit])).state.nativeArrayTableHwm
        = s.nativeArrayTableHwm ∧
      (run NA_INTEGER s (Op.callEnter jmpbuf :: body ++ [Op.callExit])).state.callDepth
        = s.callDepth ∧
      WF (run NA_INTEGER s (Op.callEnter jmpbuf :: body ++ [Op.callExit])).state ∧
      Clean (run NA_INTEGER s (Op.callEnter jmpbuf :: body ++ [Op.callExit])).state ∧
      KindsOK (run NA_INTEGER s (Op.callEnter jmpbuf :: body ++ [Op.callExit])).state) := by
  constructor
  · intro _ hsafe
    obtain ⟨st, h0⟩ := callExit_returns NA_INTEGER s hk hsafe
    obtain ⟨h1, _, _, _, _, h6⟩ := callExit_spec NA_INTEGER s st h0
    refine ⟨st, h0, ?_, ?_, by rw [h1], by rw [h1]⟩
    · intro i hi1 hi2
      rw [h6 i, if_pos ⟨hi1, hi2⟩]
    · intro i hi
      rw [h6 i, if_neg (fun hh => by omega)]
  · intro hwf hclean hb hok
    rw [List.cons_append, run_cons] at hok ⊢
    cases he : step NA_INTEGER s (Op.callEnter jmpbuf) with
    | fatal msg s1 => rw [he] at hok; cases hok
    | crash s1 => rw [he] at hok; cases hok
    | ok u s1 =>
      rw [he] at hok
      simp only [] at hok ⊢
      have he' : callEnter s jmpbuf = Result.ok () s1 := he
      obtain ⟨_, hs1⟩ := callEnter_ok s s1 jmpbuf he'
      have inv1 : FrameInv s 0 s1 := by
        rw [hs1]
        exact ⟨by simp, by simp, fun e h1 h2 => by omega, le_refl _, hwf, hk,
          fun _ _ => rfl, hclean⟩
      rw [run_append] at hok ⊢
      cases hbody : run NA_INTEGER s1 body with
      | fatal msg s2 => rw [hbody] at hok; cases hok
      | crash s2 => rw [hbody] at hok; cases hok
      | ok u2 s2 =>
        rw [hbody] at hok
        simp only [] at hok ⊢
        have inv2 : FrameInv s 0 s2 := by
          have := frameInv_run NA_INTEGER s body 0 s1 inv1 hb (by rw [hbody]; rfl)
          rw [hbody] at this
          exact this
        cases hce : callExit NA_INTEGER s2 with
        | fatal msg s3 => simp only [run, step, hce] at hok; cases hok
        | crash s3 => simp only [run, step, hce] at hok; cases hok
        | ok u3 s3 =>
          obtain ⟨h1, h2, _, _, _, h6⟩ := callExit_spec NA_INTEGER s2 s3 hce
          have hrun : run NA_INTEGER s2 [Op.callExit] = Result.ok () s3 := by
            simp only [run, step, hce]
          rw [hrun]
          simp only [Result.state]
          have hd : s2.callDepth - 1 = s.callDepth := by
            rw [inv2.depth]; push_cast; ring
          have hmark : s2.nativeArrayTableHwmStack (s2.callDepth - 1) = s.nativeArrayTableHwm := by
            rw [hd]; exact inv2.mark0
          have hhwm : s3.nativeArrayTableHwm = s.nativeArrayTableHwm := by
            rw [h1]; exact hmark
          have hlen : s3.nativeArrayTableLength = s2.nativeArrayTableLength := by rw [h1]
          have hobj : ∀ i, s.nativeArrayTableHwm ≤ i → (s3.elem i).obj = NULL := by
            intro i hi
            rw [h6 i, hmark]
            by_cases hc : i < s2.nativeArrayTableHwm
            · rw [if_pos ⟨hi, hc⟩]
            · rw [if_neg (fun hh => hc hh.2)]
              exact clean_elem s2 inv2.clean i (by omega)
          refine ⟨hobj, ?_, hhwm, ?_, ⟨?_, ?_, ?_⟩, ?_, ?_⟩
          · intro i hi
            rw [h6 i, hmark, if_neg (fun hh => by omega)]
            exact inv2.below i hi
          · rw [h1]; exact hd
          · rw [h2, hlen]; exact inv2.wf.1
          · rw [hlen]; exact inv2.wf.2.1
          · rw [hhwm, hlen]
            exact le_trans inv2.hwm_ge inv2.wf.2.2
          · apply clean_of_elem
            intro i hi
            exact hobj i (by rw [hhwm] at hi; exact hi)
          · apply kindsOK_of_elem
            intro i
            rw [h6 i]
            split
            · left; rfl
            · exact kindsOK_elem s2 inv2.kinds i

/-- Witness for C2, from the state with two open frames: leaving the inner frame
tombstones its entry (index 1) and leaves the outer entry (index 0); a further
frame with a nested frame, each acquiring one object, leaves both earlier
entries as they were and every later element without source object. -/
theorem callExit_frame_witness :
    (∃ st, callExit R_NaInt stateTwo = Result.ok () st ∧
      (st.elem 1).obj = NULL ∧ st.elem 0 = stateTwo.elem 0 ∧ st.callDepth = 1) ∧
    ((run R_NaInt stateTwo (Op.callEnter 7 ::
        [Op.getNativeArray 3 SEXPTYPE.INTSXP, Op.callEnter 8,
          Op.getNativeArray 4 SEXPTYPE.LGLSXP, Op.callExit] ++ [Op.callExit])).state.elem 2).obj
      = NULL ∧
    (run R_NaInt stateTwo (Op.callEnter 7 ::
        [Op.getNativeArray 3 SEXPTYPE.INTSXP, Op.callEnter 8,
          Op.getNativeArray 4 SEXPTYPE.LGLSXP, Op.callExit] ++ [Op.callExit])).state.elem 1
      = stateTwo.elem 1 := by
  have h := callExit_frame R_NaInt stateTwo 7
    [Op.getNativeArray 3 SEXPTYPE.INTSXP, Op.callEnter 8,
      Op.getNativeArray 4 SEXPTYPE.LGLSXP, Op.callExit] (by decide)
  obtain ⟨st, h1, h2, h3, _, h5⟩ := h.1 (by decide) (fun i hi1 hi2 _ ht => by
    have e1 : (1 : Nat) ≤ i := hi1
    have e2 : i < 2 := hi2
    have e3 : i = 1 := by omega
    subst e3
    exact absurd ht (by decide))
  obtain ⟨k1, k2, _⟩ := h.2 (by decide) (by decide) (by decide) (by decide)
  exact ⟨⟨st, h1, h2 1 (by decide) (by decide), h3 0 (by decide), h5⟩,
    k1 2 (by decide), k2 1 (by decide)⟩

/-- `getNativeArray` for an object without live entry, of a supported kind, when
allocation succeeds: it returns, having appended one entry for the object
with the buffer it returns. -/
theorem getNativeArray_fresh (NA_INTEGER : Int) (s : State) (x : SEXP) (type : SEXPTYPE)
    (hwf : WF s) (halloc : ∀ k, s.env.addrs k ≠ NULL) (hsup : type.supported = true)
    (hnone : ∀ j, j < s.nativeArrayTableHwm → ¬ Mirrors s.env (s.elem j) x) :
    ∃ p st, getNativeArray NA_INTEGER s x type = Result.ok p st ∧ WF st ∧
      st.nativeArrayTableHwm = s.nativeArrayTableHwm + 1 ∧
      (st.elem s.nativeArrayTableHwm).obj = x ∧ (st.elem s.nativeArrayTableHwm).type = type ∧
      (st.elem s.nativeArrayTableHwm).data = p ∧
      (∀ i, i ≠ s.nativeArrayTableHwm → st.elem i = s.elem i) ∧
      st.env.oop = s.env.oop ∧ st.env.addrs = s.env.addrs ∧
      (s.nativeArrayTableHwm < s.nativeArrayTableLength →
        st.nativeArrayTableLength = s.nativeArrayTableLength) ∧
      (s.nativeArrayTableHwm = s.nativeArrayTableLength →
        st.nativeArrayTableLength = 2 * s.nativeArrayTableLength) := by
  have hfs := findNativeArray_state s x
  rw [getNativeArray_miss NA_INTEGER s x type (Or.inl (findNativeArray_eq_none s x hnone))]
  cases hex : extraction NA_INTEGER s.env x type with
  | none =>
    obtain ⟨r, hr⟩ := extraction_returns NA_INTEGER s.env x type hsup halloc
    rw [hr] at hex
    cases hex
  | some r =>
    obtain ⟨jArray, data, env1⟩ := r
    obtain ⟨e1, _, e3, _⟩ := extraction_env NA_INTEGER s.env x type jArray data env1 hex
    simp only []
    rw [hfs]
    by_cases hroom : s.nativeArrayTableHwm < s.nativeArrayTableLength
    · obtain ⟨st, h0, h1, h2, h3, h4, h5, h6, _⟩ :=
        addNativeArray_room
          { { s with nativeArrayTableLastIndex := (findNativeArray s x).2.nativeArrayTableLastIndex }
              with env := env1 } x type jArray data hwf.1 hroom
      rw [h0]
      have h3 : st.nativeArrayTableHwm = s.nativeArrayTableHwm + 1 := h3
      have h1 : st.nativeArrayTableLength = s.nativeArrayTableLength := h1
      have h2 : st.nativeArrayTable.length = s.nativeArrayTableLength := h2
      have h4 : st.elem s.nativeArrayTableHwm = ⟨type, x, jArray, data⟩ := h4
      have h6 : st.env = env1 := h6
      refine ⟨data, st, rfl, ⟨by rw [h2, h1], by rw [h1]; exact hwf.2.1, by omega⟩, h3,
        by rw [h4], by rw [h4], by rw [h4], h5, by rw [h6, e1], by rw [h6, e3],
        fun _ => h1, fun h => by omega⟩
    · have hfull : s.nativeArrayTableHwm = s.nativeArrayTableLength := by
        have := hwf.2.2; omega
      obtain ⟨st, h0, h1, h2, h3, h4, h5, h6, _⟩ :=
        addNativeArray_full
          { { s with nativeArrayTableLastIndex := (findNativeArray s x).2.nativeArrayTableLastIndex }
              with env := env1 } x type jArray data hwf.1 hfull hwf.2.1
          (by
            show env1.addrs env1.nalloc ≠ NULL
            rw [e3]; exact halloc _)
      rw [h0]
      have h3 : st.nativeArrayTableHwm = s.nativeArrayTableHwm + 1 := h3
      have h1 : st.nativeArrayTableLength = 2 * s.nativeArrayTableLength := h1
      have h2 : st.nativeArrayTable.length = 2 * s.nativeArrayTableLength := h2
      have h4 : st.elem s.nativeArrayTableHwm = ⟨type, x, jArray, data⟩ := h4
      have h6 : st.env = (calloc env1).2 := h6
      have := hwf.2.1
      refine ⟨data, st, rfl, ⟨by rw [h2, h1], by rw [h1]; omega, by omega⟩, h3,
        by rw [h4], by rw [h4], by rw [h4], h5, by rw [h6]; exact e1, by rw [h6]; exact e3,
        fun h => by omega, fun _ => h1⟩

/-- Acquiring objects that are pairwise distinct, non-null, of supported kinds
and not yet in the table, when allocation succeeds: every call returns and
appends one entry; the capacity stays while the entries fit and doubles
once when they exceed it by at most the capacity. -/
theorem acquireAll_fresh (NA_INTEGER : Int) :
    ∀ (reqs : List (SEXP × SEXPTYPE)) (s : State), WF s → (∀ k, s.env.addrs k ≠ NULL) →
      (∀ r ∈ reqs, r.1 ≠ NULL ∧ r.2.supported = true) →
      reqs.Pairwise (fun a b => s.env.oop a.1 ≠ s.env.oop b.1) →
      (∀ r ∈ reqs, ∀ j, j < s.nativeArrayTableHwm → ¬ Mirrors s.env (s.elem j) r.1) →
      ∃ ps st, acquireAll NA_INTEGER s reqs = Result.ok ps st ∧ WF st ∧
        st.nativeArrayTableHwm = s.nativeArrayTableHwm + reqs.length ∧
        (∀ i, i < s.nativeArrayTableHwm → st.elem i = s.elem i) ∧
        (∀ j r, reqs[j]? = some r →
          (st.elem (s.nativeArrayTableHwm + j)).obj = r.1 ∧
          (st.elem (s.nativeArrayTableHwm + j)).type = r.2 ∧
          ps[j]? = some (st.elem (s.nativeArrayTableHwm + j)).data) ∧
        (s.nativeArrayTableHwm + reqs.length ≤ s.nativeArrayTableLength →
          st.nativeArrayTableLength = s.nativeArrayTableLength) ∧
        (s.nativeArrayTableLength < s.nativeArrayTableHwm + reqs.length →
          s.nativeArrayTableHwm + reqs.length ≤ 2 * s.nativeArrayTableLength →
          st.nativeArrayTableLength = 2 * s.nativeArrayTableLength) := by
  intro reqs
  induction reqs with
  | nil =>
    intro s hwf _ _ _ _
    refine ⟨[], s, rfl, hwf, rfl, fun _ _ => rfl, ?_, fun _ => rfl, ?_⟩
    · intro j r h; simp at h
    · intro h1 h2; simp at h1; have := hwf.2.2; omega
  | cons r rest ih =>
    intro s hwf halloc hreq hdist hnone
    obtain ⟨p, s1, g0, g1, g2, g3, g4, g5, g6, g7, g8, g9, g10⟩ :=
      getNativeArray_fresh NA_INTEGER s r.1 r.2 hwf halloc (hreq r (List.mem_cons_self _ _)).2
        (hnone r (List.mem_cons_self _ _))
    have hdist' := List.pairwise_cons.mp hdist
    obtain ⟨ps, st, k0, k1, k2, k3, k4, k5, k6⟩ := ih s1 g1 (by rw [g8]; exact halloc)
      (fun q hq => hreq q (List.mem_cons_of_mem _ hq))
      (by rw [g7]; exact hdist'.2)
      (by
        intro q hq j hj hm
        by_cases hjs : j = s.nativeArrayTableHwm
        · rw [hjs] at hm
          obtain ⟨_, m2⟩ := hm
          rw [g3] at m2
          have hq1 := (hreq q (List.mem_cons_of_mem _ hq)).1
          have hr1 := (hreq r (List.mem_cons_self _ _)).1
          simp only [fast_IsSameObject] at m2
          rw [if_neg (fun h => hr1 h.1), if_neg (fun h => h.elim hr1 hq1)] at m2
          rw [g7] at m2
          exact hdist'.1 q hq (by simpa using m2)
        · rw [g6 j hjs, Mirrors, fast_IsSameObject_congr _ _ g7] at hm
          exact hnone q (List.mem_cons_of_mem _ hq) j (by omega) hm)
    refine ⟨p :: ps, st, ?_, k1, ?_, ?_, ?_, ?_, ?_⟩
    · simp only [acquireAll, g0, k0]
    · rw [k2, g2, List.length_cons]; omega
    · intro i hi
      rw [k3 i (by omega)]
      exact g6 i (by omega)
    · intro j q hq
      cases j with
      | zero =>
        simp only [List.getElem?_cons_zero, Option.some.injEq] at hq
        subst hq
        have := k3 s.nativeArrayTableHwm (by omega)
        simp only [Nat.add_zero, List.getElem?_cons_zero]
        rw [this]
        exact ⟨g3, g4, by rw [g5]⟩
      | succ j =>
        simp only [List.getElem?_cons_succ] at hq ⊢
        have := k4 j q hq
        rw [g2] at this
        have e : s.nativeArrayTableHwm + (j + 1) = s.nativeArrayTableHwm + 1 + j := by omega
        rw [e]
        exact this
    · intro h
      simp only [List.length_cons] at h
      rw [k5 (by rw [g2]; omega)]
      exact g9 (by omega)
    · intro h1 h2
      simp only [List.length_cons] at h1 h2
      by_cases hroom : s.nativeArrayTableHwm < s.nativeArrayTableLength
      · have e := g9 hroom
        rw [k6 (by rw [g2, e]; omega) (by rw [g2, e]; omega), e]
      · have hfull : s.nativeArrayTableHwm = s.nativeArrayTableLength := by
          have := hwf.2.2; omega
        have e := g10 hfull
        rw [k5 (by rw [g2, e]; omega), e]

/-- C5. When the table is full and `calloc` succeeds, `addNativeArray` doubles the
capacity, leaves every element below the old high-water mark as it was,
stores the new element at the old high-water mark and adds one to the mark.
After 65 acquisitions of distinct objects from the initial state (capacity
64), with allocation succeeding, the capacity is 128, the mark is 65, and
entry `j` holds the object and kind of the `j`-th acquisition and the buffer
that acquisition returned. -/
theorem addNativeArray_growth (NA_INTEGER : Int) (s : State) (x : SEXP) (type : SEXPTYPE)
    (jArray data : Ptr) (env : JNIEnv) (reqs : List (SEXP × SEXPTYPE))
    (hlen : s.nativeArrayTable.length = s.nativeArrayTableLength)
    (hfull : s.nativeArrayTableHwm = s.nativeArrayTableLength)
    (hpos : 0 < s.nativeArrayTableLength)
    (halloc : s.env.addrs s.env.nalloc ≠ NULL)
    (hallocs : ∀ k, env.addrs k ≠ NULL)
    (hn : reqs.length = 65)
    (hreq : ∀ r ∈ reqs, r.1 ≠ NULL ∧ r.2.supported = true)
    (hdist : reqs.Pairwise (fun a b => env.oop a.1 ≠ env.oop b.1)) :
    (∃ st, addNativeArray s x type jArray data = Result.ok () st ∧
      st.nativeArrayTableLength = 2 * s.nativeArrayTableLength ∧
      st.nativeArrayTable.length = 2 * s.nativeArrayTableLength ∧
      (∀ i, i < s.nativeArrayTableHwm → st.elem i = s.elem i) ∧
      st.elem s.nativeArrayTableHwm = ⟨type, x, jArray, data⟩ ∧
      st.nativeArrayTableHwm = s.nativeArrayTableHwm + 1) ∧
    (∃ ps st, acquireAll NA_INTEGER (init_utils env) reqs = Result.ok ps st ∧
      st.nativeArrayTableLength = 128 ∧ st.nativeArrayTableHwm = 65 ∧
      ∀ j r, reqs[j]? = some r →
        (st.elem j).obj = r.1 ∧ (st.elem j).type = r.2 ∧ ps[j]? = some (st.elem j).data) := by
  constructor
  · obtain ⟨st, h0, h1, h2, h3, h4, h5, _⟩ :=
      addNativeArray_full s x type jArray data hlen hfull hpos halloc
    exact ⟨st, h0, h1, h2, fun i hi => h5 i (by omega), h4, h3⟩
  · have hwf : WF (init_utils env) := by
      refine ⟨?_, ?_, ?_⟩ <;> simp [init_utils, NATIVE_ARRAY_TABLE_INITIAL_SIZE]
    obtain ⟨ps, st, k0, _, k2, _, k4, _, k6⟩ :=
      acquireAll_fresh NA_INTEGER reqs (init_utils env) hwf hallocs hreq hdist
        (fun r _ j hj => absurd hj (Nat.not_lt_zero j))
    have h0 : (init_utils env).nativeArrayTableHwm = 0 := rfl
    have h64 : (init_utils env).nativeArrayTableLength = 64 := rfl
    refine ⟨ps, st, k0, ?_, ?_, ?_⟩
    · rw [k6 (by rw [h0, h64, hn]; omega) (by rw [h0, h64, hn]; omega), h64]
    · rw [k2, h0, hn]
    · intro j r hj
      have := k4 j r hj
      rw [h0, Nat.zero_add] at this
      exact this

/-- Witness for C5: a full table of capacity two grows to four, and 65
acquisitions of the objects `1, ..., 65` from the initial state end with
capacity 128. -/
theorem addNativeArray_growth_witness :
    (∃ st, addNativeArray stateFull 3 SEXPTYPE.INTSXP 1003 4002 = Result.ok () st ∧
      st.nativeArrayTableLength = 4 ∧ st.elem 0 = stateFull.elem 0 ∧
      st.elem 2 = ⟨SEXPTYPE.INTSXP, 3, 1003, 4002⟩) ∧
    (∃ ps st, acquireAll R_NaInt (init_utils env0) (requests 65) = Result.ok ps st ∧
      st.nativeArrayTableLength = 128 ∧ (st.elem 64).obj = 65) := by
  have h := addNativeArray_growth R_NaInt stateFull 3 SEXPTYPE.INTSXP 1003 4002 env0 (requests 65)
    (by decide) (by decide) (by decide) (by decide)
    (by intro k; simp [env0, NULL])
    (by simp [requests])
    (by decide)
    (by decide)
  obtain ⟨⟨st, h0, h1, _, h3, h4, _⟩, ⟨ps, st2, k0, k1, _, k3⟩⟩ := h
  exact ⟨⟨st, h0, h1, h3 0 (by decide), h4⟩, ⟨ps, st2, k0, k1, (k3 64 (65, SEXPTYPE.INTSXP) (by decide)).1⟩⟩

/-! ## C3: boolean round trip -/

/-- Extraction of a packed boolean array, when on a non-empty array the
temporary copy and the native buffer are non-null and different blocks: it
does not crash, the buffer returned is the second block handed out, it holds
the widened bytes, and the managed arrays, identities and up-call log are as
before. -/
theorem extractVectorNativeArray_logical (NA_INTEGER : Int) (env : JNIEnv) (jArray : Ptr)
    (hsafe : 0 < (env.arrays (env.oop jArray)).length →
      env.addrs env.nalloc ≠ NULL ∧ env.addrs (env.nalloc + 1) ≠ NULL ∧
        env.addrs env.nalloc ≠ env.addrs (env.nalloc + 1)) :
    ∃ env1, extractVectorNativeArray NA_INTEGER env jArray SEXPTYPE.LGLSXP
        = some (env.addrs (env.nalloc + 1), env1) ∧
      env1.cmem (env.addrs (env.nalloc + 1))
        = extractLogical NA_INTEGER (env.arrays (env.oop jArray)) ∧
      env1.arrays = env.arrays ∧ env1.oop = env.oop ∧ env1.addrs = env.addrs ∧
      env1.nalloc = env.nalloc + 2 ∧ env1.completeLog = env.completeLog ∧
      env1.upcall = env.upcall := by
  have hnc : ¬ (0 < GetArrayLength env jArray ∧
      ((GetArrayElements env jArray).1 = NULL ∨
        (malloc (GetArrayElements env jArray).2 (GetArrayLength env jArray)).1 = NULL)) := by
    rintro ⟨h1, h2 | h2⟩
    · exact (hsafe h1).1 h2
    · exact (hsafe h1).2.1 h2
  unfold extractVectorNativeArray
  simp only []
  rw [if_neg hnc]
  refine ⟨_, rfl, ?_, rfl, rfl, rfl, rfl, rfl, rfl⟩
  simp only [ReleaseArrayElementsAbort, malloc, GetArrayElements,
    GetArrayLength, Function.update_same]
  by_cases hl : 0 < (env.arrays (env.oop jArray)).length
  · rw [Function.update_noteq (hsafe hl).2.2, Function.update_same, readBuf_self]
  · have hnil : env.arrays (env.oop jArray) = [] :=
      List.eq_nil_of_length_eq_zero (by omega)
    rw [hnil]
    rfl

theorem overwrite_length (ow : Nat → Option Int) (buf : List Int) :
    (overwrite ow buf).length = buf.length := by
  simp [overwrite]

theorem overwrite_getD (ow : Nat → Option Int) (buf : List Int) (k : Nat) (hk : k < buf.length) :
    (overwrite ow buf).getD k 0 = (ow k).getD (buf.getD k 0) := by
  simp [overwrite, List.getD_eq_getElem?_getD, hk]

theorem extractLogical_length (NA_INTEGER : Int) (bs : List Int) :
    (extractLogical NA_INTEGER bs).length = bs.length := by
  simp [extractLogical]

theorem extractLogical_getD (NA_INTEGER : Int) (bs : List Int) (k : Nat) (hk : k < bs.length) :
    (extractLogical NA_INTEGER bs).getD k 0 =
      if bs.getD k 0 = 0 then FALSE else if bs.getD k 0 = 1 then TRUE else NA_INTEGER := by
  simp [extractLogical, List.getD_eq_getElem?_getD, hk, List.getElem?_eq_getElem hk]

/-- C3. Take a packed boolean array whose bytes are each `0`, `1` or the packed
not-available byte `(jbyte) 255`, in an environment where the blocks handed
out while the buffer is in use are distinct and, if the array is not empty,
none of them is `NULL` (the code goes through them unchecked). Then
`extractVectorNativeArray` (kind `LGLSXP`) returns a buffer; and when native
code has overwritten any set of its elements with `0` or `1` and the entry
that records the buffer is released, `releaseNativeArray` returns, the
managed array has its length, holds the overwritten value at every
overwritten index and its original byte at every other index, and the
outcome passed to `setComplete` is `true` exactly when no element of the
native buffer is `NA_INTEGER`. The sentinel is any value other than `0` and
`1`. -/
theorem logical_round_trip (NA_INTEGER : Int) (env : JNIEnv) (x : SEXP)
    (jArray : Ptr) (ow : Nat → Option Int)
    (hNA0 : NA_INTEGER ≠ 0) (hNA1 : NA_INTEGER ≠ 1)
    (hbytes : ∀ b ∈ env.arrays (env.oop jArray), b = 0 ∨ b = 1 ∨ b = toJByte 255)
    (how : ∀ k v, ow k = some v → v = 0 ∨ v = 1)
    (hx : x ≠ NULL)
    (hblocks : env.addrs env.nalloc ≠ env.addrs (env.nalloc + 1))
    (htemp : env.addrs (env.nalloc + 2) ≠ env.addrs (env.nalloc + 1))
    (hsafe : 0 < (env.arrays (env.oop jArray)).length →
      env.addrs env.nalloc ≠ NULL ∧ env.addrs (env.nalloc + 1) ≠ NULL ∧
        env.addrs (env.nalloc + 2) ≠ NULL) :
    ∃ p env1, extractVectorNativeArray NA_INTEGER env jArray SEXPTYPE.LGLSXP = some (p, env1) ∧
      ∀ (s1 : State) (i : Nat), s1.elem i = ⟨SEXPTYPE.LGLSXP, x, jArray, p⟩ →
        s1.env = { env1 with cmem := Function.update env1.cmem p (overwrite ow (env1.cmem p)) } →
        ∃ st complete, releaseNativeArray NA_INTEGER s1 i = Result.ok () st ∧
          (st.env.arrays (env.oop jArray)).length = (env.arrays (env.oop jArray)).length ∧
          (∀ k, k < (env.arrays (env.oop jArray)).length →
            (st.env.arrays (env.oop jArray)).getD k 0
              = (ow k).getD ((env.arrays (env.oop jArray)).getD k 0)) ∧
          st.env.completeLog = (x, complete) :: env.completeLog ∧
          (complete = true ↔ ∀ v ∈ s1.env.cmem p, v ≠ NA_INTEGER) ∧
          (st.elem i).obj = NULL := by
  obtain ⟨env1, hex, e2, e3, e4, e5, e6, e7, _⟩ :=
    extractVectorNativeArray_logical NA_INTEGER env jArray
      (fun h => ⟨(hsafe h).1, (hsafe h).2.1, hblocks⟩)
  refine ⟨_, env1, hex, ?_⟩
  intro s1 i hentry henv
  rw [e2] at henv
  have hoop : s1.env.oop = env.oop := by rw [henv]; exact e4
  have harr : s1.env.arrays = env.arrays := by rw [henv]; exact e3
  have hlog : s1.env.completeLog = env.completeLog := by rw [henv]; exact e7
  have hcm : s1.env.cmem (env.addrs (env.nalloc + 1))
      = overwrite ow (extractLogical NA_INTEGER (env.arrays (env.oop jArray))) := by
    rw [henv]; simp only [Function.update_same]
  have hnext : s1.env.addrs s1.env.nalloc = env.addrs (env.nalloc + 2) := by
    rw [henv]
    simp only [e5, e6]
  have hfresh : s1.env.addrs s1.env.nalloc ≠ (s1.elem i).data := by
    rw [hentry, hnext]
    exact htemp
  have hlen0 : GetArrayLength s1.env jArray = (env.arrays (env.oop jArray)).length := by
    simp only [GetArrayLength, hoop, harr]
  obtain ⟨st, hst, r1, r2, r3⟩ := releaseNativeArray_logical_eq NA_INTEGER s1 i
    (by rw [hentry]; exact hx) (by rw [hentry]) hfresh
    (by
      intro hl
      rw [hentry] at hl ⊢
      simp only [] at hl ⊢
      rw [hlen0] at hl
      rw [hnext]
      exact ⟨(hsafe hl).2.2, (hsafe hl).2.1⟩)
  rw [hentry] at r1 r2 r3
  simp only [] at r1 r2 r3
  have hlen : GetArrayLength s1.env jArray = (env.arrays (env.oop jArray)).length := by
    simp only [GetArrayLength, hoop, harr]
  have hnl : (overwrite ow (extractLogical NA_INTEGER (env.arrays (env.oop jArray)))).length
      = (env.arrays (env.oop jArray)).length := by
    rw [overwrite_length, extractLogical_length]
  have hrb : readBuf (GetArrayLength s1.env jArray) (s1.env.cmem (env.addrs (env.nalloc + 1)))
      = overwrite ow (extractLogical NA_INTEGER (env.arrays (env.oop jArray))) := by
    rw [hcm, hlen, ← hnl, readBuf_self]
  rw [hrb] at r1 r2
  rw [hoop] at r1
  refine ⟨st, _, hst, ?_, ?_, by rw [r2, hlog], ?_, ?_⟩
  · rw [r1, Function.update_same]
    simp only [releaseLogical, List.length_map]
    exact hnl
  · intro k hk
    rw [r1, Function.update_same]
    simp only [releaseLogical]
    have hk' : k < (overwrite ow (extractLogical NA_INTEGER (env.arrays (env.oop jArray)))).length := by
      rw [hnl]; exact hk
    rw [List.getD_eq_getElem?_getD, List.getElem?_map, List.getElem?_eq_getElem hk']
    simp only [Option.map_some', Option.getD_some]
    have hv : (overwrite ow (extractLogical NA_INTEGER (env.arrays (env.oop jArray))))[k]
        = (ow k).getD ((extractLogical NA_INTEGER (env.arrays (env.oop jArray))).getD k 0) := by
      have := overwrite_getD ow (extractLogical NA_INTEGER (env.arrays (env.oop jArray))) k
        (by rw [extractLogical_length]; exact hk)
      rw [List.getD_eq_getElem?_getD, List.getElem?_eq_getElem hk'] at this
      simpa using this
    rw [hv, extractLogical_getD NA_INTEGER _ k hk]
    cases hw : ow k with
    | some v =>
      simp only [Option.getD_some]
      rcases how k v hw with h | h
      · rw [h, if_neg (Ne.symm hNA0)]; rfl
      · rw [h, if_neg (Ne.symm hNA1)]; rfl
    | none =>
      simp only [Option.getD_none]
      have hb : (env.arrays (env.oop jArray)).getD k 0 ∈ env.arrays (env.oop jArray) := by
        rw [List.getD_eq_getElem?_getD, List.getElem?_eq_getElem hk]
        exact List.getElem_mem hk
      have g0 : (if (0 : Int) = 0 then FALSE else if (0 : Int) = 1 then TRUE else NA_INTEGER)
          = 0 := by simp [FALSE]
      have g1 : (if (1 : Int) = 0 then FALSE else if (1 : Int) = 1 then TRUE else NA_INTEGER)
          = 1 := by simp [TRUE]
      have gN : (if toJByte 255 = 0 then FALSE else if toJByte 255 = 1 then TRUE
          else NA_INTEGER) = NA_INTEGER := by
        have a : toJByte 255 ≠ 0 := by decide
        have b : toJByte 255 ≠ 1 := by decide
        rw [if_neg a, if_neg b]
      rcases hbytes _ hb with h | h | h
      · rw [h, g0, if_neg (Ne.symm hNA0)]; rfl
      · rw [h, g1, if_neg (Ne.symm hNA1)]; rfl
      · rw [h, gN, if_pos rfl]
  · rw [hcm]
    simp only [releaseLogical, List.all_eq_true]
    constructor
    · intro h v hv
      simpa using h v hv
    · intro h v hv
      simpa using h v hv
  · rw [elem_tombstone s1 st i (by rw [r3, hentry]) i, if_pos rfl]

/-- Witness for C3: the array `[true, false, NA]` is extracted into the buffer at
address `5001`; with element `0` set to false by native code it is written
back as `[false, false, NA]`, reported incomplete. -/
theorem logical_round_trip_witness :
    ∃ p env1, extractVectorNativeArray R_NaInt envBool 2 SEXPTYPE.LGLSXP = some (p, env1) ∧
      p = 5001 ∧
      ∃ st complete, releaseNativeArray R_NaInt stateBool 0 = Result.ok () st ∧
        (st.env.arrays 2).getD 0 0 = 0 ∧ (st.env.arrays 2).getD 1 0 = 0 ∧
        (st.env.arrays 2).getD 2 0 = -1 ∧ st.env.completeLog = [(1, complete)] ∧
        ¬ complete = true := by
  obtain ⟨p, env1, hex, h⟩ :=
    logical_round_trip R_NaInt envBool 1 2 owFirst (by decide) (by decide)
      (by decide)
      (by
        intro k v h
        by_cases hk : k = 0
        · simp [owFirst, hk] at h; exact Or.inl h.symm
        · simp [owFirst, hk] at h)
      (by decide) (by decide) (by decide) (fun _ => by decide)
  have e : extractedBool = (p, env1) := by
    unfold extractedBool
    rw [hex]
    rfl
  have hp : extractedBool.1 = 5001 := by decide
  have h1 : stateBool.elem 0 = ⟨SEXPTYPE.LGLSXP, 1, 2, extractedBool.1⟩ := rfl
  have h2 : stateBool.env =
      { extractedBool.2 with
          cmem := Function.update extractedBool.2.cmem extractedBool.1
            (overwrite owFirst (extractedBool.2.cmem extractedBool.1)) } := rfl
  rw [e] at h1 h2 hp
  obtain ⟨st, c, g1, _, g3, g4, g5, _⟩ := h stateBool 0 h1 h2
  refine ⟨p, env1, hex, hp, st, c, g1, g3 0 (by decide), g3 1 (by decide), g3 2 (by decide),
    g4, ?_⟩
  intro hc
  have hmem : R_NaInt ∈ stateBool.env.cmem extractedBool.1 := by decide
  rw [e] at hmem
  exact absurd rfl (g5.mp hc R_NaInt hmem)

/-! ## C1: identity stability -/

theorem fast_IsSameObject_iff (env : JNIEnv) (a b : Ptr) :
    fast_IsSameObject env a b = true ↔
      (a = NULL ∧ b = NULL) ∨ (a ≠ NULL ∧ b ≠ NULL ∧ env.oop a = env.oop b) := by
  unfold fast_IsSameObject
  by_cases ha : a = NULL
  · by_cases hb : b = NULL
    · rw [if_pos ⟨ha, hb⟩]
      exact ⟨fun _ => Or.inl ⟨ha, hb⟩, fun _ => rfl⟩
    · rw [if_neg (fun h => hb h.2), if_pos (Or.inl ha)]
      constructor
      · intro h; cases h
      · rintro (⟨_, h⟩ | ⟨h, _⟩)
        · exact absurd h hb
        · exact absurd ha h
  · rw [if_neg (fun h => ha h.1)]
    by_cases hb : b = NULL
    · rw [if_pos (Or.inr hb)]
      constructor
      · intro h; cases h
      · rintro (⟨h, _⟩ | ⟨_, h, _⟩)
        · exact absurd h ha
        · exact absurd hb h
    · rw [if_neg (fun h => h.elim ha hb)]
      constructor
      · intro h; exact Or.inr ⟨ha, hb, by simpa using h⟩
      · rintro (⟨h, _⟩ | ⟨_, _, h⟩)
        · exact absurd h ha
        · simpa using h

theorem fast_IsSameObject_symm (env : JNIEnv) (a b : Ptr)
    (h : fast_IsSameObject env a b = true) : fast_IsSameObject env b a = true := by
  rw [fast_IsSameObject_iff] at h ⊢
  rcases h with ⟨h1, h2⟩ | ⟨h1, h2, h3⟩
  · exact Or.inl ⟨h2, h1⟩
  · exact Or.inr ⟨h2, h1, h3.symm⟩

theorem fast_IsSameObject_trans (env : JNIEnv) (a b c : Ptr)
    (h1 : fast_IsSameObject env a b = true) (h2 : fast_IsSameObject env b c = true) :
    fast_IsSameObject env a c = true := by
  rw [fast_IsSameObject_iff] at h1 h2 ⊢
  rcases h1 with ⟨a1, a2⟩ | ⟨a1, a2, a3⟩
  · rcases h2 with ⟨b1, b2⟩ | ⟨b1, _, _⟩
    · exact Or.inl ⟨a1, b2⟩
    · exact absurd a2 b1
  · rcases h2 with ⟨b1, _⟩ | ⟨_, b2, b3⟩
    · exact absurd b1 a2
    · exact Or.inr ⟨a1, b2, a3.trans b3⟩

/-- With the buffer of `x` cached and non-null, `getNativeArray(x)` returns it and
moves `nativeArrayTableLastIndex` at most. -/
theorem cached_hit (NA_INTEGER : Int) (x : SEXP) (p : Ptr) (type : SEXPTYPE) (st : State)
    (hp : p ≠ NULL) (c : Cached x p st) :
    getNativeArray NA_INTEGER st x type = Result.ok p (findNativeArray st x).2 := by
  obtain ⟨j, hj, hm⟩ := c.ex
  obtain ⟨k, hk⟩ := findNativeArray_isSome st x j hj hm.1 hm.2
  obtain ⟨k1, k2, k3⟩ := findNativeArray_some st x k hk
  have hd := c.all k k1 ⟨k2, k3⟩
  have := getNativeArray_hit NA_INTEGER st x type k hk (by rw [hd]; exact hp)
  rw [hd] at this
  exact this

theorem cached_lastIndex (x : SEXP) (p : Ptr) (st : State) (li : Nat) (c : Cached x p st) :
    Cached x p { st with nativeArrayTableLastIndex := li } :=
  ⟨c.ex, c.all, c.wf⟩

theorem cached_callEnter (x : SEXP) (p : Ptr) (st st1 : State) (jmpbuf : Ptr)
    (c : Cached x p st) (h : callEnter st jmpbuf = Result.ok () st1) : Cached x p st1 := by
  obtain ⟨_, rfl⟩ := callEnter_ok st st1 jmpbuf h
  exact ⟨c.ex, c.all, c.wf⟩

theorem cached_getNativeArray (NA_INTEGER : Int) (x : SEXP) (p : Ptr) (st st1 : State)
    (y : SEXP) (type : SEXPTYPE) (q : Ptr) (hp : p ≠ NULL) (c : Cached x p st)
    (h : getNativeArray NA_INTEGER st y type = Result.ok q st1) : Cached x p st1 := by
  have hfs := findNativeArray_state st y
  by_cases hhit : ∃ k, (findNativeArray st y).1 = some k ∧ (st.elem k).data ≠ NULL
  · obtain ⟨k, hk, hd⟩ := hhit
    rw [getNativeArray_hit NA_INTEGER st y type k hk hd] at h
    cases h
    rw [hfs]
    exact cached_lastIndex x p st _ c
  · have hmiss : (findNativeArray st y).1 = none ∨
        ∃ k, (findNativeArray st y).1 = some k ∧ (st.elem k).data = NULL := by
      cases hf : (findNativeArray st y).1 with
      | none => exact Or.inl rfl
      | some k =>
        right
        refine ⟨k, rfl, ?_⟩
        by_contra hd
        exact hhit ⟨k, hf, hd⟩
    -- the object acquired is not identical to `x`
    have hyx : y ≠ NULL → ¬ fast_IsSameObject st.env y x = true := by
      intro _ hsame
      obtain ⟨j, hj, hm⟩ := c.ex
      have hjy : fast_IsSameObject st.env (st.elem j).obj y = true :=
        fast_IsSameObject_trans _ _ _ _ hm.2 (fast_IsSameObject_symm _ _ _ hsame)
      rcases hmiss with hn | ⟨k, hk, hd⟩
      · exact findNativeArray_none st y hn j hj ⟨hm.1, hjy⟩
      · obtain ⟨k1, k2, k3⟩ := findNativeArray_some st y k hk
        have := c.all k k1 ⟨k2, fast_IsSameObject_trans _ _ _ _ k3 hsame⟩
        rw [hd] at this
        exact hp this.symm
    rw [getNativeArray_miss NA_INTEGER st y type hmiss] at h
    cases hex : extraction NA_INTEGER st.env y type with
    | none => rw [hex] at h; simp only [] at h; split at h <;> cases h
    | some r =>
      obtain ⟨jArray, data, env1⟩ := r
      rw [hex] at h
      simp only [] at h
      cases hadd : addNativeArray { (findNativeArray st y).2 with env := env1 } y type jArray data with
      | fatal msg s2 => rw [hadd] at h; cases h
      | crash s2 => rw [hadd] at h; cases h
      | ok u s2 =>
        rw [hadd] at h
        cases h
        rw [hfs] at hadd
        obtain ⟨a1, a2, a3, a4, a5, a6, a7, _⟩ :=
          addNativeArray_ok _ y type jArray q st1 (by exact c.wf.1) (by exact c.wf.2.1)
            (by exact c.wf.2.2) hadd
        have a2 : st.nativeArrayTableLength ≤ st1.nativeArrayTableLength := a2
        have a3 : st1.nativeArrayTableHwm = st.nativeArrayTableHwm + 1 := a3
        have a5 : st1.elem st.nativeArrayTableHwm = ⟨type, y, jArray, q⟩ := a5
        have a6 : ∀ i, i ≠ st.nativeArrayTableHwm → st1.elem i = st.elem i := a6
        have e1 := (extraction_env NA_INTEGER st.env y type jArray q env1 hex).1
        have hoop : st1.env.oop = st.env.oop := by
          rcases a7 with h | h
          · rw [h]; exact e1
          · rw [h]; exact e1
        refine ⟨?_, ?_, ⟨a1, lt_of_lt_of_le c.wf.2.1 a2, a4⟩⟩
        · obtain ⟨j, hj, hm⟩ := c.ex
          refine ⟨j, by omega, ?_⟩
          rw [a6 j (by omega), Mirrors, fast_IsSameObject_congr _ _ hoop]
          exact hm
        · intro k hk hm
          by_cases hks : k = st.nativeArrayTableHwm
          · exfalso
            rw [hks, a5, Mirrors, fast_IsSameObject_congr _ _ hoop] at hm
            exact hyx hm.1 hm.2
          · rw [a6 k hks, Mirrors, fast_IsSameObject_congr _ _ hoop] at hm
            rw [a6 k hks]
            exact c.all k (by omega) hm

/-- After `getNativeArray(x)` returned a non-null buffer, in a state where the
live entries of `x` recorded one non-null buffer, that buffer is cached. -/
theorem cached_first (NA_INTEGER : Int) (s s1 : State) (x : SEXP) (type : SEXPTYPE) (p : Ptr)
    (hx : x ≠ NULL) (hwf : WF s)
    (hone : ∀ i j, i < s.nativeArrayTableHwm → j < s.nativeArrayTableHwm →
      Mirrors s.env (s.elem i) x → Mirrors s.env (s.elem j) x →
      (s.elem i).data = (s.elem j).data)
    (hnn : ∀ i, i < s.nativeArrayTableHwm → Mirrors s.env (s.elem i) x → (s.elem i).data ≠ NULL)
    (h : getNativeArray NA_INTEGER s x type = Result.ok p s1) :
    Cached x p s1 := by
  have hfs := findNativeArray_state s x
  cases hf : (findNativeArray s x).1 with
  | some k =>
    obtain ⟨k1, k2, k3⟩ := findNativeArray_some s x k hf
    rw [getNativeArray_hit NA_INTEGER s x type k hf (hnn k k1 ⟨k2, k3⟩)] at h
    cases h
    rw [hfs]
    exact ⟨⟨k, k1, k2, k3⟩, fun j hj hm => hone j k hj k1 hm ⟨k2, k3⟩, hwf⟩
  | none =>
    rw [getNativeArray_miss NA_INTEGER s x type (Or.inl hf)] at h
    cases hex : extraction NA_INTEGER s.env x type with
    | none => rw [hex] at h; simp only [] at h; split at h <;> cases h
    | some r =>
      obtain ⟨jArray, data, env1⟩ := r
      rw [hex] at h
      simp only [] at h
      cases hadd : addNativeArray { (findNativeArray s x).2 with env := env1 } x type jArray data with
      | fatal msg s2 => rw [hadd] at h; cases h
      | crash s2 => rw [hadd] at h; cases h
      | ok u s2 =>
        rw [hadd] at h
        cases h
        rw [hfs] at hadd
        obtain ⟨a1, a2, a3, a4, a5, a6, a7, _⟩ :=
          addNativeArray_ok _ x type jArray p s1 (by exact hwf.1) (by exact hwf.2.1)
            (by exact hwf.2.2) hadd
        have a2 : s.nativeArrayTableLength ≤ s1.nativeArrayTableLength := a2
        have a3 : s1.nativeArrayTableHwm = s.nativeArrayTableHwm + 1 := a3
        have a5 : s1.elem s.nativeArrayTableHwm = ⟨type, x, jArray, p⟩ := a5
        have a6 : ∀ i, i ≠ s.nativeArrayTableHwm → s1.elem i = s.elem i := a6
        have e1 := (extraction_env NA_INTEGER s.env x type jArray p env1 hex).1
        have hoop : s1.env.oop = s.env.oop := by
          rcases a7 with h | h
          · rw [h]; exact e1
          · rw [h]; exact e1
        refine ⟨⟨s.nativeArrayTableHwm, by omega, ?_⟩, ?_, ⟨a1, lt_of_lt_of_le hwf.2.1 a2, a4⟩⟩
        · rw [a5]
          exact ⟨hx, fast_IsSameObject_self _ _⟩
        · intro k hk hm
          by_cases hks : k = s.nativeArrayTableHwm
          · rw [hks, a5]
          · exfalso
            rw [a6 k hks, Mirrors, fast_IsSameObject_congr _ _ hoop] at hm
            exact findNativeArray_none s x hf k (by omega) hm

/-! ## The invariant of reachable states -/

theorem shrinks_refl (s : State) : Shrinks s s :=
  ⟨rfl, rfl, fun _ => Or.inl rfl, rfl⟩

theorem shrinks_trans (s t u : State) (h1 : Shrinks s t) (h2 : Shrinks t u) : Shrinks s u := by
  refine ⟨?_, h2.len.trans h1.len, ?_, h2.oop.trans h1.oop⟩
  · rw [h2.frame, h1.frame]
  · intro i
    rcases h2.elems i with a | a
    · rw [a]; exact h1.elems i
    · rcases h1.elems i with b | b
      · rw [a, b]; exact Or.inr rfl
      · rw [a, b]; exact Or.inr rfl

/-- A loop whose body only shrinks the state only shrinks the state. -/
theorem forRange_shrinks (body : State → Nat → Result Unit)
    (hbody : ∀ st k st1, body st k = Result.ok () st1 → Shrinks st st1) :
    ∀ (n lo : Nat) (s st : State), forRange body lo n s = Result.ok () st → Shrinks s st := by
  intro n
  induction n with
  | zero =>
    intro lo s st h
    simp only [forRange] at h
    cases h
    exact shrinks_refl s
  | succ n ih =>
    intro lo s st h
    simp only [forRange] at h
    cases hb : body s lo with
    | fatal msg s1 => rw [hb] at h; cases h
    | crash s1 => rw [hb] at h; cases h
    | ok u s1 =>
      rw [hb] at h
      exact shrinks_trans s s1 st (hbody s lo s1 hb) (ih (lo + 1) s1 st h)

theorem shrinks_of_tombstone (s st : State) (i : Nat)
    (hf : st = { s with nativeArrayTable := s.nativeArrayTable.set i { s.elem i with obj := NULL },
                        env := st.env })
    (hoop : st.env.oop = s.env.oop) : Shrinks s st := by
  have htab : st.nativeArrayTable = s.nativeArrayTable.set i { s.elem i with obj := NULL } := by
    rw [hf]
  refine ⟨?_, by rw [htab, List.length_set], ?_, hoop⟩
  · rw [hf]
  · intro j
    rw [elem_tombstone s st i htab j]
    by_cases hij : i = j
    · subst hij; rw [if_pos rfl]; exact Or.inr rfl
    · rw [if_neg hij]; exact Or.inl rfl

theorem releaseNativeArray_shrinks (NA_INTEGER : Int) (s st : State) (i : Nat)
    (h : releaseNativeArray NA_INTEGER s i = Result.ok () st) : Shrinks s st := by
  obtain ⟨h2, h3, _⟩ := releaseNativeArray_spec NA_INTEGER s st i h
  exact shrinks_of_tombstone s st i h2 h3

theorem updateNativeArray_shrinks (s st : State) (i : Nat)
    (h : updateNativeArray s i = Result.ok () st) : Shrinks s st := by
  unfold updateNativeArray at h
  simp only [] at h
  split at h
  · split at h
    · cases h
    · split at h
      · split at h
        · cases h; exact ⟨rfl, rfl, fun _ => Or.inl rfl, rfl⟩
        · cases h; exact ⟨rfl, rfl, fun _ => Or.inl rfl, rfl⟩
        · cases h; exact ⟨rfl, rfl, fun _ => Or.inl rfl, rfl⟩
        · split at h
          · cases h
          · cases h; exact ⟨rfl, rfl, fun _ => Or.inl rfl, rfl⟩
        · cases h
      · cases h
        exact shrinks_of_tombstone s _ i rfl rfl
  · cases h; exact shrinks_refl s

theorem findNativeArray_shrinks (s : State) (x : SEXP) : Shrinks s (findNativeArray s x).2 := by
  unfold findNativeArray
  split
  · exact shrinks_refl s
  · split
    · exact ⟨rfl, rfl, fun _ => Or.inl rfl, rfl⟩
    · exact shrinks_refl s

theorem updateJObject_shrinks (s st : State) (x : SEXP)
    (h : updateJObject s x = Result.ok () st) : Shrinks s st := by
  have hfs := findNativeArray_shrinks s x
  unfold updateJObject at h
  cases hf : findNativeArray s x with
  | mk o s1 =>
    rw [hf] at h hfs
    refine shrinks_trans s s1 st hfs ?_
    cases o with
    | none =>
      simp only [] at h
      cases h
      exact shrinks_refl _
    | some k =>
      simp only [] at h
      split at h
      · split at h
        · cases h; exact ⟨rfl, rfl, fun _ => Or.inl rfl, rfl⟩
        · cases h; exact ⟨rfl, rfl, fun _ => Or.inl rfl, rfl⟩
        · cases h; exact ⟨rfl, rfl, fun _ => Or.inl rfl, rfl⟩
        · split at h
          · cases h
          · cases h; exact ⟨rfl, rfl, fun _ => Or.inl rfl, rfl⟩
        · cases h
      · cases h; exact shrinks_refl _

/-- The two ways `getNativeArray` returns from a well-formed state: it found an
entry with a non-null buffer and changed `nativeArrayTableLastIndex` at most,
or it appended one entry of a supported kind at the high-water mark. -/
theorem getNativeArray_ok_cases (NA_INTEGER : Int) (s st : State) (x : SEXP) (type : SEXPTYPE)
    (p : Ptr) (hwf : WF s) (h : getNativeArray NA_INTEGER s x type = Result.ok p st) :
    (st = (findNativeArray s x).2 ∧
      ∃ k, (findNativeArray s x).1 = some k ∧ (s.elem k).data = p ∧ p ≠ NULL) ∨
    (WF st ∧ type.supported = true ∧
      st.nativeArrayTableHwm = s.nativeArrayTableHwm + 1 ∧
      (∃ jArray, st.elem s.nativeArrayTableHwm = ⟨type, x, jArray, p⟩) ∧
      (∀ i, i ≠ s.nativeArrayTableHwm → st.elem i = s.elem i) ∧
      s.nativeArrayTableLength ≤ st.nativeArrayTableLength ∧
      st.nativeArrayTableHwmStack = s.nativeArrayTableHwmStack ∧
      st.callDepth = s.callDepth ∧ st.env.oop = s.env.oop ∧
      ((findNativeArray s x).1 = none ∨
        ∃ k, (findNativeArray s x).1 = some k ∧ (s.elem k).data = NULL)) := by
  have hfs := findNativeArray_state s x
  by_cases hhit : ∃ k, (findNativeArray s x).1 = some k ∧ (s.elem k).data ≠ NULL
  · obtain ⟨k, hk, hd⟩ := hhit
    rw [getNativeArray_hit NA_INTEGER s x type k hk hd] at h
    cases h
    exact Or.inl ⟨rfl, k, hk, rfl, hd⟩
  · have hmiss : (findNativeArray s x).1 = none ∨
        ∃ k, (findNativeArray s x).1 = some k ∧ (s.elem k).data = NULL := by
      cases hf : (findNativeArray s x).1 with
      | none => exact Or.inl rfl
      | some k =>
        right
        refine ⟨k, rfl, ?_⟩
        by_contra hd
        exact hhit ⟨k, hf, hd⟩
    right
    rw [getNativeArray_miss NA_INTEGER s x type hmiss] at h
    cases hex : extraction NA_INTEGER s.env x type with
    | none => rw [hex] at h; simp only [] at h; split at h <;> cases h
    | some r =>
      obtain ⟨jArray, data, env1⟩ := r
      rw [hex] at h
      simp only [] at h
      cases hadd : addNativeArray { (findNativeArray s x).2 with env := env1 } x type jArray data with
      | fatal msg s2 => rw [hadd] at h; cases h
      | crash s2 => rw [hadd] at h; cases h
      | ok u s2 =>
        rw [hadd] at h
        cases h
        rw [hfs] at hadd
        obtain ⟨a1, a2, a3, a4, a5, a6, a7, a8, a9, _⟩ :=
          addNativeArray_ok _ x type jArray p st (by exact hwf.1) (by exact hwf.2.1)
            (by exact hwf.2.2) hadd
        have a2 : s.nativeArrayTableLength ≤ st.nativeArrayTableLength := a2
        have a3 : st.nativeArrayTableHwm = s.nativeArrayTableHwm + 1 := a3
        have a5 : st.elem s.nativeArrayTableHwm = ⟨type, x, jArray, p⟩ := a5
        have a6 : ∀ i, i ≠ s.nativeArrayTableHwm → st.elem i = s.elem i := a6
        have a8 : st.callDepth = s.callDepth := a8
        have a9 : st.nativeArrayTableHwmStack = s.nativeArrayTableHwmStack := a9
        obtain ⟨e1, _, _, e4⟩ := extraction_env NA_INTEGER s.env x type jArray p env1 hex
        have hoop : st.env.oop = s.env.oop := by
          rcases a7 with h | h
          · rw [h]; exact e1
          · rw [h]; exact e1
        exact ⟨⟨a1, lt_of_lt_of_le hwf.2.1 a2, a4⟩, e4, a3, ⟨jArray, a5⟩, a6, a2, a9, a8, hoop, hmiss⟩

theorem inv_shrinks (s st : State) (inv : Inv s) (h : Shrinks s st) : Inv st := by
  have hhwm : st.nativeArrayTableHwm = s.nativeArrayTableHwm := by rw [h.frame]
  have hlen : st.nativeArrayTableLength = s.nativeArrayTableLength := by rw [h.frame]
  have hstack : st.nativeArrayTableHwmStack = s.nativeArrayTableHwmStack := by rw [h.frame]
  refine ⟨⟨by rw [h.len, hlen]; exact inv.wf.1, by rw [hlen]; exact inv.wf.2.1,
    by rw [hhwm, hlen]; exact inv.wf.2.2⟩, ?_, ?_, by rw [hstack, hlen]; exact inv.marks⟩
  · apply kindsOK_of_elem
    intro i
    rcases h.elems i with a | a
    · rw [a]; exact kindsOK_elem s inv.kinds i
    · rw [a]; exact Or.inl rfl
  · apply clean_of_elem
    intro i hi
    rw [hhwm] at hi
    rcases h.elems i with a | a
    · rw [a]; exact clean_elem s inv.clean i hi
    · rw [a]

/-- The state after `init_utils` satisfies the invariant. -/
theorem inv_init (env : JNIEnv) : Inv (init_utils env) := by
  have hz : ∀ i, (init_utils env).elem i = NativeArrayElem.zero := by
    intro i
    simp only [State.elem, init_utils, List.getD_eq_getElem?_getD, List.getElem?_replicate]
    split <;> rfl
  refine ⟨⟨?_, ?_, ?_⟩, ?_, ?_, fun _ => Nat.zero_le _⟩
  · simp [init_utils]
  · simp [init_utils, NATIVE_ARRAY_TABLE_INITIAL_SIZE]
  · simp [init_utils]
  · apply kindsOK_of_elem; intro i; rw [hz i]; exact Or.inl rfl
  · apply clean_of_elem; intro i _; rw [hz i]; rfl

/-- Every call that returns keeps the invariant. -/
theorem inv_step (NA_INTEGER : Int) (s st : State) (op : Op) (inv : Inv s)
    (h : step NA_INTEGER s op = Result.ok () st) : Inv st := by
  cases op with
  | callEnter j =>
    obtain ⟨_, rfl⟩ := callEnter_ok s st j h
    refine ⟨inv.wf, inv.kinds, inv.clean, ?_⟩
    intro e
    simp only []
    by_cases he : e = s.callDepth
    · rw [he, Function.update_same]; exact inv.wf.2.2
    · rw [Function.update_noteq he]; exact inv.marks e
  | callExit =>
    have h' : callExit NA_INTEGER s = Result.ok () st := h
    obtain ⟨h1, h2, _, _, _, h6⟩ := callExit_spec NA_INTEGER s st h'
    have hhwm : st.nativeArrayTableHwm = s.nativeArrayTableHwmStack (s.callDepth - 1) := by
      rw [h1]
    have hlen : st.nativeArrayTableLength = s.nativeArrayTableLength := by rw [h1]
    have hstack : st.nativeArrayTableHwmStack = s.nativeArrayTableHwmStack := by rw [h1]
    refine ⟨⟨by rw [h2, hlen]; exact inv.wf.1, by rw [hlen]; exact inv.wf.2.1,
      by rw [hhwm, hlen]; exact inv.marks _⟩, ?_, ?_, by rw [hstack, hlen]; exact inv.marks⟩
    · apply kindsOK_of_elem
      intro i
      rw [h6 i]
      split
      · exact Or.inl rfl
      · exact kindsOK_elem s inv.kinds i
    · apply clean_of_elem
      intro i hi
      rw [hhwm] at hi
      rw [h6 i]
      by_cases hc : i < s.nativeArrayTableHwm
      · rw [if_pos ⟨hi, hc⟩]
      · rw [if_neg (fun hh => hc hh.2)]
        exact clean_elem s inv.clean i (by omega)
  | getNativeArray x type =>
    simp only [step] at h
    cases hg : getNativeArray NA_INTEGER s x type with
    | fatal msg s2 => rw [hg] at h; cases h
    | crash s2 => rw [hg] at h; cases h
    | ok p s2 =>
      rw [hg] at h
      cases h
      rcases getNativeArray_ok_cases NA_INTEGER s st x type p inv.wf hg with ⟨h1, _⟩ | h2
      · rw [h1]; exact inv_shrinks s _ inv (findNativeArray_shrinks s x)
      · obtain ⟨b1, b2, b3, ⟨jArray, b4⟩, b5, b6, b7, _⟩ := h2
        refine ⟨b1, ?_, ?_, ?_⟩
        · apply kindsOK_of_elem
          intro i
          by_cases hi : i = s.nativeArrayTableHwm
          · rw [hi, b4]; exact Or.inr b2
          · rw [b5 i hi]; exact kindsOK_elem s inv.kinds i
        · apply clean_of_elem
          intro i hi
          rw [b5 i (by omega)]
          exact clean_elem s inv.clean i (by omega)
        · intro e
          rw [b7]
          exact le_trans (inv.marks e) b6
  | invalidateNativeArray x =>
    apply inv_shrinks s st inv
    exact forRange_shrinks _
      (by
        intro st0 k st1 hb
        split at hb
        · exact releaseNativeArray_shrinks NA_INTEGER st0 st1 k hb
        · cases hb; exact shrinks_refl _)
      _ _ s st h
  | updateNativeArrays =>
    apply inv_shrinks s st inv
    exact forRange_shrinks _ (fun st0 k st1 hb => updateNativeArray_shrinks st0 st1 k hb) _ _ s st h
  | updateJObjects =>
    apply inv_shrinks s st inv
    exact forRange_shrinks _
      (by
        intro st0 k st1 hb
        split at hb
        · exact updateJObject_shrinks st0 st1 _ hb
        · cases hb; exact shrinks_refl _)
      _ _ s st h

/-- Every sequence of calls that returns keeps the invariant; with `inv_init`,
every state the calls can reach from `init_utils` is well formed, has live
entries of supported kinds only, and has no source object from the
high-water mark on. -/
theorem inv_run (NA_INTEGER : Int) :
    ∀ (ops : List Op) (s : State), Inv s → (run NA_INTEGER s ops).isOk = true →
      Inv (run NA_INTEGER s ops).state := by
  intro ops
  induction ops with
  | nil => intro s inv _; exact inv
  | cons op ops ih =>
    intro s inv hok
    rw [run_cons] at hok ⊢
    cases hs : step NA_INTEGER s op with
    | fatal msg s1 => rw [hs] at hok; cases hok
    | crash s1 => rw [hs] at hok; cases hok
    | ok u s1 =>
      rw [hs] at hok
      simp only [] at hok ⊢
      exact ih s1 (inv_step NA_INTEGER s s1 op inv hs) hok

/-! ## C11: refreshing a boolean mirror from the managed side -/

/-- C11, the code at the failing input. The entry of object `1` records the
present backing array, which holds the packed not-available byte `-1`.
`updateNativeArray` keeps the entry live and writes `-1` into the native
buffer, where a fresh extraction of the same array gives `NA_INTEGER`. -/
theorem updateNativeArray_logical_na :
    (stateSame (-1) 0).elem 0 = ⟨SEXPTYPE.LGLSXP, 1, 1001, 3⟩ ∧
    (stateSame (-1) 0).env.arrays 1001 = [-1] ∧
    fast_IsSameObject (stateSame (-1) 0).env
      ((stateSame (-1) 0).env.upcall 1 SEXPTYPE.LGLSXP) 1001 = true ∧
    (updateNativeArray (stateSame (-1) 0) 0).isOk = true ∧
    (updateNativeArray (stateSame (-1) 0) 0).state.elem 0 = ⟨SEXPTYPE.LGLSXP, 1, 1001, 3⟩ ∧
    (updateNativeArray (stateSame (-1) 0) 0).state.env.cmem 3 = [-1] ∧
    (extractVectorNativeArray R_NaInt (stateSame (-1) 0).env 1001 SEXPTYPE.LGLSXP).map
      (fun r => r.2.cmem r.1) = some [R_NaInt] ∧
    R_NaInt ≠ -1 := by
  decide

/-! ## C12: the conversion outcome of the other kinds -/

/-- C12 as stated fails: releasing a live integer entry reports the outcome
`false` (incomplete) to the managed side. -/
theorem releaseNativeArray_complete_counterexample :
    stateTwo.elem 0 = ⟨SEXPTYPE.INTSXP, 1, 1001, 4000⟩ ∧
    (releaseNativeArray R_NaInt stateTwo 0).isOk = true ∧
    (releaseNativeArray R_NaInt stateTwo 0).state.env.completeLog = [(1, false)] := by
  decide

/-- C12, as amended. For every live entry of kind integer, real or byte,
`releaseNativeArray` returns and reports the outcome `false` (the value
`complete` is initialised with) to the managed side; an outcome `true` is
reported for boolean entries only. -/
theorem releaseNativeArray_complete (NA_INTEGER : Int) (s : State) (i : Nat)
    (hobj : (s.elem i).obj ≠ NULL) :
    ((s.elem i).type = SEXPTYPE.INTSXP ∨ (s.elem i).type = SEXPTYPE.REALSXP ∨
        (s.elem i).type = SEXPTYPE.RAWSXP →
      ∃ st, releaseNativeArray NA_INTEGER s i = Result.ok () st ∧
        st.env.completeLog = ((s.elem i).obj, false) :: s.env.completeLog) ∧
    (∀ st, releaseNativeArray NA_INTEGER s i = Result.ok () st →
      st.env.completeLog = ((s.elem i).obj, true) :: s.env.completeLog →
      (s.elem i).type = SEXPTYPE.LGLSXP) := by
  constructor
  · intro hk
    unfold releaseNativeArray
    simp only []
    rw [if_pos hobj]
    rcases hk with h | h | h <;> rw [h] <;> exact ⟨_, rfl, rfl⟩
  · intro st h hlog
    unfold releaseNativeArray at h
    simp only [] at h
    rw [if_pos hobj] at h
    cases ht : (s.elem i).type with
    | LGLSXP => rfl
    | OTHER c => rw [ht] at h; cases h
    | CHARSXP =>
      rw [ht] at h; simp only [] at h; cases h
      simp [setComplete, ReleaseStringUTFChars] at hlog
    | INTSXP =>
      rw [ht] at h; simp only [] at h; cases h
      simp [setComplete, ReleaseArrayElements] at hlog
    | REALSXP =>
      rw [ht] at h; simp only [] at h; cases h
      simp [setComplete, ReleaseArrayElements] at hlog
    | RAWSXP =>
      rw [ht] at h; simp only [] at h; cases h
      simp [setComplete, ReleaseArrayElements] at hlog

/-- Witness for C12: releasing the integer entry of object `1` reports `false`. -/
theorem releaseNativeArray_complete_witness :
    ∃ st, releaseNativeArray R_NaInt stateTwo 0 = Result.ok () st ∧
      st.env.completeLog = [(1, false)] :=
  (releaseNativeArray_complete R_NaInt stateTwo 0 (by decide)).1 (by decide)

/-! ## C13: widening on extraction -/

/-- C13. For every packed byte array, in an environment where, if the array is
not empty, the block of `GetByteArrayElements` and the block of `malloc` are
non-null and distinct (the code goes through both unchecked),
`extractVectorNativeArray` with kind `LGLSXP` returns a buffer of the length
of the array whose element `i` is `0` if byte `i` is `0`, `1` if byte `i` is
`1`, and the sentinel `NA_INTEGER` for every other byte; the managed arrays
are as before. The sentinel is distinct from `0` and `1`: that is what the
spec says of it, its declaration is not in this file of the repository. -/
theorem extractVectorNativeArray_widens (na : NaSentinel) (env : JNIEnv) (jArray : Ptr)
    (hsafe : 0 < GetArrayLength env jArray →
      env.addrs env.nalloc ≠ NULL ∧ env.addrs (env.nalloc + 1) ≠ NULL ∧
        env.addrs env.nalloc ≠ env.addrs (env.nalloc + 1)) :
    ∃ p env1, extractVectorNativeArray na.val env jArray SEXPTYPE.LGLSXP = some (p, env1) ∧
      (env1.cmem p).length = GetArrayLength env jArray ∧
      (∀ k, k < GetArrayLength env jArray →
        ((env.arrays (env.oop jArray)).getD k 0 = 0 → (env1.cmem p).getD k 0 = 0) ∧
        ((env.arrays (env.oop jArray)).getD k 0 = 1 → (env1.cmem p).getD k 0 = 1) ∧
        ((env.arrays (env.oop jArray)).getD k 0 ≠ 0 →
          (env.arrays (env.oop jArray)).getD k 0 ≠ 1 → (env1.cmem p).getD k 0 = na.val)) ∧
      env1.arrays = env.arrays ∧
      na.val ≠ 0 ∧ na.val ≠ 1 := by
  obtain ⟨env1, hex, e2, e3, _⟩ := extractVectorNativeArray_logical na.val env jArray hsafe
  refine ⟨_, env1, hex, ?_, ?_, e3, na.ne_zero, na.ne_one⟩
  · rw [e2, extractLogical_length]; rfl
  · intro k hk
    rw [e2, extractLogical_getD na.val _ k hk]
    refine ⟨?_, ?_, ?_⟩
    · intro h; rw [if_pos h]; rfl
    · intro h
      have h0 : (env.arrays (env.oop jArray)).getD k 0 ≠ 0 := by rw [h]; decide
      rw [if_neg h0, if_pos h]; rfl
    · intro h0 h1
      rw [if_neg h0, if_neg h1]

/-- Witness for C13: the array `[true, false, NA]` is extracted as
`[1, 0, NA_INTEGER]`, with the sentinel of the R headers. -/
theorem extractVectorNativeArray_widens_witness :
    ∃ p env1, extractVectorNativeArray naInt.val envBool 2 SEXPTYPE.LGLSXP = some (p, env1) ∧
      (env1.cmem p).length = 3 ∧ (env1.cmem p).getD 0 0 = 1 ∧ (env1.cmem p).getD 1 0 = 0 ∧
      (env1.cmem p).getD 2 0 = naInt.val := by
  obtain ⟨p, env1, h1, h2, h3, _⟩ :=
    extractVectorNativeArray_widens naInt envBool 2 (fun _ => by decide)
  exact ⟨p, env1, h1, h2, (h3 0 (by decide)).2.1 (by decide), (h3 1 (by decide)).1 (by decide),
    (h3 2 (by decide)).2.2 (by decide) (by decide)⟩

/-! ## What the calls leave as it is -/

theorem envKeeps_refl (e : JNIEnv) : EnvKeeps e e := ⟨rfl, rfl, rfl, rfl, le_refl _⟩

theorem envKeeps_trans (e1 e2 e3 : JNIEnv) (h1 : EnvKeeps e1 e2) (h2 : EnvKeeps e2 e3) :
    EnvKeeps e1 e3 :=
  ⟨h2.oop.trans h1.oop, h2.upcall.trans h1.upcall, h2.contents.trans h1.contents,
    h2.addrs.trans h1.addrs, le_trans h1.nalloc h2.nalloc⟩

theorem frameKeeps_refl (s : State) : FrameKeeps s s := ⟨rfl, rfl, rfl, rfl⟩

theorem frameKeeps_trans (s t u : State) (h1 : FrameKeeps s t) (h2 : FrameKeeps t u) :
    FrameKeeps s u :=
  ⟨h2.depth.trans h1.depth, h2.marks.trans h1.marks, h2.jmps.trans h1.jmps,
    h2.grefs.trans h1.grefs⟩

/-- A loop keeps what its body keeps. -/
theorem forRange_keeps (body : State → Nat → Result Unit)
    (hbody : ∀ st k st1, body st k = Result.ok () st1 →
      FrameKeeps st st1 ∧ EnvKeeps st.env st1.env) :
    ∀ (n lo : Nat) (s st : State), forRange body lo n s = Result.ok () st →
      FrameKeeps s st ∧ EnvKeeps s.env st.env := by
  intro n
  induction n with
  | zero =>
    intro lo s st h
    simp only [forRange] at h
    cases h
    exact ⟨frameKeeps_refl s, envKeeps_refl _⟩
  | succ n ih =>
    intro lo s st h
    simp only [forRange] at h
    cases hb : body s lo with
    | fatal msg s1 => rw [hb] at h; cases h
    | crash s1 => rw [hb] at h; cases h
    | ok u s1 =>
      rw [hb] at h
      obtain ⟨a1, a2⟩ := hbody s lo s1 hb
      obtain ⟨b1, b2⟩ := ih (lo + 1) s1 st h
      exact ⟨frameKeeps_trans s s1 st a1 b1, envKeeps_trans _ _ _ a2 b2⟩

theorem releaseNativeArray_keeps (NA_INTEGER : Int) (s st : State) (i : Nat)
    (h : releaseNativeArray NA_INTEGER s i = Result.ok () st) :
    FrameKeeps s st ∧ EnvKeeps s.env st.env := by
  unfold releaseNativeArray at h
  simp only [] at h
  split at h
  · split at h
    · cases h; exact ⟨⟨rfl, rfl, rfl, rfl⟩, ⟨rfl, rfl, rfl, rfl, le_refl _⟩⟩
    · split at h
      · cases h
      · cases h; exact ⟨⟨rfl, rfl, rfl, rfl⟩, ⟨rfl, rfl, rfl, rfl, Nat.le_succ _⟩⟩
    · cases h; exact ⟨⟨rfl, rfl, rfl, rfl⟩, ⟨rfl, rfl, rfl, rfl, le_refl _⟩⟩
    · cases h; exact ⟨⟨rfl, rfl, rfl, rfl⟩, ⟨rfl, rfl, rfl, rfl, le_refl _⟩⟩
    · cases h; exact ⟨⟨rfl, rfl, rfl, rfl⟩, ⟨rfl, rfl, rfl, rfl, le_refl _⟩⟩
    · cases h
  · cases h; exact ⟨frameKeeps_refl _, envKeeps_refl _⟩

theorem updateNativeArray_keeps (s st : State) (i : Nat)
    (h : updateNativeArray s i = Result.ok () st) :
    FrameKeeps s st ∧ EnvKeeps s.env st.env := by
  unfold updateNativeArray at h
  simp only [] at h
  split at h
  · split at h
    · cases h
    · split at h
      · split at h
        · cases h; exact ⟨⟨rfl, rfl, rfl, rfl⟩, ⟨rfl, rfl, rfl, rfl, le_refl _⟩⟩
        · cases h; exact ⟨⟨rfl, rfl, rfl, rfl⟩, ⟨rfl, rfl, rfl, rfl, le_refl _⟩⟩
        · cases h; exact ⟨⟨rfl, rfl, rfl, rfl⟩, ⟨rfl, rfl, rfl, rfl, le_refl _⟩⟩
        · split at h
          · cases h
          · cases h; exact ⟨⟨rfl, rfl, rfl, rfl⟩, ⟨rfl, rfl, rfl, rfl, Nat.le_succ _⟩⟩
        · cases h
      · cases h; exact ⟨⟨rfl, rfl, rfl, rfl⟩, envKeeps_refl _⟩
  · cases h; exact ⟨frameKeeps_refl _, envKeeps_refl _⟩

theorem findNativeArray_keeps (s : State) (x : SEXP) :
    FrameKeeps s (findNativeArray s x).2 ∧ (findNativeArray s x).2.env = s.env := by
  rw [findNativeArray_state]
  exact ⟨⟨rfl, rfl, rfl, rfl⟩, rfl⟩

theorem updateJObject_keeps (s st : State) (x : SEXP)
    (h : updateJObject s x = Result.ok () st) :
    FrameKeeps s st ∧ EnvKeeps s.env st.env := by
  obtain ⟨f1, f2⟩ := findNativeArray_keeps s x
  unfold updateJObject at h
  cases hf : findNativeArray s x with
  | mk o s1 =>
    rw [hf] at h f1 f2
    simp only [] at f1 f2
    have key : FrameKeeps s1 st ∧ EnvKeeps s1.env st.env := by
      cases o with
      | none =>
        simp only [] at h
        cases h
        exact ⟨frameKeeps_refl _, envKeeps_refl _⟩
      | some k =>
        simp only [] at h
        split at h
        · split at h
          · cases h; exact ⟨⟨rfl, rfl, rfl, rfl⟩, ⟨rfl, rfl, rfl, rfl, le_refl _⟩⟩
          · cases h; exact ⟨⟨rfl, rfl, rfl, rfl⟩, ⟨rfl, rfl, rfl, rfl, le_refl _⟩⟩
          · cases h; exact ⟨⟨rfl, rfl, rfl, rfl⟩, ⟨rfl, rfl, rfl, rfl, le_refl _⟩⟩
          · split at h
            · cases h
            · cases h; exact ⟨⟨rfl, rfl, rfl, rfl⟩, ⟨rfl, rfl, rfl, rfl, Nat.le_succ _⟩⟩
          · cases h
        · cases h; exact ⟨frameKeeps_refl _, envKeeps_refl _⟩
    refine ⟨frameKeeps_trans s s1 st f1 key.1, ?_⟩
    rw [← f2]; exact key.2

theorem addNativeArray_keeps (s st : State) (x : SEXP) (type : SEXPTYPE) (jArray data : Ptr)
    (h : addNativeArray s x type jArray data = Result.ok () st) :
    FrameKeeps s st ∧ EnvKeeps s.env st.env := by
  unfold addNativeArray at h
  simp only [] at h
  split at h
  · split at h
    · cases h
    · cases h; exact ⟨⟨rfl, rfl, rfl, rfl⟩, ⟨rfl, rfl, rfl, rfl, Nat.le_succ _⟩⟩
  · cases h; exact ⟨⟨rfl, rfl, rfl, rfl⟩, envKeeps_refl _⟩

/-- Extraction keeps identities, up-calls and the allocator's choices. -/
theorem extraction_keeps (NA_INTEGER : Int) (env : JNIEnv) (x : SEXP) (type : SEXPTYPE)
    (jArray data : Ptr) (env1 : JNIEnv)
    (h : extraction NA_INTEGER env x type = some (jArray, data, env1)) :
    EnvKeeps env env1 :=
  (extraction_some NA_INTEGER env x type jArray data env1 h).2.1

theorem getNativeArray_keeps (NA_INTEGER : Int) (s st : State) (x : SEXP) (type : SEXPTYPE)
    (p : Ptr) (h : getNativeArray NA_INTEGER s x type = Result.ok p st) :
    FrameKeeps s st ∧ EnvKeeps s.env st.env := by
  obtain ⟨f1, f2⟩ := findNativeArray_keeps s x
  by_cases hhit : ∃ k, (findNativeArray s x).1 = some k ∧ (s.elem k).data ≠ NULL
  · obtain ⟨k, hk, hd⟩ := hhit
    rw [getNativeArray_hit NA_INTEGER s x type k hk hd] at h
    cases h
    exact ⟨f1, by rw [f2]; exact envKeeps_refl _⟩
  · have hmiss : (findNativeArray s x).1 = none ∨
        ∃ k, (findNativeArray s x).1 = some k ∧ (s.elem k).data = NULL := by
      cases hf : (findNativeArray s x).1 with
      | none => exact Or.inl rfl
      | some k =>
        right
        refine ⟨k, rfl, ?_⟩
        by_contra hd
        exact hhit ⟨k, hf, hd⟩
    rw [getNativeArray_miss NA_INTEGER s x type hmiss] at h
    cases hex : extraction NA_INTEGER s.env x type with
    | none => rw [hex] at h; simp only [] at h; split at h <;> cases h
    | some r =>
      obtain ⟨jArray, data, env1⟩ := r
      rw [hex] at h
      simp only [] at h
      cases hadd : addNativeArray { (findNativeArray s x).2 with env := env1 } x type jArray data with
      | fatal msg s2 => rw [hadd] at h; cases h
      | crash s2 => rw [hadd] at h; cases h
      | ok u s2 =>
        rw [hadd] at h
        cases h
        obtain ⟨a1, a2⟩ := addNativeArray_keeps _ st x type jArray p hadd
        have e := extraction_keeps NA_INTEGER s.env x type jArray p env1 hex
        exact ⟨⟨a1.depth.trans f1.depth, a1.marks.trans f1.marks, a1.jmps.trans f1.jmps,
          a1.grefs.trans f1.grefs⟩, envKeeps_trans _ _ _ e a2⟩

/-- The four mirroring calls keep the call depth, the frame stacks and the
oracles of the environment. -/
theorem step_keeps (NA_INTEGER : Int) (s st : State) (op : Op)
    (hop : op ≠ Op.callExit) (hop2 : ∀ j, op ≠ Op.callEnter j)
    (h : step NA_INTEGER s op = Result.ok () st) :
    FrameKeeps s st ∧ EnvKeeps s.env st.env := by
  cases op with
  | callEnter j => exact absurd rfl (hop2 j)
  | callExit => exact absurd rfl hop
  | getNativeArray x type =>
    simp only [step] at h
    cases hg : getNativeArray NA_INTEGER s x type with
    | fatal msg s2 => rw [hg] at h; cases h
    | crash s2 => rw [hg] at h; cases h
    | ok p s2 =>
      rw [hg] at h
      cases h
      exact getNativeArray_keeps NA_INTEGER s st x type p hg
  | invalidateNativeArray x =>
    exact forRange_keeps _
      (by
        intro st0 k st1 hb
        split at hb
        · exact releaseNativeArray_keeps NA_INTEGER st0 st1 k hb
        · cases hb; exact ⟨frameKeeps_refl _, envKeeps_refl _⟩)
      _ _ s st h
  | updateNativeArrays =>
    exact forRange_keeps _ (fun st0 k st1 hb => updateNativeArray_keeps st0 st1 k hb) _ _ s st h
  | updateJObjects =>
    exact forRange_keeps _
      (by
        intro st0 k st1 hb
        split at hb
        · exact updateJObject_keeps st0 st1 _ hb
        · cases hb; exact ⟨frameKeeps_refl _, envKeeps_refl _⟩)
      _ _ s st h

/-- When `callExit` returns: the mark it set, the depth, and what it kept. -/
theorem callExit_ok (NA_INTEGER : Int) (s st : State)
    (h : callExit NA_INTEGER s = Result.ok () st) :
    st.callDepth = s.callDepth - 1 ∧
    st.nativeArrayTableHwm = s.nativeArrayTableHwmStack (s.callDepth - 1) ∧
    st.nativeArrayTableHwmStack = s.nativeArrayTableHwmStack ∧
    st.callErrorJmpBufTable = s.callErrorJmpBufTable ∧
    EnvKeeps s.env st.env := by
  unfold callExit at h
  simp only [] at h
  cases hf : forRange (releaseNativeArray NA_INTEGER)
      (s.nativeArrayTableHwmStack (s.callDepth - 1))
      (s.nativeArrayTableHwm - s.nativeArrayTableHwmStack (s.callDepth - 1)) s with
  | fatal msg s1 => rw [hf] at h; cases h
  | crash s1 => rw [hf] at h; cases h
  | ok u s1 =>
    rw [hf] at h
    cases h
    obtain ⟨a1, a2⟩ := forRange_keeps _
      (fun st0 k st1 hb => releaseNativeArray_keeps NA_INTEGER st0 st1 k hb) _ _ s s1 hf
    exact ⟨by simp only [a1.depth], rfl, a1.marks, a1.jmps, a2⟩

/-! ## C18: the current recovery point -/

/-- The recovery-point table follows the open frames: cell `callDepth - 1 - k`
holds the recovery point of the `k`-th open frame, counted from the innermost. -/
theorem openFrames_run (NA_INTEGER : Int) :
    ∀ (ops : List Op) (s : State) (js js1 : List Ptr),
      (∀ k, k < js.length → s.callErrorJmpBufTable (s.callDepth - 1 - k) = js.getD k 0) →
      (run NA_INTEGER s ops).isOk = true → openFrames js ops = some js1 →
      ∀ k, k < js1.length →
        (run NA_INTEGER s ops).state.callErrorJmpBufTable
          ((run NA_INTEGER s ops).state.callDepth - 1 - k) = js1.getD k 0 := by
  intro ops
  induction ops with
  | nil =>
    intro s js js1 hinv _ hopen
    simp only [openFrames, Option.some.injEq] at hopen
    subst hopen
    exact hinv
  | cons op ops ih =>
    intro s js js1 hinv hok hopen
    rw [run_cons] at hok ⊢
    cases hs : step NA_INTEGER s op with
    | fatal msg s1 => rw [hs] at hok; cases hok
    | crash s1 => rw [hs] at hok; cases hok
    | ok u s1 =>
      rw [hs] at hok
      simp only [] at hok ⊢
      have hother : op ≠ Op.callExit → (∀ j, op ≠ Op.callEnter j) →
          ∀ k, k < js.length → s1.callErrorJmpBufTable (s1.callDepth - 1 - k) = js.getD k 0 := by
        intro h1 h2 k hk
        obtain ⟨f, _⟩ := step_keeps NA_INTEGER s s1 op h1 h2 hs
        rw [f.jmps, f.depth]
        exact hinv k hk
      cases op with
      | callEnter j =>
        obtain ⟨_, rfl⟩ := callEnter_ok s s1 j hs
        refine ih _ (j :: js) js1 ?_ hok (by simpa [openFrames] using hopen)
        intro k hk
        cases k with
        | zero =>
          simp only [List.getD_cons_zero]
          have : s.callDepth + 1 - 1 - ((0 : Nat) : Int) = s.callDepth := by push_cast; ring
          rw [this, Function.update_same]
        | succ k =>
          simp only [List.getD_cons_succ]
          have hk' : k < js.length := by simpa using hk
          have e : s.callDepth + 1 - 1 - ((k + 1 : Nat) : Int) = s.callDepth - 1 - (k : Int) := by
            push_cast; ring
          rw [e, Function.update_noteq (by omega)]
          exact hinv k hk'
      | callExit =>
        cases js with
        | nil => simp [openFrames] at hopen
        | cons j0 js0 =>
          obtain ⟨c1, _, _, c4, _⟩ := callExit_ok NA_INTEGER s s1 hs
          refine ih s1 js0 js1 ?_ hok (by simpa [openFrames] using hopen)
          intro k hk
          have := hinv (k + 1) (by simpa using hk)
          simp only [List.getD_cons_succ] at this
          rw [c4, c1, ← this]
          congr 1
          push_cast; ring
      | getNativeArray x type =>
        exact ih s1 js js1 (hother (by simp) (by simp)) hok (by simpa [openFrames] using hopen)
      | invalidateNativeArray x =>
        exact ih s1 js js1 (hother (by simp) (by simp)) hok (by simpa [openFrames] using hopen)
      | updateNativeArrays =>
        exact ih s1 js js1 (hother (by simp) (by simp)) hok (by simpa [openFrames] using hopen)
      | updateJObjects =>
        exact ih s1 js js1 (hother (by simp) (by simp)) hok (by simpa [openFrames] using hopen)

/-- C18. For every sequence of calls that returns and is properly nested, if it
leaves at least one of the frames it entered open, `getErrorJmpBuf` returns
the recovery point passed to the `callEnter` of the innermost frame still
open; in particular, after `callEnter(j1)`, `callEnter(j2)`, `callExit` it
returns `j1`. -/
theorem getErrorJmpBuf_innermost (NA_INTEGER : Int) (s : State) (ops : List Op)
    (j j1 j2 : Ptr) (rest : List Ptr) :
    ((run NA_INTEGER s ops).isOk = true → openFrames [] ops = some (j :: rest) →
      getErrorJmpBuf (run NA_INTEGER s ops).state = j) ∧
    ((run NA_INTEGER s [Op.callEnter j1, Op.callEnter j2, Op.callExit]).isOk = true →
      getErrorJmpBuf (run NA_INTEGER s [Op.callEnter j1, Op.callEnter j2, Op.callExit]).state
        = j1) := by
  constructor
  · intro hok hopen
    have := openFrames_run NA_INTEGER ops s [] (j :: rest)
      (fun k hk => absurd hk (Nat.not_lt_zero k)) hok hopen 0 (by simp)
    simpa [getErrorJmpBuf] using this
  · intro hok
    have := openFrames_run NA_INTEGER [Op.callEnter j1, Op.callEnter j2, Op.callExit] s [] [j1]
      (fun k hk => absurd hk (Nat.not_lt_zero k)) hok rfl 0 (by simp)
    simpa [getErrorJmpBuf] using this

/-- Witness for C18: from the initial state, after entering with `7`, acquiring,
entering with `8` and leaving, the recovery point is `7`; and so it is after
`callEnter(7)`, `callEnter(8)`, `callExit`. -/
theorem getErrorJmpBuf_innermost_witness :
    getErrorJmpBuf (run R_NaInt state0
      [Op.callEnter 7, Op.getNativeArray 1 SEXPTYPE.INTSXP, Op.callEnter 8, Op.callExit]).state
      = 7 ∧
    getErrorJmpBuf (run R_NaInt state0 [Op.callEnter 7, Op.callEnter 8, Op.callExit]).state = 7 :=
  ⟨(getErrorJmpBuf_innermost R_NaInt state0
      [Op.callEnter 7, Op.getNativeArray 1 SEXPTYPE.INTSXP, Op.callEnter 8, Op.callExit]
      7 7 8 []).1 (by decide) (by decide),
   (getErrorJmpBuf_innermost R_NaInt state0 [] 7 7 8 []).2 (by decide)⟩

/-! ## C16: the recorded marks -/

/-- Invalidation and the two update calls only shrink the state. -/
theorem step_shrinks (NA_INTEGER : Int) (s st : State) (op : Op)
    (hop : op ≠ Op.callExit) (hop2 : ∀ j, op ≠ Op.callEnter j)
    (hop3 : ∀ x t, op ≠ Op.getNativeArray x t)
    (h : step NA_INTEGER s op = Result.ok () st) : Shrinks s st := by
  cases op with
  | callEnter j => exact absurd rfl (hop2 j)
  | callExit => exact absurd rfl hop
  | getNativeArray x type => exact absurd rfl (hop3 x type)
  | invalidateNativeArray x =>
    exact forRange_shrinks _
      (by
        intro st0 k st1 hb
        split at hb
        · exact releaseNativeArray_shrinks NA_INTEGER st0 st1 k hb
        · cases hb; exact shrinks_refl _)
      _ _ s st h
  | updateNativeArrays =>
    exact forRange_shrinks _ (fun st0 k st1 hb => updateNativeArray_shrinks st0 st1 k hb) _ _ s st h
  | updateJObjects =>
    exact forRange_shrinks _
      (by
        intro st0 k st1 hb
        split at hb
        · exact updateJObject_shrinks st0 st1 _ hb
        · cases hb; exact shrinks_refl _)
      _ _ s st h

/-- The mirroring calls do not lower the high-water mark. -/
theorem step_hwm (NA_INTEGER : Int) (s st : State) (op : Op) (hwf : WF s)
    (hop : op ≠ Op.callExit) (hop2 : ∀ j, op ≠ Op.callEnter j)
    (h : step NA_INTEGER s op = Result.ok () st) :
    s.nativeArrayTableHwm ≤ st.nativeArrayTableHwm := by
  by_cases hg : ∃ x t, op = Op.getNativeArray x t
  · obtain ⟨x, t, rfl⟩ := hg
    simp only [step] at h
    cases hg : getNativeArray NA_INTEGER s x t with
    | fatal msg s2 => rw [hg] at h; cases h
    | crash s2 => rw [hg] at h; cases h
    | ok p s2 =>
      rw [hg] at h
      cases h
      rcases getNativeArray_ok_cases NA_INTEGER s st x t p hwf hg with ⟨h1, _⟩ | h2
      · rw [h1, findNativeArray_state]
      · rw [h2.2.2.1]; exact Nat.le_succ _
  · have hs := step_shrinks NA_INTEGER s st op hop hop2
      (fun x t he => hg ⟨x, t, he⟩) h
    have : st.nativeArrayTableHwm = s.nativeArrayTableHwm := by rw [hs.frame]
    rw [this]

/-- Along a properly nested sequence of calls from a state satisfying the
invariant: the depth is the number of open frames, the recorded marks of the
open frames increase with the depth, and the innermost one is at most the
high-water mark. -/
theorem marks_run (NA_INTEGER : Int) :
    ∀ (ops : List Op) (s : State) (js js1 : List Ptr), Inv s →
      s.callDepth = (js.length : Int) →
      (∀ d : Int, 0 ≤ d → d + 1 < s.callDepth →
        s.nativeArrayTableHwmStack d ≤ s.nativeArrayTableHwmStack (d + 1)) →
      (1 ≤ s.callDepth → s.nativeArrayTableHwmStack (s.callDepth - 1) ≤ s.nativeArrayTableHwm) →
      (run NA_INTEGER s ops).isOk = true → openFrames js ops = some js1 →
      (run NA_INTEGER s ops).state.callDepth = (js1.length : Int) ∧
      (∀ d : Int, 0 ≤ d → d + 1 < (run NA_INTEGER s ops).state.callDepth →
        (run NA_INTEGER s ops).state.nativeArrayTableHwmStack d
          ≤ (run NA_INTEGER s ops).state.nativeArrayTableHwmStack (d + 1)) ∧
      (1 ≤ (run NA_INTEGER s ops).state.callDepth →
        (run NA_INTEGER s ops).state.nativeArrayTableHwmStack
            ((run NA_INTEGER s ops).state.callDepth - 1)
          ≤ (run NA_INTEGER s ops).state.nativeArrayTableHwm) := by
  intro ops
  induction ops with
  | nil =>
    intro s js js1 _ hd hm ht _ hopen
    simp only [openFrames, Option.some.injEq] at hopen
    subst hopen
    exact ⟨hd, hm, ht⟩
  | cons op ops ih =>
    intro s js js1 inv hd hm ht hok hopen
    rw [run_cons] at hok ⊢
    cases hs : step NA_INTEGER s op with
    | fatal msg s1 => rw [hs] at hok; cases hok
    | crash s1 => rw [hs] at hok; cases hok
    | ok u s1 =>
      rw [hs] at hok
      simp only [] at hok ⊢
      have inv1 := inv_step NA_INTEGER s s1 op inv hs
      have hother : op ≠ Op.callExit → (∀ j, op ≠ Op.callEnter j) →
          s1.callDepth = (js.length : Int) ∧
          (∀ d : Int, 0 ≤ d → d + 1 < s1.callDepth →
            s1.nativeArrayTableHwmStack d ≤ s1.nativeArrayTableHwmStack (d + 1)) ∧
          (1 ≤ s1.callDepth →
            s1.nativeArrayTableHwmStack (s1.callDepth - 1) ≤ s1.nativeArrayTableHwm) := by
        intro h1 h2
        obtain ⟨f, _⟩ := step_keeps NA_INTEGER s s1 op h1 h2 hs
        have hh := step_hwm NA_INTEGER s s1 op inv.wf h1 h2 hs
        rw [f.depth, f.marks]
        exact ⟨hd, hm, fun h => le_trans (ht h) hh⟩
      cases op with
      | callEnter j =>
        obtain ⟨_, hs1⟩ := callEnter_ok s s1 j hs
        have e1 : s1.callDepth = s.callDepth + 1 := by rw [hs1]
        have e2 : s1.nativeArrayTableHwmStack
            = Function.update s.nativeArrayTableHwmStack s.callDepth s.nativeArrayTableHwm := by
          rw [hs1]
        have e3 : s1.nativeArrayTableHwm = s.nativeArrayTableHwm := by rw [hs1]
        refine ih s1 (j :: js) js1 inv1 ?_ ?_ ?_ hok (by simpa [openFrames] using hopen)
        · rw [e1, hd]; simp
        · intro d h0 h1
          rw [e1] at h1
          rw [e2]
          by_cases hdc : d + 1 = s.callDepth
          · rw [hdc, Function.update_same, Function.update_noteq (by omega)]
            have := ht (by omega)
            have e : s.callDepth - 1 = d := by omega
            rw [e] at this
            exact this
          · rw [Function.update_noteq (by omega), Function.update_noteq (by omega)]
            exact hm d h0 (by omega)
        · intro _
          rw [e1, e2, e3]
          have e : s.callDepth + 1 - 1 = s.callDepth := by ring
          rw [e, Function.update_same]
      | callExit =>
        cases js with
        | nil => simp [openFrames] at hopen
        | cons j0 js0 =>
          obtain ⟨c1, c2, c3, _, _⟩ := callExit_ok NA_INTEGER s s1 hs
          have hlen : s.callDepth = (js0.length : Int) + 1 := by
            rw [hd]; simp
          refine ih s1 js0 js1 inv1 ?_ ?_ ?_ hok (by simpa [openFrames] using hopen)
          · rw [c1, hlen]; ring
          · intro d h0 h1
            rw [c1] at h1
            rw [c3]
            exact hm d h0 (by omega)
          · intro h1
            rw [c1] at h1 ⊢
            rw [c2, c3]
            have := hm (s.callDepth - 1 - 1) (by omega) (by omega)
            have e : s.callDepth - 1 - 1 + 1 = s.callDepth - 1 := by ring
            rw [e] at this
            exact this
      | getNativeArray x type =>
        obtain ⟨a, b, c⟩ := hother (by simp) (by simp)
        exact ih s1 js js1 inv1 a b c hok (by simpa [openFrames] using hopen)
      | invalidateNativeArray x =>
        obtain ⟨a, b, c⟩ := hother (by simp) (by simp)
        exact ih s1 js js1 inv1 a b c hok (by simpa [openFrames] using hopen)
      | updateNativeArrays =>
        obtain ⟨a, b, c⟩ := hother (by simp) (by simp)
        exact ih s1 js js1 inv1 a b c hok (by simpa [openFrames] using hopen)
      | updateJObjects =>
        obtain ⟨a, b, c⟩ := hother (by simp) (by simp)
        exact ih s1 js js1 inv1 a b c hok (by simpa [openFrames] using hopen)

/-- C16. In every state reached from the initial state by a properly nested
sequence of `callEnter`/`callExit` interleaved with the mirroring calls,
`nativeArrayTableHwmStack[d] <= nativeArrayTableHwmStack[d+1]` for all `d`
with `d + 1 < callDepth`, and the mark recorded for the innermost frame is at
most the high-water mark of the table. -/
theorem hwmStack_monotone (NA_INTEGER : Int) (env : JNIEnv) (ops : List Op)
    (hok : (run NA_INTEGER (init_utils env) ops).isOk = true)
    (hnest : (openFrames [] ops).isSome = true) :
    (∀ d : Int, 0 ≤ d → d + 1 < (run NA_INTEGER (init_utils env) ops).state.callDepth →
      (run NA_INTEGER (init_utils env) ops).state.nativeArrayTableHwmStack d
        ≤ (run NA_INTEGER (init_utils env) ops).state.nativeArrayTableHwmStack (d + 1)) ∧
    (1 ≤ (run NA_INTEGER (init_utils env) ops).state.callDepth →
      (run NA_INTEGER (init_utils env) ops).state.nativeArrayTableHwmStack
          ((run NA_INTEGER (init_utils env) ops).state.callDepth - 1)
        ≤ (run NA_INTEGER (init_utils env) ops).state.nativeArrayTableHwm) := by
  obtain ⟨js1, hjs⟩ := Option.isSome_iff_exists.mp hnest
  have := marks_run NA_INTEGER ops (init_utils env) [] js1 (inv_init env) rfl
    (fun d h0 h1 => by
      have : (init_utils env).callDepth = 0 := rfl
      rw [this] at h1; omega)
    (fun h => by
      have : (init_utils env).callDepth = 0 := rfl
      rw [this] at h; omega)
    hok hjs
  exact this.2

/-- Witness for C16: two nested frames with an acquisition in each; the marks
are `0` and `1`, the high-water mark is `2`. -/
theorem hwmStack_monotone_witness :
    (run R_NaInt (init_utils env0)
      [Op.callEnter 7, Op.getNativeArray 1 SEXPTYPE.INTSXP, Op.callEnter 8,
        Op.getNativeArray 2 SEXPTYPE.INTSXP]).state.nativeArrayTableHwmStack 0
      ≤ (run R_NaInt (init_utils env0)
      [Op.callEnter 7, Op.getNativeArray 1 SEXPTYPE.INTSXP, Op.callEnter 8,
        Op.getNativeArray 2 SEXPTYPE.INTSXP]).state.nativeArrayTableHwmStack (0 + 1) :=
  (hwmStack_monotone R_NaInt env0
    [Op.callEnter 7, Op.getNativeArray 1 SEXPTYPE.INTSXP, Op.callEnter 8,
      Op.getNativeArray 2 SEXPTYPE.INTSXP] (by decide) (by decide)).1 0 (by decide) (by decide)

/-! ## C14: reuse of slots -/

/-- No call gives a source object to a slot below the high-water mark that has
none. -/
theorem step_tombstone (NA_INTEGER : Int) (s st : State) (op : Op) (i : Nat) (inv : Inv s)
    (hi : i < s.nativeArrayTableHwm) (hnull : (s.elem i).obj = NULL)
    (h : step NA_INTEGER s op = Result.ok () st) : (st.elem i).obj = NULL := by
  have hshr : Shrinks s st → (st.elem i).obj = NULL := by
    intro hs
    rcases hs.elems i with a | a
    · rw [a]; exact hnull
    · rw [a]
  cases op with
  | callEnter j =>
    obtain ⟨_, rfl⟩ := callEnter_ok s st j h
    exact hnull
  | callExit =>
    have h' : callExit NA_INTEGER s = Result.ok () st := h
    obtain ⟨_, _, _, _, _, h6⟩ := callExit_spec NA_INTEGER s st h'
    rw [h6 i]
    split
    · rfl
    · exact hnull
  | getNativeArray x type =>
    simp only [step] at h
    cases hg : getNativeArray NA_INTEGER s x type with
    | fatal msg s2 => rw [hg] at h; cases h
    | crash s2 => rw [hg] at h; cases h
    | ok p s2 =>
      rw [hg] at h
      cases h
      rcases getNativeArray_ok_cases NA_INTEGER s st x type p inv.wf hg with ⟨h1, _⟩ | h2
      · have hf := findNativeArray_shrinks s x
        rw [← h1] at hf
        exact hshr hf
      · rw [h2.2.2.2.2.1 i (by omega)]; exact hnull
  | invalidateNativeArray x =>
    exact hshr (step_shrinks NA_INTEGER s st _ (by simp) (by simp) (by simp) h)
  | updateNativeArrays =>
    exact hshr (step_shrinks NA_INTEGER s st _ (by simp) (by simp) (by simp) h)
  | updateJObjects =>
    exact hshr (step_shrinks NA_INTEGER s st _ (by simp) (by simp) (by simp) h)

/-- A slot without source object keeps none for as long as the high-water mark
stays above it. -/
theorem run_tombstone (NA_INTEGER : Int) (i : Nat) :
    ∀ (ops : List Op) (s : State), Inv s → (s.elem i).obj = NULL →
      (run NA_INTEGER s ops).isOk = true →
      (∀ k, k ≤ ops.length → i < (run NA_INTEGER s (ops.take k)).state.nativeArrayTableHwm) →
      ((run NA_INTEGER s ops).state.elem i).obj = NULL := by
  intro ops
  induction ops with
  | nil => intro s _ hnull _ _; exact hnull
  | cons op ops ih =>
    intro s inv hnull hok habove
    have h0 : i < s.nativeArrayTableHwm := habove 0 (Nat.zero_le _)
    rw [run_cons] at hok ⊢
    cases hs : step NA_INTEGER s op with
    | fatal msg s1 => rw [hs] at hok; cases hok
    | crash s1 => rw [hs] at hok; cases hok
    | ok u s1 =>
      rw [hs] at hok
      simp only [] at hok ⊢
      refine ih s1 (inv_step NA_INTEGER s s1 op inv hs)
        (step_tombstone NA_INTEGER s s1 op i inv h0 hnull hs) hok ?_
      intro k hk
      have := habove (k + 1) (by simp; omega)
      rw [List.take_succ_cons, run_cons, hs] at this
      exact this

/-- C14, as amended. In every state reached from the initial state, a slot below
the high-water mark that has been tombstoned stays tombstoned through every
further sequence of calls during which the high-water mark stays above the
slot: no live entry is stored there until a `callExit` has lowered the
high-water mark to the slot or below it. -/
theorem tombstone_terminal (NA_INTEGER : Int) (env : JNIEnv) (pre ops : List Op) (i : Nat)
    (hpre : (run NA_INTEGER (init_utils env) pre).isOk = true)
    (hnull : ((run NA_INTEGER (init_utils env) pre).state.elem i).obj = NULL)
    (hok : (run NA_INTEGER (run NA_INTEGER (init_utils env) pre).state ops).isOk = true)
    (habove : ∀ k, k ≤ ops.length →
      i < (run NA_INTEGER (run NA_INTEGER (init_utils env) pre).state
        (ops.take k)).state.nativeArrayTableHwm) :
    ((run NA_INTEGER (run NA_INTEGER (init_utils env) pre).state ops).state.elem i).obj = NULL :=
  run_tombstone NA_INTEGER i ops _ (inv_run NA_INTEGER pre (init_utils env) (inv_init env) hpre)
    hnull hok habove

/-- Witness for C14: the entry of object `1` in slot `0` is invalidated; after
a further acquisition and a nested frame that is entered and left, slot `0`
still has no source object. -/
theorem tombstone_terminal_witness :
    ((run R_NaInt (run R_NaInt (init_utils env0)
        [Op.callEnter 7, Op.getNativeArray 1 SEXPTYPE.INTSXP,
          Op.invalidateNativeArray 1]).state
      [Op.getNativeArray 2 SEXPTYPE.INTSXP, Op.callEnter 8,
        Op.getNativeArray 1 SEXPTYPE.INTSXP, Op.callExit]).state.elem 0).obj = NULL :=
  tombstone_terminal R_NaInt env0
    [Op.callEnter 7, Op.getNativeArray 1 SEXPTYPE.INTSXP, Op.invalidateNativeArray 1]
    [Op.getNativeArray 2 SEXPTYPE.INTSXP, Op.callEnter 8,
      Op.getNativeArray 1 SEXPTYPE.INTSXP, Op.callExit] 0
    (by decide) (by decide) (by decide) (by decide)

/-- C14 as stated fails. From the initial state: a call is entered and object
`1` is acquired into slot `0`; `callExit` tombstones the slot and lowers the
high-water mark to `0`; in the next call object `2`, a different object, is
acquired into the same slot `0`. -/
theorem tombstone_terminal_counterexample :
    ((run R_NaInt (init_utils env0)
      [Op.callEnter 7, Op.getNativeArray 1 SEXPTYPE.INTSXP]).state.elem 0).obj = 1 ∧
    ((run R_NaInt (init_utils env0)
      [Op.callEnter 7, Op.getNativeArray 1 SEXPTYPE.INTSXP, Op.callExit]).state.elem 0).obj
        = NULL ∧
    (run R_NaInt (init_utils env0)
      [Op.callEnter 7, Op.getNativeArray 1 SEXPTYPE.INTSXP,
        Op.callExit]).state.nativeArrayTableHwm = 0 ∧
    (run R_NaInt (init_utils env0)
      [Op.callEnter 7, Op.getNativeArray 1 SEXPTYPE.INTSXP, Op.callExit, Op.callEnter 7,
        Op.getNativeArray 2 SEXPTYPE.INTSXP]).isOk = true ∧
    ((run R_NaInt (init_utils env0)
      [Op.callEnter 7, Op.getNativeArray 1 SEXPTYPE.INTSXP, Op.callExit, Op.callEnter 7,
        Op.getNativeArray 2 SEXPTYPE.INTSXP]).state.elem 0).obj = 2 ∧
    fast_IsSameObject env0 1 2 = false := by
  decide

/-! ## C15: one live entry per object -/

/-- The buffer an extraction returns is a block handed out by the allocator. -/
theorem extraction_addr (NA_INTEGER : Int) (env : JNIEnv) (x : SEXP) (type : SEXPTYPE)
    (jArray data : Ptr) (env1 : JNIEnv)
    (h : extraction NA_INTEGER env x type = some (jArray, data, env1)) :
    ∃ k, env.nalloc ≤ k ∧ data = env.addrs k :=
  (extraction_some NA_INTEGER env x type jArray data env1 h).2.2

/-- `getNativeArray` when it returns without having found a usable entry: the
extraction it made and the `addNativeArray` that registered it. -/
theorem getNativeArray_ok_miss (NA_INTEGER : Int) (s st : State) (x : SEXP) (type : SEXPTYPE)
    (p : Ptr)
    (hmiss : (findNativeArray s x).1 = none ∨
      ∃ k, (findNativeArray s x).1 = some k ∧ (s.elem k).data = NULL)
    (h : getNativeArray NA_INTEGER s x type = Result.ok p st) :
    ∃ jArray env1, extraction NA_INTEGER s.env x type = some (jArray, p, env1) ∧
      addNativeArray { (findNativeArray s x).2 with env := env1 } x type jArray p
        = Result.ok () st := by
  rw [getNativeArray_miss NA_INTEGER s x type hmiss] at h
  cases hex : extraction NA_INTEGER s.env x type with
  | none => rw [hex] at h; simp only [] at h; split at h <;> cases h
  | some r =>
    obtain ⟨jArray, data, env1⟩ := r
    rw [hex] at h
    simp only [] at h
    cases hadd : addNativeArray { (findNativeArray s x).2 with env := env1 } x type jArray data with
    | fatal msg s2 => rw [hadd] at h; cases h
    | crash s2 => rw [hadd] at h; cases h
    | ok u s2 =>
      rw [hadd] at h
      cases h
      exact ⟨jArray, env1, rfl, hadd⟩

/-- Uniqueness and non-null buffers pass to a state that only shrank. -/
theorem unique_shrinks (s st : State) (hs : Shrinks s st) (hu : Unique s) (hb : Buffered s) :
    Unique st ∧ Buffered st := by
  have hhwm : st.nativeArrayTableHwm = s.nativeArrayTableHwm := by rw [hs.frame]
  have hlive : ∀ i, (st.elem i).obj ≠ NULL → st.elem i = s.elem i := by
    intro i hl
    rcases hs.elems i with a | a
    · exact a
    · rw [a] at hl; exact absurd rfl hl
  constructor
  · intro i hi j hj li lj hsame
    rw [hhwm] at hi hj
    have ei := hlive i li
    have ej := hlive j lj
    rw [ei] at li hsame
    rw [ej] at lj hsame
    rw [fast_IsSameObject_congr _ _ hs.oop] at hsame
    exact hu i hi j hj li lj hsame
  · intro i hi li
    rw [hhwm] at hi
    have ei := hlive i li
    rw [ei] at li ⊢
    exact hb i hi li

/-- Every call that returns keeps: the invariant, at most one live entry per
object, non-null buffers, and an allocator that never returns `NULL`. -/
theorem unique_step (NA_INTEGER : Int) (s st : State) (op : Op) (inv : Inv s)
    (hu : Unique s) (hb : Buffered s) (ha : ∀ k, s.env.addrs k ≠ NULL)
    (h : step NA_INTEGER s op = Result.ok () st) :
    Unique st ∧ Buffered st ∧ ∀ k, st.env.addrs k ≠ NULL := by
  cases op with
  | callEnter j =>
    obtain ⟨_, rfl⟩ := callEnter_ok s st j h
    exact ⟨hu, hb, ha⟩
  | callExit =>
    have h' : callExit NA_INTEGER s = Result.ok () st := h
    obtain ⟨h1, _, h3, _, h5, h6⟩ := callExit_spec NA_INTEGER s st h'
    have hlive : ∀ i, (st.elem i).obj ≠ NULL →
        st.elem i = s.elem i ∧ i < s.nativeArrayTableHwm := by
      intro i hl
      rw [h6 i] at hl ⊢
      split at hl
      · exact absurd rfl hl
      · rename_i hc
        rw [if_neg hc]
        refine ⟨rfl, ?_⟩
        by_contra hge
        exact hl (clean_elem s inv.clean i (by omega))
    refine ⟨?_, ?_, by rw [h5]; exact ha⟩
    · intro i _ j _ li lj hsame
      obtain ⟨ei, hi⟩ := hlive i li
      obtain ⟨ej, hj⟩ := hlive j lj
      rw [ei] at li hsame
      rw [ej] at lj hsame
      rw [fast_IsSameObject_congr _ _ h3] at hsame
      exact hu i hi j hj li lj hsame
    · intro i _ li
      obtain ⟨ei, hi⟩ := hlive i li
      rw [ei] at li ⊢
      exact hb i hi li
  | getNativeArray x type =>
    simp only [step] at h
    cases hg : getNativeArray NA_INTEGER s x type with
    | fatal msg s2 => rw [hg] at h; cases h
    | crash s2 => rw [hg] at h; cases h
    | ok p s2 =>
      rw [hg] at h
      cases h
      obtain ⟨_, ek⟩ := getNativeArray_keeps NA_INTEGER s st x type p hg
      have ha' : ∀ k, st.env.addrs k ≠ NULL := by rw [ek.addrs]; exact ha
      rcases getNativeArray_ok_cases NA_INTEGER s st x type p inv.wf hg with ⟨h1, _⟩ | h2
      · have hf := findNativeArray_shrinks s x
        rw [← h1] at hf
        obtain ⟨u1, u2⟩ := unique_shrinks s st hf hu hb
        exact ⟨u1, u2, ha'⟩
      · obtain ⟨_, _, b3, ⟨jArray, b4⟩, b5, _, _, _, b9, hmiss⟩ := h2
        have hnone : (findNativeArray s x).1 = none := by
          rcases hmiss with hn | ⟨k, hk, hd⟩
          · exact hn
          · obtain ⟨k1, k2, _⟩ := findNativeArray_some s x k hk
            exact absurd hd (hb k k1 k2)
        have hno := findNativeArray_none s x hnone
        obtain ⟨jA, env1, hex, _⟩ := getNativeArray_ok_miss NA_INTEGER s st x type p
          (Or.inl hnone) hg
        obtain ⟨k0, _, hp⟩ := extraction_addr NA_INTEGER s.env x type jA p env1 hex
        have hpn : p ≠ NULL := by rw [hp]; exact ha k0
        refine ⟨?_, ?_, ha'⟩
        · intro i hi j hj li lj hsame
          rw [b3] at hi hj
          rw [fast_IsSameObject_congr _ _ b9] at hsame
          by_cases hih : i = s.nativeArrayTableHwm
          · by_cases hjh : j = s.nativeArrayTableHwm
            · rw [hih, hjh]
            · exfalso
              rw [hih, b4] at hsame
              rw [b5 j hjh] at lj hsame
              exact hno j (by omega) ⟨lj, fast_IsSameObject_symm _ _ _ hsame⟩
          · by_cases hjh : j = s.nativeArrayTableHwm
            · exfalso
              rw [hjh, b4] at hsame
              rw [b5 i hih] at li hsame
              exact hno i (by omega) ⟨li, hsame⟩
            · rw [b5 i hih] at li hsame
              rw [b5 j hjh] at lj hsame
              exact hu i (by omega) j (by omega) li lj hsame
        · intro i hi li
          rw [b3] at hi
          by_cases hih : i = s.nativeArrayTableHwm
          · rw [hih, b4]; exact hpn
          · rw [b5 i hih] at li ⊢
            exact hb i (by omega) li
  | invalidateNativeArray x =>
    obtain ⟨u1, u2⟩ := unique_shrinks s st
      (step_shrinks NA_INTEGER s st _ (by simp) (by simp) (by simp) h) hu hb
    obtain ⟨_, ek⟩ := step_keeps NA_INTEGER s st _ (by simp) (by simp) h
    exact ⟨u1, u2, by rw [ek.addrs]; exact ha⟩
  | updateNativeArrays =>
    obtain ⟨u1, u2⟩ := unique_shrinks s st
      (step_shrinks NA_INTEGER s st _ (by simp) (by simp) (by simp) h) hu hb
    obtain ⟨_, ek⟩ := step_keeps NA_INTEGER s st _ (by simp) (by simp) h
    exact ⟨u1, u2, by rw [ek.addrs]; exact ha⟩
  | updateJObjects =>
    obtain ⟨u1, u2⟩ := unique_shrinks s st
      (step_shrinks NA_INTEGER s st _ (by simp) (by simp) (by simp) h) hu hb
    obtain ⟨_, ek⟩ := step_keeps NA_INTEGER s st _ (by simp) (by simp) h
    exact ⟨u1, u2, by rw [ek.addrs]; exact ha⟩

theorem unique_run (NA_INTEGER : Int) :
    ∀ (ops : List Op) (s : State), Inv s → Unique s → Buffered s →
      (∀ k, s.env.addrs k ≠ NULL) → (run NA_INTEGER s ops).isOk = true →
      Unique (run NA_INTEGER s ops).state ∧ Buffered (run NA_INTEGER s ops).state := by
  intro ops
  induction ops with
  | nil => intro s _ hu hb _ _; exact ⟨hu, hb⟩
  | cons op ops ih =>
    intro s inv hu hb ha hok
    rw [run_cons] at hok ⊢
    cases hs : step NA_INTEGER s op with
    | fatal msg s1 => rw [hs] at hok; cases hok
    | crash s1 => rw [hs] at hok; cases hok
    | ok u s1 =>
      rw [hs] at hok
      simp only [] at hok ⊢
      obtain ⟨u1, u2, u3⟩ := unique_step NA_INTEGER s s1 op inv hu hb ha hs
      exact ih s1 (inv_step NA_INTEGER s s1 op inv hs) u1 u2 u3 hok

/-- C15, as amended. In every state reached from the initial state by
`callEnter`, `callExit`, `getNativeArray`, `invalidateNativeArray`,
`updateNativeArrays` and `updateJObjects`, when no allocation returns `NULL`
(so that every extraction yields a non-null buffer), the mirror table holds
at most one live entry below the high-water mark per source object, and
every live entry records a non-null buffer. -/
theorem unique_reachable (NA_INTEGER : Int) (env : JNIEnv) (ops : List Op)
    (halloc : ∀ k, env.addrs k ≠ NULL)
    (hok : (run NA_INTEGER (init_utils env) ops).isOk = true) :
    Unique (run NA_INTEGER (init_utils env) ops).state ∧
    Buffered (run NA_INTEGER (init_utils env) ops).state :=
  unique_run NA_INTEGER ops (init_utils env) (inv_init env)
    (fun i hi => absurd hi (Nat.not_lt_zero i)) (fun i hi => absurd hi (Nat.not_lt_zero i))
    halloc hok

/-- Witness for C15: after acquiring object `1` twice and object `2` once inside
a call, the table holds one live entry for each. -/
theorem unique_reachable_witness :
    Unique (run R_NaInt (init_utils env0)
      [Op.callEnter 7, Op.getNativeArray 1 SEXPTYPE.INTSXP, Op.getNativeArray 2 SEXPTYPE.LGLSXP,
        Op.getNativeArray 1 SEXPTYPE.INTSXP]).state :=
  (unique_reachable R_NaInt env0
    [Op.callEnter 7, Op.getNativeArray 1 SEXPTYPE.INTSXP, Op.getNativeArray 2 SEXPTYPE.LGLSXP,
      Op.getNativeArray 1 SEXPTYPE.INTSXP]
    (by intro k; simp [env0, NULL]) (by decide)).1

/-- C15 as stated fails. Object `1` is an empty boolean vector and `malloc(0)`
returns `NULL`: after two `getNativeArray` calls from the initial state the
table holds two live entries, at indices `0` and `1`, for the same object. -/
theorem unique_reachable_counterexample :
    (run R_NaInt (init_utils envNull)
      [Op.getNativeArray 1 SEXPTYPE.LGLSXP, Op.getNativeArray 1 SEXPTYPE.LGLSXP]).isOk = true ∧
    (run R_NaInt (init_utils envNull)
      [Op.getNativeArray 1 SEXPTYPE.LGLSXP,
        Op.getNativeArray 1 SEXPTYPE.LGLSXP]).state.nativeArrayTableHwm = 2 ∧
    (run R_NaInt (init_utils envNull)
      [Op.getNativeArray 1 SEXPTYPE.LGLSXP, Op.getNativeArray 1 SEXPTYPE.LGLSXP]).state.elem 0
        = ⟨SEXPTYPE.LGLSXP, 1, 1001, NULL⟩ ∧
    (run R_NaInt (init_utils envNull)
      [Op.getNativeArray 1 SEXPTYPE.LGLSXP, Op.getNativeArray 1 SEXPTYPE.LGLSXP]).state.elem 1
        = ⟨SEXPTYPE.LGLSXP, 1, 1001, NULL⟩ ∧
    ¬ Unique (run R_NaInt (init_utils envNull)
      [Op.getNativeArray 1 SEXPTYPE.LGLSXP, Op.getNativeArray 1 SEXPTYPE.LGLSXP]).state := by
  decide

/-! ## C17: create-or-find of a global reference -/

/-- The scan of `findCachedGlobalRef` returns `NULL` when no entry of its range
is non-null and identical to the object, and the reference of such an entry
otherwise. -/
theorem findCachedGlobalRefFrom_spec (s : State) (o : SEXP) :
    ∀ (n i : Nat),
      (findCachedGlobalRefFrom s o i n = NULL ∧
        ∀ j, i ≤ j → j < i + n →
          ¬ ((s.gelem j).gref ≠ NULL ∧ fast_IsSameObject s.env (s.gelem j).gref o = true)) ∨
      (∃ k, i ≤ k ∧ k < i + n ∧ (s.gelem k).gref ≠ NULL ∧
        fast_IsSameObject s.env (s.gelem k).gref o = true ∧
        findCachedGlobalRefFrom s o i n = (s.gelem k).gref) := by
  intro n
  induction n with
  | zero =>
    intro i
    left
    exact ⟨rfl, fun j h1 h2 => by omega⟩
  | succ n ih =>
    intro i
    simp only [findCachedGlobalRefFrom]
    by_cases hnull : (s.gelem i).gref = NULL
    · rw [if_pos hnull]
      rcases ih (i + 1) with ⟨a, b⟩ | ⟨k, a, b, c, d, e⟩
      · left
        refine ⟨a, fun j h1 h2 => ?_⟩
        by_cases hj : j = i
        · subst hj; exact fun h => h.1 hnull
        · exact b j (by omega) (by omega)
      · right
        exact ⟨k, by omega, by omega, c, d, e⟩
    · rw [if_neg hnull]
      by_cases hsame : fast_IsSameObject s.env (s.gelem i).gref o = true
      · rw [if_pos hsame]
        right
        exact ⟨i, le_refl _, by omega, hnull, hsame, rfl⟩
      · rw [if_neg hsame]
        rcases ih (i + 1) with ⟨a, b⟩ | ⟨k, a, b, c, d, e⟩
        · left
          refine ⟨a, fun j h1 h2 => ?_⟩
          by_cases hj : j = i
          · subst hj; exact fun h => hsame h.2
          · exact b j (by omega) (by omega)
        · right
          exact ⟨k, by omega, by omega, c, d, e⟩

/-- A miss of `findCachedGlobalRef`: no non-null entry below the high-water mark
denotes the object. -/
theorem findCachedGlobalRef_null (s : State) (o : SEXP) :
    findCachedGlobalRef s o = NULL ↔
      ∀ j, j < s.cachedGlobalRefsHwm →
        ¬ ((s.gelem j).gref ≠ NULL ∧ fast_IsSameObject s.env (s.gelem j).gref o = true) := by
  unfold findCachedGlobalRef
  rcases findCachedGlobalRefFrom_spec s o s.cachedGlobalRefsHwm 0 with ⟨a, b⟩ | ⟨k, a, b, c, d, e⟩
  · exact ⟨fun _ j hj => b j (Nat.zero_le _) (by omega), fun _ => a⟩
  · constructor
    · intro h
      rw [e] at h
      exact absurd h c
    · intro h
      exact absurd ⟨c, d⟩ (h k (by omega))

/-- Appending a global reference for a non-null object, in a table of the shape
`init_utils` establishes, when the table can grow: the new entry goes to the
old high-water mark, the capacity doubles if the table was full, the other
entries stay. -/
theorem addGlobalRef_ok (s : State) (obj : SEXP) (p : Int)
    (hlen : s.cachedGlobalRefs.length = s.cachedGlobalRefsLength)
    (hpos : 0 < s.cachedGlobalRefsLength)
    (hhwm : s.cachedGlobalRefsHwm ≤ s.cachedGlobalRefsLength)
    (hobj : obj ≠ NULL)
    (hcalloc : s.cachedGlobalRefsHwm = s.cachedGlobalRefsLength →
      s.env.addrs s.env.nalloc ≠ NULL) :
    ∃ st, addGlobalRef s obj p = Result.ok (s.env.grefs s.env.ngref) st ∧
      st.cachedGlobalRefsHwm = s.cachedGlobalRefsHwm + 1 ∧
      st.gelem s.cachedGlobalRefsHwm = ⟨p, s.env.grefs s.env.ngref⟩ ∧
      (∀ i, i ≠ s.cachedGlobalRefsHwm → st.gelem i = s.gelem i) ∧
      st.cachedGlobalRefsLength =
        (if s.cachedGlobalRefsHwm = s.cachedGlobalRefsLength then s.cachedGlobalRefsLength * 2
         else s.cachedGlobalRefsLength) ∧
      st.cachedGlobalRefs.length = st.cachedGlobalRefsLength ∧
      st.env.oop = Function.update s.env.oop (s.env.grefs s.env.ngref) (s.env.oop obj) := by
  unfold addGlobalRef
  simp only []
  by_cases hfull : s.cachedGlobalRefsHwm = s.cachedGlobalRefsLength
  · rw [if_pos (le_of_eq hfull.symm), if_neg (by simpa [calloc] using hcalloc hfull)]
    have hl2 : (s.cachedGlobalRefs.take s.cachedGlobalRefsLength
        ++ List.replicate (s.cachedGlobalRefsLength * 2 - s.cachedGlobalRefsLength)
            GlobalRefElem.zero).length = s.cachedGlobalRefsLength * 2 := by
      simp [hlen]; omega
    have htake : s.cachedGlobalRefs.take s.cachedGlobalRefsLength = s.cachedGlobalRefs := by
      rw [← hlen]; exact List.take_length _
    simp only [NewGlobalRef, calloc, if_neg hobj]
    refine ⟨_, rfl, rfl, ?_, ?_, ?_, ?_, rfl⟩
    · simp only [State.gelem, getD_set]
      rw [if_pos ⟨trivial, by rw [hl2]; omega⟩]
    · intro i hi
      simp only [State.gelem, getD_set]
      rw [if_neg (fun h => hi h.1.symm), htake]
      simp only [List.getD_eq_getElem?_getD]
      by_cases hil : i < s.cachedGlobalRefs.length
      · rw [List.getElem?_append_left hil]
      · have hge : s.cachedGlobalRefs.length ≤ i := Nat.le_of_not_lt hil
        rw [List.getElem?_append_right hge, List.getElem?_eq_none hge]
        by_cases h2 : i - s.cachedGlobalRefs.length
            < s.cachedGlobalRefsLength * 2 - s.cachedGlobalRefsLength
        · rw [List.getElem?_replicate, if_pos h2]; rfl
        · rw [List.getElem?_eq_none (by simpa using Nat.le_of_not_lt h2)]
    · rw [if_pos hfull]
    · simp only [List.length_set]; exact hl2
  · have hroom : s.cachedGlobalRefsHwm < s.cachedGlobalRefsLength := by omega
    rw [if_neg (not_le.mpr hroom)]
    simp only [NewGlobalRef, if_neg hobj]
    refine ⟨_, rfl, rfl, ?_, ?_, ?_, ?_, rfl⟩
    · rw [gelem_set s _ _ _ _ rfl, if_pos ⟨rfl, by rw [hlen]; exact hroom⟩]
    · intro i hi
      rw [gelem_set s _ i _ _ rfl, if_neg (fun h => hi h.1.symm)]
    · rw [if_neg hfull]
    · simp [hlen]

/-- After a reference to an object was appended on a miss, the scan for that
object returns the new reference. -/
theorem findCachedGlobalRef_added (s st : State) (obj : SEXP) (p : Int)
    (hobj : obj ≠ NULL) (hnew : s.env.grefs s.env.ngref ≠ NULL)
    (hmiss : findCachedGlobalRef s obj = NULL)
    (h1 : st.cachedGlobalRefsHwm = s.cachedGlobalRefsHwm + 1)
    (h2 : st.gelem s.cachedGlobalRefsHwm = ⟨p, s.env.grefs s.env.ngref⟩)
    (h3 : ∀ i, i ≠ s.cachedGlobalRefsHwm → st.gelem i = s.gelem i)
    (h4 : st.env.oop = Function.update s.env.oop (s.env.grefs s.env.ngref) (s.env.oop obj)) :
    findCachedGlobalRef st obj = s.env.grefs s.env.ngref := by
  have hno := (findCachedGlobalRef_null s obj).mp hmiss
  have hobj' : st.env.oop obj = s.env.oop obj := by
    rw [h4]
    by_cases ho : obj = s.env.grefs s.env.ngref
    · rw [← ho, Function.update_same]
    · rw [Function.update_noteq ho]
  have hat : fast_IsSameObject st.env (s.env.grefs s.env.ngref) obj = true := by
    rw [fast_IsSameObject_iff]
    right
    refine ⟨hnew, hobj, ?_⟩
    rw [hobj', h4, Function.update_same]
  unfold findCachedGlobalRef
  rcases findCachedGlobalRefFrom_spec st obj st.cachedGlobalRefsHwm 0 with
    ⟨_, b⟩ | ⟨k, _, b, c, d, e⟩
  · exfalso
    apply b s.cachedGlobalRefsHwm (Nat.zero_le _) (by omega)
    rw [h2]
    exact ⟨hnew, hat⟩
  · rw [e]
    by_cases hk : k = s.cachedGlobalRefsHwm
    · rw [hk, h2]
    · rw [h3 k hk] at c d ⊢
      by_contra hne
      apply hno k (by omega)
      refine ⟨c, ?_⟩
      rw [fast_IsSameObject_iff] at d ⊢
      rcases d with ⟨d1, _⟩ | ⟨d1, d2, d3⟩
      · exact absurd d1 c
      · right
        refine ⟨d1, d2, ?_⟩
        rw [hobj', h4, Function.update_noteq hne] at d3
        exact d3

/-- C17. In a global reference table of the shape `init_utils` establishes
(allocated length equal to the capacity, positive capacity, high-water mark
within it), for a non-null object, when `NewGlobalRef` yields a reference and
the table can grow: if a non-cleared entry identical to the object exists,
`createGlobalRef` returns the reference of such an entry and leaves the state
unchanged; otherwise it appends exactly one entry, holding the new reference
and the flag, at the old high-water mark, doubling the capacity when the
table was full and keeping every existing entry, and returns the new
reference. In both cases a second `createGlobalRef` on the same object, with
any flag, returns the same reference and changes nothing, the table has grown
by at most one entry, and `findCachedGlobalRef` returns that reference. -/
theorem createGlobalRef_idempotent (s : State) (obj : SEXP) (p p2 : Int)
    (hlen : s.cachedGlobalRefs.length = s.cachedGlobalRefsLength)
    (hpos : 0 < s.cachedGlobalRefsLength)
    (hhwm : s.cachedGlobalRefsHwm ≤ s.cachedGlobalRefsLength)
    (hobj : obj ≠ NULL)
    (hnew : s.env.grefs s.env.ngref ≠ NULL)
    (hcalloc : s.cachedGlobalRefsHwm = s.cachedGlobalRefsLength →
      s.env.addrs s.env.nalloc ≠ NULL) :
    ((∃ k, k < s.cachedGlobalRefsHwm ∧ (s.gelem k).gref ≠ NULL ∧
        fast_IsSameObject s.env (s.gelem k).gref obj = true) →
      ∃ k, k < s.cachedGlobalRefsHwm ∧ (s.gelem k).gref ≠ NULL ∧
        fast_IsSameObject s.env (s.gelem k).gref obj = true ∧
        createGlobalRef s obj p = Result.ok (s.gelem k).gref s) ∧
    ((¬ ∃ k, k < s.cachedGlobalRefsHwm ∧ (s.gelem k).gref ≠ NULL ∧
        fast_IsSameObject s.env (s.gelem k).gref obj = true) →
      ∃ st, createGlobalRef s obj p = Result.ok (s.env.grefs s.env.ngref) st ∧
        st.cachedGlobalRefsHwm = s.cachedGlobalRefsHwm + 1 ∧
        st.gelem s.cachedGlobalRefsHwm = ⟨p, s.env.grefs s.env.ngref⟩ ∧
        (∀ i, i < s.cachedGlobalRefsHwm → st.gelem i = s.gelem i) ∧
        st.cachedGlobalRefsLength =
          (if s.cachedGlobalRefsHwm = s.cachedGlobalRefsLength
           then s.cachedGlobalRefsLength * 2 else s.cachedGlobalRefsLength) ∧
        st.cachedGlobalRefs.length = st.cachedGlobalRefsLength ∧
        fast_IsSameObject st.env (s.env.grefs s.env.ngref) obj = true) ∧
    (∃ g st, createGlobalRef s obj p = Result.ok g st ∧
      createGlobalRef st obj p2 = Result.ok g st ∧
      findCachedGlobalRef st obj = g ∧ g ≠ NULL ∧
      fast_IsSameObject st.env g obj = true ∧
      st.cachedGlobalRefsHwm ≤ s.cachedGlobalRefsHwm + 1) := by
  have hmisscase : findCachedGlobalRef s obj = NULL →
      ∃ st, createGlobalRef s obj p = Result.ok (s.env.grefs s.env.ngref) st ∧
        st.cachedGlobalRefsHwm = s.cachedGlobalRefsHwm + 1 ∧
        st.gelem s.cachedGlobalRefsHwm = ⟨p, s.env.grefs s.env.ngref⟩ ∧
        (∀ i, i < s.cachedGlobalRefsHwm → st.gelem i = s.gelem i) ∧
        st.cachedGlobalRefsLength =
          (if s.cachedGlobalRefsHwm = s.cachedGlobalRefsLength
           then s.cachedGlobalRefsLength * 2 else s.cachedGlobalRefsLength) ∧
        st.cachedGlobalRefs.length = st.cachedGlobalRefsLength ∧
        fast_IsSameObject st.env (s.env.grefs s.env.ngref) obj = true ∧
        findCachedGlobalRef st obj = s.env.grefs s.env.ngref := by
    intro hmiss
    obtain ⟨st, a0, a1, a2, a3, a4, a5, a6⟩ := addGlobalRef_ok s obj p hlen hpos hhwm hobj hcalloc
    have hfound := findCachedGlobalRef_added s st obj p hobj hnew hmiss a1 a2 a3 a6
    refine ⟨st, ?_, a1, a2, fun i hi => a3 i (by omega), a4, a5, ?_, hfound⟩
    · unfold createGlobalRef
      rw [if_pos hmiss]
      exact a0
    · rw [fast_IsSameObject_iff]
      right
      refine ⟨hnew, hobj, ?_⟩
      rw [a6, Function.update_same]
      by_cases ho : obj = s.env.grefs s.env.ngref
      · rw [← ho, Function.update_same]
      · rw [Function.update_noteq ho]
  have hhitcase : findCachedGlobalRef s obj ≠ NULL →
      ∃ k, k < s.cachedGlobalRefsHwm ∧ (s.gelem k).gref ≠ NULL ∧
        fast_IsSameObject s.env (s.gelem k).gref obj = true ∧
        findCachedGlobalRef s obj = (s.gelem k).gref ∧
        createGlobalRef s obj p = Result.ok (s.gelem k).gref s ∧
        createGlobalRef s obj p2 = Result.ok (s.gelem k).gref s := by
    intro hhit
    have hfind : ∃ k, k < s.cachedGlobalRefsHwm ∧ (s.gelem k).gref ≠ NULL ∧
        fast_IsSameObject s.env (s.gelem k).gref obj = true ∧
        findCachedGlobalRef s obj = (s.gelem k).gref := by
      unfold findCachedGlobalRef at hhit ⊢
      rcases findCachedGlobalRefFrom_spec s obj s.cachedGlobalRefsHwm 0 with
        ⟨a, _⟩ | ⟨k, _, b, c, d, e⟩
      · exact absurd a hhit
      · exact ⟨k, by omega, c, d, e⟩
    obtain ⟨k, k1, k2, k3, k4⟩ := hfind
    refine ⟨k, k1, k2, k3, k4, ?_, ?_⟩
    · unfold createGlobalRef
      rw [if_neg hhit, k4]
    · unfold createGlobalRef
      rw [if_neg hhit, k4]
  refine ⟨?_, ?_, ?_⟩
  · intro hex
    have hhit : findCachedGlobalRef s obj ≠ NULL := by
      intro h
      obtain ⟨k, k1, k2, k3⟩ := hex
      exact (findCachedGlobalRef_null s obj).mp h k k1 ⟨k2, k3⟩
    obtain ⟨k, k1, k2, k3, _, k5, _⟩ := hhitcase hhit
    exact ⟨k, k1, k2, k3, k5⟩
  · intro hno
    have hmiss : findCachedGlobalRef s obj = NULL :=
      (findCachedGlobalRef_null s obj).mpr (fun j hj h => hno ⟨j, hj, h.1, h.2⟩)
    obtain ⟨st, a0, a1, a2, a3, a4, a5, a6, _⟩ := hmisscase hmiss
    exact ⟨st, a0, a1, a2, a3, a4, a5, a6⟩
  · by_cases hmiss : findCachedGlobalRef s obj = NULL
    · obtain ⟨st, a0, a1, _, _, _, _, a6, a7⟩ := hmisscase hmiss
      refine ⟨s.env.grefs s.env.ngref, st, a0, ?_, a7, hnew, a6, by omega⟩
      unfold createGlobalRef
      rw [a7, if_neg hnew]
    · obtain ⟨k, _, k2, k3, k4, k5, k6⟩ := hhitcase hmiss
      exact ⟨(s.gelem k).gref, s, k5, k6, k4, k2, k3, by omega⟩

/-- Witness for C17: the table of `stateRefs` is full (three entries, capacity
three) and holds no reference to object `5`. -/
theorem createGlobalRef_idempotent_witness :
    (∃ st, createGlobalRef stateRefs 5 0 = Result.ok 9000 st ∧
      st.cachedGlobalRefsHwm = 4 ∧ st.cachedGlobalRefsLength = 6 ∧
      st.gelem 3 = ⟨0, 9000⟩ ∧ st.gelem 0 = ⟨0, 11⟩) ∧
    (∃ g st, createGlobalRef stateRefs 5 0 = Result.ok g st ∧
      createGlobalRef st 5 1 = Result.ok g st ∧
      findCachedGlobalRef st 5 = g ∧ g ≠ NULL ∧
      fast_IsSameObject st.env g 5 = true ∧
      st.cachedGlobalRefsHwm ≤ stateRefs.cachedGlobalRefsHwm + 1) := by
  have h := createGlobalRef_idempotent stateRefs 5 0 1 (by decide) (by decide) (by decide)
    (by decide) (by decide) (fun _ => by decide)
  refine ⟨?_, h.2.2⟩
  obtain ⟨st, a0, a1, a2, a3, a4, _⟩ := h.2.1 (by decide)
  exact ⟨st, a0, a1, a4, a2, a3 0 (by decide)⟩

/-! ## C19: acquiring again after a stale entry was tombstoned -/

/-- The refresh of a live entry of a vector kind whose recorded array is not the
object's present one: the entry loses its source object, nothing else changes. -/
theorem updateNativeArray_tombstones (s : State) (i : Nat)
    (hobj : (s.elem i).obj ≠ NULL)
    (hkind : (s.elem i).type = SEXPTYPE.INTSXP ∨ (s.elem i).type = SEXPTYPE.REALSXP ∨
      (s.elem i).type = SEXPTYPE.RAWSXP ∨ (s.elem i).type = SEXPTYPE.LGLSXP)
    (hstale : fast_IsSameObject s.env (s.env.upcall (s.elem i).obj (s.elem i).type)
      (s.elem i).jArray = false) :
    ∃ st, updateNativeArray s i = Result.ok () st ∧
      st.elem i = { s.elem i with obj := NULL } ∧
      (∀ j, j ≠ i → st.elem j = s.elem j) ∧
      st.env = s.env ∧
      st.nativeArrayTableHwm = s.nativeArrayTableHwm ∧
      st.nativeArrayTableLength = s.nativeArrayTableLength ∧
      st.nativeArrayTable.length = s.nativeArrayTable.length := by
  have hlen := lt_length_of_live s i hobj
  have hchar : (s.elem i).type ≠ SEXPTYPE.CHARSXP := by
    rcases hkind with h | h | h | h <;> rw [h] <;> decide
  have hj : getJArray s.env (s.elem i).obj (s.elem i).type
      = some (s.env.upcall (s.elem i).obj (s.elem i).type) := by
    rcases hkind with h | h | h | h <;> rw [h] <;> rfl
  have hne : ¬ fast_IsSameObject s.env (s.env.upcall (s.elem i).obj (s.elem i).type)
      (s.elem i).jArray = true := by
    rw [hstale]; exact Bool.false_ne_true
  unfold updateNativeArray
  simp only []
  rw [if_pos ⟨hobj, hchar⟩, hj]
  simp only []
  rw [if_neg hne]
  refine ⟨_, rfl, ?_, ?_, rfl, rfl, rfl, ?_⟩
  · rw [elem_set s i i _ _ rfl, if_pos ⟨rfl, hlen⟩]
  · intro j hj
    rw [elem_set s i j _ _ rfl, if_neg (fun h => hj h.1.symm)]
  · simp only [List.length_set]

/-- `extractVectorNativeArray` does not crash on a vector kind, when for a
boolean vector over a non-empty array neither block is `NULL`. -/
theorem extractVectorNativeArray_returns (NA_INTEGER : Int) (env : JNIEnv) (jArray : Ptr)
    (type : SEXPTYPE)
    (hsafe : type = SEXPTYPE.LGLSXP → 0 < GetArrayLength env jArray →
      env.addrs env.nalloc ≠ NULL ∧ env.addrs (env.nalloc + 1) ≠ NULL) :
    ∃ r, extractVectorNativeArray NA_INTEGER env jArray type = some r := by
  cases type with
  | OTHER c => exact ⟨_, rfl⟩
  | CHARSXP => exact ⟨_, rfl⟩
  | LGLSXP =>
    simp only [extractVectorNativeArray]
    rw [if_neg]
    · exact ⟨_, rfl⟩
    · rintro ⟨h1, h2 | h2⟩
      · exact (hsafe rfl h1).1 h2
      · exact (hsafe rfl h1).2 h2
  | INTSXP => exact ⟨_, rfl⟩
  | REALSXP => exact ⟨_, rfl⟩
  | RAWSXP => exact ⟨_, rfl⟩

/-- `getNativeArray` for a vector kind on an object without a live entry, when
the extraction of the present backing array does not crash and the table can
grow: an entry with the object, that array and the extracted buffer is
appended, and the buffer is returned. -/
theorem getNativeArray_extracts (NA_INTEGER : Int) (s : State) (x : SEXP) (type : SEXPTYPE)
    (p : Ptr) (env1 : JNIEnv)
    (hwf : WF s)
    (hkind : type = SEXPTYPE.INTSXP ∨ type = SEXPTYPE.REALSXP ∨ type = SEXPTYPE.RAWSXP ∨
      type = SEXPTYPE.LGLSXP)
    (hextr : extractVectorNativeArray NA_INTEGER s.env (s.env.upcall x type) type
      = some (p, env1))
    (hgrow : s.nativeArrayTableHwm = s.nativeArrayTableLength → ∀ k, s.env.addrs k ≠ NULL)
    (hnone : ∀ j, j < s.nativeArrayTableHwm → ¬ Mirrors s.env (s.elem j) x) :
    ∃ st, getNativeArray NA_INTEGER s x type = Result.ok p st ∧
      st.nativeArrayTableHwm = s.nativeArrayTableHwm + 1 ∧
      st.elem s.nativeArrayTableHwm = ⟨type, x, s.env.upcall x type, p⟩ ∧
      (∀ i, i ≠ s.nativeArrayTableHwm → st.elem i = s.elem i) ∧
      st.env.cmem = env1.cmem ∧
      st.env.arrays = env1.arrays := by
  have hfs := findNativeArray_state s x
  have hex : extraction NA_INTEGER s.env x type = some (s.env.upcall x type, p, env1) := by
    rcases hkind with h | h | h | h <;> subst h <;> simp only [extraction, hextr] <;> rfl
  obtain ⟨_, _, e3, _⟩ := extraction_env NA_INTEGER s.env x type _ _ _ hex
  rw [getNativeArray_miss NA_INTEGER s x type (Or.inl (findNativeArray_eq_none s x hnone)), hex]
  simp only []
  rw [hfs]
  by_cases hroom : s.nativeArrayTableHwm < s.nativeArrayTableLength
  · obtain ⟨st, h0, _, _, h3, h4, h5, h6, _⟩ :=
      addNativeArray_room
        { { s with nativeArrayTableLastIndex := (findNativeArray s x).2.nativeArrayTableLastIndex }
            with env := env1 }
        x type (s.env.upcall x type) p hwf.1 hroom
    rw [h0]
    have h6 : st.env = env1 := h6
    exact ⟨st, rfl, h3, h4, h5, by rw [h6], by rw [h6]⟩
  · have hfull : s.nativeArrayTableHwm = s.nativeArrayTableLength := by
      have := hwf.2.2; omega
    obtain ⟨st, h0, _, _, h3, h4, h5, h6, _⟩ :=
      addNativeArray_full
        { { s with nativeArrayTableLastIndex := (findNativeArray s x).2.nativeArrayTableLastIndex }
            with env := env1 }
        x type (s.env.upcall x type) p
        hwf.1 hfull hwf.2.1
        (by
          show env1.addrs env1.nalloc ≠ NULL
          rw [e3]; exact hgrow hfull _)
    rw [h0]
    have h6 : st.env = (calloc env1).2 := h6
    exact ⟨st, rfl, h3, h4, h5, by rw [h6]; rfl, by rw [h6]; rfl⟩

/-- C19. Let entry `i` be a live entry of a vector kind below the high-water
mark of a well-formed table, the only live one for its object, whose recorded
array is no longer the object's backing array. `updateNativeArray` tombstones
it. The next `getNativeArray` for that object, for a vector kind, when the
table can grow and, for a boolean vector over a non-empty array, neither
block of the extraction is `NULL` (the code goes through them unchecked):
`extractVectorNativeArray` on the object's present backing array returns a
buffer, and `getNativeArray` returns that buffer; it appends an entry, at the
high-water mark, with the object, the present array and that buffer, leaves
the tombstone as it was, and the buffer is not the old one when the allocator
does not hand out the old address again. -/
theorem getNativeArray_after_stale (NA_INTEGER : Int) (s : State) (i : Nat) (type : SEXPTYPE)
    (hwf : WF s) (hi : i < s.nativeArrayTableHwm)
    (hobj : (s.elem i).obj ≠ NULL)
    (hkind : (s.elem i).type = SEXPTYPE.INTSXP ∨ (s.elem i).type = SEXPTYPE.REALSXP ∨
      (s.elem i).type = SEXPTYPE.RAWSXP ∨ (s.elem i).type = SEXPTYPE.LGLSXP)
    (hstale : fast_IsSameObject s.env (s.env.upcall (s.elem i).obj (s.elem i).type)
      (s.elem i).jArray = false)
    (honly : ∀ j, j < s.nativeArrayTableHwm → j ≠ i →
      ¬ Mirrors s.env (s.elem j) (s.elem i).obj)
    (htype : type = SEXPTYPE.INTSXP ∨ type = SEXPTYPE.REALSXP ∨ type = SEXPTYPE.RAWSXP ∨
      type = SEXPTYPE.LGLSXP)
    (hgrow : s.nativeArrayTableHwm = s.nativeArrayTableLength → ∀ k, s.env.addrs k ≠ NULL)
    (hsafe : type = SEXPTYPE.LGLSXP →
      0 < GetArrayLength s.env (s.env.upcall (s.elem i).obj type) →
      s.env.addrs s.env.nalloc ≠ NULL ∧ s.env.addrs (s.env.nalloc + 1) ≠ NULL) :
    ∃ s1 s2 p env1, updateNativeArray s i = Result.ok () s1 ∧
      (s1.elem i).obj = NULL ∧ (s1.elem i).data = (s.elem i).data ∧ s1.env = s.env ∧
      extractVectorNativeArray NA_INTEGER s.env (s.env.upcall (s.elem i).obj type) type
        = some (p, env1) ∧
      getNativeArray NA_INTEGER s1 (s.elem i).obj type = Result.ok p s2 ∧
      s2.env.cmem p = env1.cmem p ∧
      s2.nativeArrayTableHwm = s.nativeArrayTableHwm + 1 ∧
      s2.elem s.nativeArrayTableHwm = ⟨type, (s.elem i).obj, s.env.upcall (s.elem i).obj type, p⟩ ∧
      s2.elem i = s1.elem i ∧
      ((∀ k, s.env.nalloc ≤ k → s.env.addrs k ≠ (s.elem i).data) → p ≠ (s.elem i).data) := by
  obtain ⟨s1, u0, u1, u2, u3, u4, u5, u6⟩ := updateNativeArray_tombstones s i hobj hkind hstale
  have hnone : ∀ j, j < s1.nativeArrayTableHwm → ¬ Mirrors s1.env (s1.elem j) (s.elem i).obj := by
    intro j hj
    rw [u4] at hj
    rw [u3]
    by_cases hji : j = i
    · rw [hji, u1]
      exact fun h => h.1 rfl
    · rw [u2 j hji]
      exact honly j hj hji
  have hwf1 : WF s1 := ⟨by rw [u6, u5]; exact hwf.1, by rw [u5]; exact hwf.2.1,
    by rw [u4, u5]; exact hwf.2.2⟩
  obtain ⟨r, hr⟩ := extractVectorNativeArray_returns NA_INTEGER s.env
    (s.env.upcall (s.elem i).obj type) type hsafe
  obtain ⟨p, env1⟩ := r
  obtain ⟨s2, g0, g1, g2, g3, g4, _⟩ := getNativeArray_extracts NA_INTEGER s1
    (s.elem i).obj type p env1 hwf1 htype (by rw [u3]; exact hr)
    (by rw [u3, u4, u5]; exact hgrow) hnone
  rw [u3] at g2
  rw [u4] at g1 g2
  refine ⟨s1, s2, p, env1, u0, by rw [u1], by rw [u1], u3, hr, g0, by rw [g4], g1, g2,
    g3 i (by rw [u4]; exact Nat.ne_of_lt hi), ?_⟩
  intro hfresh
  have hsup : type.supported = true := by
    rcases htype with h | h | h | h <;> rw [h] <;> rfl
  have hchar : type ≠ SEXPTYPE.CHARSXP := by
    rcases htype with h | h | h | h <;> rw [h] <;> decide
  obtain ⟨k, k1, k2⟩ := extractVectorNativeArray_addr NA_INTEGER s.env _ type (p, env1) hr
    hsup hchar
  have k2 : p = s.env.addrs k := k2
  rw [k2]
  exact hfresh k k1

/-- Witness for C19: in `stateStale` the entry of object `1` records array `2`
and buffer `3`; after the refresh tombstones it, `getNativeArray` returns the
fresh buffer `5000` holding the elements `8, 9` of the present array `1001`,
and registers it at index `1`. -/
theorem getNativeArray_after_stale_witness :
    ∃ s1 s2, updateNativeArray stateStale 0 = Result.ok () s1 ∧
      (s1.elem 0).obj = NULL ∧
      getNativeArray R_NaInt s1 1 SEXPTYPE.INTSXP = Result.ok 5000 s2 ∧
      s2.env.cmem 5000 = [8, 9] ∧
      s2.elem 1 = ⟨SEXPTYPE.INTSXP, 1, 1001, 5000⟩ ∧ (s2.elem 0).obj = NULL ∧
      (5000 : Ptr) ≠ (stateStale.elem 0).data := by
  obtain ⟨s1, s2, p, env1, a0, a1, _, _, a4, a5, a6, _, a8, a9, a10⟩ :=
    getNativeArray_after_stale R_NaInt stateStale 0 SEXPTYPE.INTSXP (by decide) (by decide)
      (by decide) (by decide) (by decide) (by decide) (by decide)
      (fun h => absurd h (by decide)) (fun h => absurd h (by decide))
  have hex : extractVectorNativeArray R_NaInt stateStale.env 1001 SEXPTYPE.INTSXP
      = some (p, env1) := a4
  have hd : (extractVectorNativeArray R_NaInt stateStale.env 1001 SEXPTYPE.INTSXP).map
      (fun r => (r.1, r.2.cmem 5000)) = some (5000, [8, 9]) := by decide
  rw [hex] at hd
  simp only [Option.map_some', Option.some.injEq, Prod.mk.injEq] at hd
  obtain ⟨hp, hc⟩ := hd
  subst hp
  refine ⟨s1, s2, a0, a1, a5, ?_, a8, by rw [a9]; exact a1, ?_⟩
  · rw [a6]; exact hc
  · exact a10 (fun k _ => by show 5000 + k ≠ 3; omega)

/-! ## C20: the refresh and the push-back of a frame -/

/-- A property that every iteration keeps, whether it returns or not, holds in
the state in which the loop ends. -/
theorem forRange_state (body : State → Nat → Result Unit) (P : State → Prop) :
    ∀ (n lo : Nat) (s : State), P s →
      (∀ st k, lo ≤ k → k < lo + n → P st → P (body st k).state) →
      P (forRange body lo n s).state := by
  intro n
  induction n with
  | zero => intro lo s h _; exact h
  | succ n ih =>
    intro lo s h hbody
    have h1 := hbody s lo (le_refl _) (by omega) h
    simp only [forRange]
    cases hb : body s lo with
    | ok u s1 =>
      rw [hb] at h1
      exact ih (lo + 1) s1 h1 (fun st k hk1 hk2 hP => hbody st k (by omega) (by omega) hP)
    | fatal msg s1 =>
      rw [hb] at h1
      exact h1
    | crash s1 =>
      rw [hb] at h1
      exact h1

/-- What `updateNativeArray` may change, whether it returns or not: the source
object of its entry, the buffer of its entry, a block the allocator hands out,
and the allocator's count. -/
theorem updateNativeArray_frame (s : State) (i : Nat) :
    (updateNativeArray s i).state.nativeArrayTableHwm = s.nativeArrayTableHwm ∧
    (updateNativeArray s i).state.nativeArrayTableHwmStack = s.nativeArrayTableHwmStack ∧
    (updateNativeArray s i).state.callDepth = s.callDepth ∧
    (∀ j, j ≠ i → (updateNativeArray s i).state.elem j = s.elem j) ∧
    ((updateNativeArray s i).state.elem i = s.elem i ∨
      ((s.elem i).obj ≠ NULL ∧
        (updateNativeArray s i).state.elem i = { s.elem i with obj := NULL })) ∧
    (updateNativeArray s i).state.env.addrs = s.env.addrs ∧
    s.env.nalloc ≤ (updateNativeArray s i).state.env.nalloc ∧
    (updateNativeArray s i).state.env.arrays = s.env.arrays ∧
    (updateNativeArray s i).state.env.oop = s.env.oop ∧
    (∀ a, ((s.elem i).obj ≠ NULL → (s.elem i).data ≠ a) →
      (∀ k, s.env.nalloc ≤ k → s.env.addrs k ≠ a) →
      (updateNativeArray s i).state.env.cmem a = s.env.cmem a) := by
  unfold updateNativeArray
  simp only []
  by_cases hc : (s.elem i).obj ≠ NULL ∧ (s.elem i).type ≠ SEXPTYPE.CHARSXP
  · rw [if_pos hc]
    cases hj : getJArray s.env (s.elem i).obj (s.elem i).type with
    | none =>
      exact ⟨rfl, rfl, rfl, fun _ _ => rfl, Or.inl rfl, rfl, le_refl _, rfl, rfl,
        fun _ _ _ => rfl⟩
    | some current =>
      simp only []
      by_cases hsame : fast_IsSameObject s.env current (s.elem i).jArray = true
      · rw [if_pos hsame]
        have hreg : ∀ a, ((s.elem i).obj ≠ NULL → (s.elem i).data ≠ a) →
            (GetArrayRegion s.env (s.elem i).jArray (GetArrayLength s.env (s.elem i).jArray)
              (s.elem i).data).cmem a = s.env.cmem a := by
          intro a ha
          simp only [GetArrayRegion]
          exact Function.update_noteq (fun h => ha hc.1 h.symm) _ _
        split
        · exact ⟨rfl, rfl, rfl, fun _ _ => rfl, Or.inl rfl, rfl, le_refl _, rfl, rfl,
            fun a ha _ => hreg a ha⟩
        · exact ⟨rfl, rfl, rfl, fun _ _ => rfl, Or.inl rfl, rfl, le_refl _, rfl, rfl,
            fun a ha _ => hreg a ha⟩
        · exact ⟨rfl, rfl, rfl, fun _ _ => rfl, Or.inl rfl, rfl, le_refl _, rfl, rfl,
            fun a ha _ => hreg a ha⟩
        · split
          · refine ⟨rfl, rfl, rfl, fun _ _ => rfl, Or.inl rfl, rfl, Nat.le_succ _, rfl, rfl, ?_⟩
            intro a ha hal
            have h2 : s.env.addrs s.env.nalloc ≠ a := hal _ (le_refl _)
            simp only [Result.state, malloc]
            rw [Function.update_noteq h2.symm]
          · refine ⟨rfl, rfl, rfl, fun _ _ => rfl, Or.inl rfl, rfl, Nat.le_succ _, rfl, rfl, ?_⟩
            intro a ha hal
            have h1 : (s.elem i).data ≠ a := ha hc.1
            have h2 : s.env.addrs s.env.nalloc ≠ a := hal _ (le_refl _)
            simp only [Result.state, free, GetArrayRegion, malloc]
            rw [Function.update_noteq h1.symm, Function.update_noteq h2.symm,
              Function.update_noteq h2.symm]
        · exact ⟨rfl, rfl, rfl, fun _ _ => rfl, Or.inl rfl, rfl, le_refl _, rfl, rfl,
            fun _ _ _ => rfl⟩
      · rw [if_neg hsame]
        have hlen := lt_length_of_live s i hc.1
        refine ⟨rfl, rfl, rfl, ?_, Or.inr ⟨hc.1, ?_⟩, rfl, le_refl _, rfl, rfl,
          fun _ _ _ => rfl⟩
        · intro j hj
          simp only [Result.state]
          rw [elem_set s i j _ _ rfl, if_neg (fun h => hj h.1.symm)]
        · simp only [Result.state]
          rw [elem_set s i i _ _ rfl, if_pos ⟨rfl, hlen⟩]
  · rw [if_neg hc]
    exact ⟨rfl, rfl, rfl, fun _ _ => rfl, Or.inl rfl, rfl, le_refl _, rfl, rfl,
      fun _ _ _ => rfl⟩

/-- What `updateJObject` may change, whether it returns or not: the index of the
last hit, the managed array recorded in a live entry identical to the object,
a block the allocator hands out, and the allocator's count. -/
theorem updateJObject_frame (s : State) (x : SEXP) :
    (updateJObject s x).state.nativeArrayTable = s.nativeArrayTable ∧
    (updateJObject s x).state.nativeArrayTableHwm = s.nativeArrayTableHwm ∧
    (updateJObject s x).state.nativeArrayTableLength = s.nativeArrayTableLength ∧
    (updateJObject s x).state.nativeArrayTableHwmStack = s.nativeArrayTableHwmStack ∧
    (updateJObject s x).state.callDepth = s.callDepth ∧
    (updateJObject s x).state.env.oop = s.env.oop ∧
    (∀ a, (∀ k, k < s.nativeArrayTableHwm → Mirrors s.env (s.elem k) x →
        s.env.oop (s.elem k).jArray ≠ a) →
      (updateJObject s x).state.env.arrays a = s.env.arrays a) := by
  have hfs := findNativeArray_state s x
  unfold updateJObject
  cases hf : findNativeArray s x with
  | mk o s1 =>
    rw [hf] at hfs
    simp only [] at hfs
    cases o with
    | none =>
      simp only []
      rw [hfs]
      exact ⟨rfl, rfl, rfl, rfl, rfl, rfl, fun _ _ => rfl⟩
    | some k =>
      have hk := findNativeArray_some s x k (by rw [hf])
      have he : s1.elem k = s.elem k := by rw [hfs]; rfl
      have henv : s1.env = s.env := by rw [hfs]
      have h1 : s1.nativeArrayTable = s.nativeArrayTable := by rw [hfs]
      have h2 : s1.nativeArrayTableHwm = s.nativeArrayTableHwm := by rw [hfs]
      have h3 : s1.nativeArrayTableLength = s.nativeArrayTableLength := by rw [hfs]
      have h4 : s1.nativeArrayTableHwmStack = s.nativeArrayTableHwmStack := by rw [hfs]
      have h5 : s1.callDepth = s.callDepth := by rw [hfs]
      simp only []
      have hset : ∀ a len buf (e : JNIEnv), e.oop = s.env.oop → e.arrays = s.env.arrays →
          (∀ k, k < s.nativeArrayTableHwm → Mirrors s.env (s.elem k) x →
            s.env.oop (s.elem k).jArray ≠ a) →
          (SetArrayRegion e (s1.elem k).jArray len buf).arrays a = s.env.arrays a := by
        intro a len buf e e1 e2 ha
        simp only [SetArrayRegion]
        rw [he, e1, Function.update_noteq (fun h => ha k hk.1 ⟨hk.2.1, hk.2.2⟩ h.symm), e2]
      by_cases hc : (s1.elem k).data ≠ NULL ∧ (s1.elem k).type ≠ SEXPTYPE.CHARSXP
      · rw [if_pos hc]
        split
        · exact ⟨h1, h2, h3, h4, h5, by rw [← henv]; rfl,
            fun a ha => hset a _ _ s1.env (by rw [henv]) (by rw [henv]) ha⟩
        · exact ⟨h1, h2, h3, h4, h5, by rw [← henv]; rfl,
            fun a ha => hset a _ _ s1.env (by rw [henv]) (by rw [henv]) ha⟩
        · exact ⟨h1, h2, h3, h4, h5, by rw [← henv]; rfl,
            fun a ha => hset a _ _ s1.env (by rw [henv]) (by rw [henv]) ha⟩
        · split
          · exact ⟨h1, h2, h3, h4, h5, by rw [← henv]; rfl, fun a _ => by rw [← henv]; rfl⟩
          · refine ⟨h1, h2, h3, h4, h5, by rw [← henv]; rfl, ?_⟩
            intro a ha
            simp only [Result.state, free]
            exact hset a _ _ _ (by rw [← henv]; rfl) (by rw [← henv]; rfl) ha
        · exact ⟨h1, h2, h3, h4, h5, by rw [← henv]; rfl, fun a _ => by rw [← henv]; rfl⟩
      · rw [if_neg hc]
        exact ⟨h1, h2, h3, h4, h5, by rw [← henv]; rfl, fun a _ => by rw [← henv]; rfl⟩

/-- C20. With `h` the mark of the innermost frame,
`nativeArrayTableHwmStack[callDepth - 1]`, and whether the calls return, end
in a fatal error or crash: `updateNativeArrays` leaves the high-water mark and every
entry below `h` as they were, writes no managed array, and leaves the content
of every native address that is neither the buffer of a live entry in
`[h, hwm)` nor a block the allocator hands out during the call; in particular
the buffer of an entry below `h`, when no entry of the frame shares it.
`updateJObjects` leaves the mirror table, its high-water mark and its capacity
as they were, and every managed array it changes is the array recorded in a
live entry whose object is identical to the object of a live entry in
`[h, hwm)`. -/
theorem update_frame_scoped (s : State) :
    ((updateNativeArrays s).state.nativeArrayTableHwm = s.nativeArrayTableHwm ∧
      (∀ j, j < s.nativeArrayTableHwmStack (s.callDepth - 1) →
        (updateNativeArrays s).state.elem j = s.elem j) ∧
      (∀ a, (∀ i, s.nativeArrayTableHwmStack (s.callDepth - 1) ≤ i → i < s.nativeArrayTableHwm →
            (s.elem i).obj ≠ NULL → (s.elem i).data ≠ a) →
        (∀ k, s.env.nalloc ≤ k → s.env.addrs k ≠ a) →
        (updateNativeArrays s).state.env.cmem a = s.env.cmem a) ∧
      (updateNativeArrays s).state.env.arrays = s.env.arrays) ∧
    ((updateJObjects s).state.nativeArrayTable = s.nativeArrayTable ∧
      (updateJObjects s).state.nativeArrayTableHwm = s.nativeArrayTableHwm ∧
      (updateJObjects s).state.nativeArrayTableLength = s.nativeArrayTableLength ∧
      (∀ a, (updateJObjects s).state.env.arrays a ≠ s.env.arrays a →
        ∃ i k, s.nativeArrayTableHwmStack (s.callDepth - 1) ≤ i ∧ i < s.nativeArrayTableHwm ∧
          (s.elem i).obj ≠ NULL ∧ k < s.nativeArrayTableHwm ∧
          Mirrors s.env (s.elem k) (s.elem i).obj ∧ a = s.env.oop (s.elem k).jArray)) := by
  constructor
  · have key := forRange_state updateNativeArray
      (fun st => st.nativeArrayTableHwm = s.nativeArrayTableHwm ∧
        (∀ j, st.elem j = s.elem j ∨
          (s.nativeArrayTableHwmStack (s.callDepth - 1) ≤ j ∧ (s.elem j).obj ≠ NULL ∧
            st.elem j = { s.elem j with obj := NULL })) ∧
        st.env.addrs = s.env.addrs ∧ s.env.nalloc ≤ st.env.nalloc ∧
        st.env.arrays = s.env.arrays ∧
        (∀ a, (∀ i, s.nativeArrayTableHwmStack (s.callDepth - 1) ≤ i →
              i < s.nativeArrayTableHwm → (s.elem i).obj ≠ NULL → (s.elem i).data ≠ a) →
          (∀ k, s.env.nalloc ≤ k → s.env.addrs k ≠ a) →
          st.env.cmem a = s.env.cmem a))
      (s.nativeArrayTableHwm - s.nativeArrayTableHwmStack (s.callDepth - 1))
      (s.nativeArrayTableHwmStack (s.callDepth - 1)) s
      ⟨rfl, fun _ => Or.inl rfl, rfl, le_refl _, rfl, fun _ _ _ => rfl⟩
      (by
        intro st k hk1 hk2 hP
        obtain ⟨p1, p2, p3, p4, p5, p6⟩ := hP
        obtain ⟨f1, _, _, f4, f5, f6, f7, f8, _, f10⟩ := updateNativeArray_frame st k
        have hlive : (st.elem k).obj ≠ NULL → st.elem k = s.elem k := by
          intro hl
          rcases p2 k with a | ⟨_, _, a⟩
          · exact a
          · rw [a] at hl; exact absurd rfl hl
        refine ⟨by rw [f1, p1], ?_, by rw [f6, p3], le_trans p4 f7, by rw [f8, p5], ?_⟩
        · intro j
          by_cases hj : j = k
          · subst hj
            rcases f5 with a | ⟨a1, a2⟩
            · rw [a]; exact p2 j
            · right
              have e := hlive a1
              rw [e] at a1 a2
              exact ⟨hk1, a1, a2⟩
          · rw [f4 j hj]; exact p2 j
        · intro a ha hb
          rw [f10 a ?_ ?_]
          · exact p6 a ha hb
          · intro hl
            have e := hlive hl
            rw [e] at hl ⊢
            exact ha k hk1 (by omega) hl
          · intro k1 hk
            rw [p3]
            exact hb k1 (le_trans p4 hk))
    obtain ⟨k1, k2, _, _, k5, k6⟩ := key
    refine ⟨k1, ?_, k6, k5⟩
    intro j hj
    rcases k2 j with a | ⟨a, _⟩
    · exact a
    · omega
  · have key := forRange_state
      (fun st i => if (st.elem i).obj ≠ NULL then updateJObject st (st.elem i).obj
                   else Result.ok () st)
      (fun st => st.nativeArrayTable = s.nativeArrayTable ∧
        st.nativeArrayTableHwm = s.nativeArrayTableHwm ∧
        st.nativeArrayTableLength = s.nativeArrayTableLength ∧
        st.env.oop = s.env.oop ∧
        (∀ a, (∀ i k, s.nativeArrayTableHwmStack (s.callDepth - 1) ≤ i →
              i < s.nativeArrayTableHwm → (s.elem i).obj ≠ NULL → k < s.nativeArrayTableHwm →
              Mirrors s.env (s.elem k) (s.elem i).obj → s.env.oop (s.elem k).jArray ≠ a) →
          st.env.arrays a = s.env.arrays a))
      (s.nativeArrayTableHwm - s.nativeArrayTableHwmStack (s.callDepth - 1))
      (s.nativeArrayTableHwmStack (s.callDepth - 1)) s
      ⟨rfl, rfl, rfl, rfl, fun _ _ => rfl⟩
      (by
        intro st i hi1 hi2 hP
        obtain ⟨p1, p2, p3, p4, p5⟩ := hP
        have he : ∀ j, st.elem j = s.elem j := by
          intro j; simp only [State.elem, p1]
        simp only []
        by_cases hl : (st.elem i).obj ≠ NULL
        · rw [if_pos hl]
          obtain ⟨f1, f2, f3, _, _, f6, f7⟩ := updateJObject_frame st (st.elem i).obj
          refine ⟨by rw [f1, p1], by rw [f2, p2], by rw [f3, p3], by rw [f6, p4], ?_⟩
          intro a ha
          rw [f7 a ?_]
          · exact p5 a ha
          · intro k hk hm
            rw [he k, p4]
            rw [p2] at hk
            rw [he i] at hl
            refine ha i k hi1 (by omega) hl hk ?_
            unfold Mirrors at hm ⊢
            rw [he k, he i, fast_IsSameObject_congr _ _ p4] at hm
            exact hm
        · rw [if_neg hl]
          exact ⟨p1, p2, p3, p4, p5⟩)
    obtain ⟨k1, k2, k3, _, k5⟩ := key
    refine ⟨k1, k2, k3, ?_⟩
    intro a ha
    by_contra hno
    apply ha
    apply k5 a
    intro i k h1 h2 h3 h4 h5 h6
    exact hno ⟨i, k, h1, h2, h3, h4, h5, h6.symm⟩

/-- Witness for C20: in `stateFrames` the innermost frame starts at index `1`.
The refresh copies array `1002` into the buffer `4001` of entry `1` and leaves
entry `0` and its buffer `4000`; the push-back copies the buffer `4001` into
array `1002` and leaves array `1001` of entry `0`. -/
theorem update_frame_scoped_witness :
    (updateNativeArrays stateFrames).isOk = true ∧
    (updateNativeArrays stateFrames).state.elem 0 = stateFrames.elem 0 ∧
    (updateNativeArrays stateFrames).state.env.cmem 4000 = [10] ∧
    (updateNativeArrays stateFrames).state.env.cmem 4001 = [2] ∧
    (updateJObjects stateFrames).isOk = true ∧
    (updateJObjects stateFrames).state.nativeArrayTable = stateFrames.nativeArrayTable ∧
    (updateJObjects stateFrames).state.env.arrays 1002 = [20] ∧
    (updateJObjects stateFrames).state.env.arrays 1001 = [1] := by
  have h := update_frame_scoped stateFrames
  refine ⟨by decide, h.1.2.1 0 (by decide), ?_, by decide, by decide, h.2.1, by decide, ?_⟩
  · rw [h.1.2.2.1 4000 ?_ ?_]
    · decide
    · intro i h1 h2 _
      have h1 : 1 ≤ i := h1
      have h2 : i < 2 := h2
      have hi : i = 1 := by omega
      subst hi
      decide
    · intro k _
      show 5000 + k ≠ 4000
      omega
  · by_contra hne
    have hch : (updateJObjects stateFrames).state.env.arrays 1001 ≠ stateFrames.env.arrays 1001 :=
      hne
    obtain ⟨i, k, h1, h2, _, h4, h5, h6⟩ := h.2.2.2.2 1001 hch
    have h1 : 1 ≤ i := h1
    have h2 : i < 2 := h2
    have h4 : k < 2 := h4
    have hi : i = 1 := by omega
    subst hi
    interval_cases k
    · revert h5; decide
    · revert h6; decide

/-! ## C1: identity stability, the calls in between -/

/-- A call that only shrinks the state and keeps the entries of `x` keeps the
cached buffer of `x`. -/
theorem cached_of_shrinks (x : SEXP) (p : Ptr) (s st : State) (c : Cached x p s)
    (hs : Shrinks s st)
    (hkeep : ∀ i, Mirrors s.env (s.elem i) x → st.elem i = s.elem i) :
    Cached x p st := by
  have hhwm : st.nativeArrayTableHwm = s.nativeArrayTableHwm := by rw [hs.frame]
  have hlen : st.nativeArrayTableLength = s.nativeArrayTableLength := by rw [hs.frame]
  refine ⟨?_, ?_, ⟨by rw [hs.len, hlen]; exact c.wf.1, by rw [hlen]; exact c.wf.2.1,
    by rw [hhwm, hlen]; exact c.wf.2.2⟩⟩
  · obtain ⟨j, hj, hm⟩ := c.ex
    refine ⟨j, by rw [hhwm]; exact hj, ?_⟩
    rw [hkeep j hm, Mirrors, fast_IsSameObject_congr _ _ hs.oop]
    exact hm
  · intro k hk hm
    rw [hhwm] at hk
    rcases hs.elems k with a | a
    · rw [a, Mirrors, fast_IsSameObject_congr _ _ hs.oop] at hm
      rw [a]; exact c.all k hk hm
    · rw [a] at hm; exact absurd rfl hm.1

/-- Invalidating a reference that is not identical to `x` keeps the entries of `x`. -/
theorem invalidateNativeArray_other (NA_INTEGER : Int) (s st : State) (x y : SEXP)
    (hyx : fast_IsSameObject s.env y x = false)
    (h : invalidateNativeArray NA_INTEGER s y = Result.ok () st) :
    ∀ i, Mirrors s.env (s.elem i) x → st.elem i = s.elem i := by
  obtain ⟨_, _, _, _, _, h6, _⟩ := invalidateNativeArray_spec NA_INTEGER s st y h
  intro i hm
  rw [h6 i, if_neg]
  rintro ⟨_, hs⟩
  have := fast_IsSameObject_trans s.env y (s.elem i).obj x
    (fast_IsSameObject_symm _ _ _ hs) hm.2
  rw [hyx] at this
  exact Bool.false_ne_true this

/-- `updateJObjects` leaves the mirror table as it is. -/
theorem updateJObjects_table (s st : State) (h : updateJObjects s = Result.ok () st) :
    st.nativeArrayTable = s.nativeArrayTable := by
  exact forRange_ok
    (fun st i => if (st.elem i).obj ≠ NULL then updateJObject st (st.elem i).obj
                 else Result.ok () st)
    (fun _ t => t.nativeArrayTable = s.nativeArrayTable)
    _ _ s st h rfl
    (by
      intro k t t1 _ _ hP hb
      simp only [] at hb
      split at hb
      · have key := (updateJObject_frame t (t.elem k).obj).1
        rw [hb] at key
        exact key.trans hP
      · cases hb; exact hP)

/-- The refresh of an entry that is not stale leaves the mirror table as it is. -/
theorem updateNativeArray_fresh (s st : State) (i : Nat)
    (hf : (s.elem i).type ≠ SEXPTYPE.CHARSXP →
      fast_IsSameObject s.env (s.env.upcall (s.elem i).obj (s.elem i).type) (s.elem i).jArray
        = true)
    (h : updateNativeArray s i = Result.ok () st) :
    st.nativeArrayTable = s.nativeArrayTable := by
  unfold updateNativeArray at h
  simp only [] at h
  by_cases hc : (s.elem i).obj ≠ NULL ∧ (s.elem i).type ≠ SEXPTYPE.CHARSXP
  · rw [if_pos hc] at h
    have hsame := hf hc.2
    cases hj : getJArray s.env (s.elem i).obj (s.elem i).type with
    | none => rw [hj] at h; cases h
    | some current =>
      have hcur : current = s.env.upcall (s.elem i).obj (s.elem i).type := by
        cases ht : (s.elem i).type <;> rw [ht] at hj <;> simp only [getJArray] at hj <;>
          first
            | (cases hj; rfl)
            | cases hj
      rw [hj] at h
      simp only [] at h
      rw [hcur, if_pos hsame] at h
      split at h
      · cases h; rfl
      · cases h; rfl
      · cases h; rfl
      · split at h
        · cases h
        · cases h; rfl
      · cases h
  · rw [if_neg hc] at h
    cases h; rfl

/-- A refresh that finds no stale entry of `x` in the innermost frame keeps the
entries of `x`. -/
theorem updateNativeArrays_fresh (s st : State) (x : SEXP)
    (hf : ∀ i, i < s.nativeArrayTableHwm →
      s.nativeArrayTableHwmStack (s.callDepth - 1) ≤ i → Mirrors s.env (s.elem i) x →
      (s.elem i).type ≠ SEXPTYPE.CHARSXP →
      fast_IsSameObject s.env (s.env.upcall (s.elem i).obj (s.elem i).type) (s.elem i).jArray
        = true)
    (h : updateNativeArrays s = Result.ok () st) :
    ∀ i, Mirrors s.env (s.elem i) x → st.elem i = s.elem i := by
  have key := forRange_ok updateNativeArray
    (fun _ t => t.env.oop = s.env.oop ∧ t.env.upcall = s.env.upcall ∧
      ∀ i, Mirrors s.env (s.elem i) x → t.elem i = s.elem i)
    _ _ s st h ⟨rfl, rfl, fun _ _ => rfl⟩
    (by
      intro k t t1 hk1 hk2 ⟨h1, h2, h3⟩ hb
      obtain ⟨_, e⟩ := updateNativeArray_keeps t t1 k hb
      refine ⟨e.oop.trans h1, e.upcall.trans h2, ?_⟩
      intro i hm
      by_cases hik : i = k
      · subst hik
        have hsame := h3 i hm
        have htab := updateNativeArray_fresh t t1 i
          (by
            intro ht
            rw [hsame] at ht ⊢
            rw [fast_IsSameObject_congr _ _ h1, h2]
            exact hf i (by omega) hk1 hm ht)
          hb
        simp only [State.elem, htab]
        exact hsame
      · have hfr := (updateNativeArray_frame t k).2.2.2.1 i hik
        rw [hb] at hfr
        exact hfr.trans (h3 i hm))
  exact key.2.2

/-- A call that returns and is no invalidation of `x` keeps the cached buffer
of `x`. -/
theorem cached_step (NA_INTEGER : Int) (x : SEXP) (p : Ptr) (hp : p ≠ NULL) (st s1 : State)
    (op : Op) (ops : List Op) (c : Cached x p st)
    (hno : noInvalidation NA_INTEGER x st (op :: ops) = true)
    (hs : step NA_INTEGER st op = Result.ok () s1) :
    Cached x p s1 ∧ noInvalidation NA_INTEGER x s1 ops = true := by
  simp only [noInvalidation, Bool.and_eq_true, hs, Result.state] at hno
  refine ⟨?_, hno.2⟩
  have hcond := hno.1
  cases op with
  | callEnter j => exact cached_callEnter x p st s1 j c hs
  | getNativeArray y type =>
    simp only [step] at hs
    cases hg : getNativeArray NA_INTEGER st y type with
    | fatal msg s2 => rw [hg] at hs; cases hs
    | crash s2 => rw [hg] at hs; cases hs
    | ok q s2 =>
      rw [hg] at hs
      cases hs
      exact cached_getNativeArray NA_INTEGER x p st s1 y type q hp c hg
  | callExit => simp at hcond
  | invalidateNativeArray y =>
    have hyx : fast_IsSameObject st.env y x = false := by simpa using hcond
    exact cached_of_shrinks x p st s1 c
      (step_shrinks NA_INTEGER st s1 _ (by simp) (by simp) (by simp) hs)
      (invalidateNativeArray_other NA_INTEGER st s1 x y hyx hs)
  | updateNativeArrays =>
    have hf := of_decide_eq_true hcond
    exact cached_of_shrinks x p st s1 c
      (step_shrinks NA_INTEGER st s1 _ (by simp) (by simp) (by simp) hs)
      (updateNativeArrays_fresh st s1 x hf hs)
  | updateJObjects =>
    have htab := updateJObjects_table st s1 hs
    exact cached_of_shrinks x p st s1 c
      (step_shrinks NA_INTEGER st s1 _ (by simp) (by simp) (by simp) hs)
      (fun i _ => by simp only [State.elem, htab])

/-- Calls that return and include no invalidation of `x` keep the cached buffer
of `x`. -/
theorem cached_run (NA_INTEGER : Int) (x : SEXP) (p : Ptr) (hp : p ≠ NULL) :
    ∀ (ops : List Op) (st : State), noInvalidation NA_INTEGER x st ops = true → Cached x p st →
      (run NA_INTEGER st ops).isOk = true → Cached x p (run NA_INTEGER st ops).state := by
  intro ops
  induction ops with
  | nil => intro st _ c _; exact c
  | cons op ops ih =>
    intro st hk c hok
    rw [run_cons] at hok ⊢
    cases hs : step NA_INTEGER st op with
    | fatal msg s1 => rw [hs] at hok; cases hok
    | crash s1 => rw [hs] at hok; cases hok
    | ok u s1 =>
      rw [hs] at hok
      simp only [] at hok ⊢
      obtain ⟨c1, hk1⟩ := cached_step NA_INTEGER x p hp st s1 op ops c hk hs
      exact ih s1 hk1 c1 hok

/-- C1 as stated fails. The object `1` is an empty boolean vector and `malloc(0)`
returns `NULL`, as C allows. The first `getNativeArray` returns `NULL` and
appends an entry. The second one, with nothing in between, finds that entry
with its null buffer, extracts again (two more blocks are taken from the
allocator) and appends a second entry: the high-water mark is 2 after the
second call and 1 after the first. -/
theorem getNativeArray_twice_counterexample :
    (getNativeArray R_NaInt stateNull 1 SEXPTYPE.LGLSXP).val? = some NULL ∧
    (getNativeArray R_NaInt stateNull 1 SEXPTYPE.LGLSXP).state.nativeArrayTableHwm = 1 ∧
    (getNativeArray R_NaInt stateNull 1 SEXPTYPE.LGLSXP).state.env.nalloc = 2 ∧
    (getNativeArray R_NaInt (getNativeArray R_NaInt stateNull 1 SEXPTYPE.LGLSXP).state 1
      SEXPTYPE.LGLSXP).val? = some NULL ∧
    (getNativeArray R_NaInt (getNativeArray R_NaInt stateNull 1 SEXPTYPE.LGLSXP).state 1
      SEXPTYPE.LGLSXP).state.nativeArrayTableHwm = 2 ∧
    (getNativeArray R_NaInt (getNativeArray R_NaInt stateNull 1 SEXPTYPE.LGLSXP).state 1
      SEXPTYPE.LGLSXP).state.env.nalloc = 4 ∧
    (getNativeArray R_NaInt (getNativeArray R_NaInt stateNull 1 SEXPTYPE.LGLSXP).state 1
      SEXPTYPE.LGLSXP).state.elem 1 = ⟨SEXPTYPE.LGLSXP, 1, 1001, NULL⟩ := by
  decide

/-- C1, as amended. Let `O` be a non-null reference, in a well-formed state where
the live entries of `O` (at most one, by the invariant of the table) record
one and the same non-null buffer. If `getNativeArray(O, kind)` returns a
non-null buffer `p`, then after any further calls that return and include no
invalidation of `O` (no `callExit`, no `invalidateNativeArray` of a reference
identical to `O`, no `updateNativeArrays` that finds in the innermost frame a
live entry of `O` whose recorded array is not the present backing array of
its source object; every `callEnter`, `getNativeArray`, `updateJObjects`,
`invalidateNativeArray` of another object and every other
`updateNativeArrays` is allowed), `getNativeArray(O, kind)` returns `p` again,
and it extracts nothing and appends nothing: table, high-water mark,
capacity and environment are the same after the second call as before it. -/
theorem getNativeArray_twice (NA_INTEGER : Int) (s : State) (x : SEXP) (type : SEXPTYPE)
    (p : Ptr) (mid : List Op)
    (hx : x ≠ NULL) (hwf : WF s)
    (hone : ∀ i j, i < s.nativeArrayTableHwm → j < s.nativeArrayTableHwm →
      Mirrors s.env (s.elem i) x → Mirrors s.env (s.elem j) x →
      (s.elem i).data = (s.elem j).data)
    (hnn : ∀ i, i < s.nativeArrayTableHwm → Mirrors s.env (s.elem i) x → (s.elem i).data ≠ NULL)
    (h1 : (getNativeArray NA_INTEGER s x type).val? = some p) (hp : p ≠ NULL)
    (hmid : noInvalidation NA_INTEGER x (getNativeArray NA_INTEGER s x type).state mid = true)
    (hrun : (run NA_INTEGER (getNativeArray NA_INTEGER s x type).state mid).isOk = true) :
    ∃ s3,
      getNativeArray NA_INTEGER (run NA_INTEGER (getNativeArray NA_INTEGER s x type).state mid).state
        x type = Result.ok p s3 ∧
      s3.nativeArrayTable
        = (run NA_INTEGER (getNativeArray NA_INTEGER s x type).state mid).state.nativeArrayTable ∧
      s3.nativeArrayTableHwm
        = (run NA_INTEGER (getNativeArray NA_INTEGER s x type).state mid).state.nativeArrayTableHwm ∧
      s3.nativeArrayTableLength
        = (run NA_INTEGER (getNativeArray NA_INTEGER s x type).state mid).state.nativeArrayTableLength ∧
      s3.env = (run NA_INTEGER (getNativeArray NA_INTEGER s x type).state mid).state.env ∧
      s3.callDepth = (run NA_INTEGER (getNativeArray NA_INTEGER s x type).state mid).state.callDepth := by
  cases hg : getNativeArray NA_INTEGER s x type with
  | fatal msg s1 => rw [hg] at h1; cases h1
  | crash s1 => rw [hg] at h1; cases h1
  | ok q s1 =>
    rw [hg] at h1 hrun hmid
    simp only [Result.val?, Option.some.injEq] at h1
    subst h1
    simp only [Result.state] at hrun hmid ⊢
    have c1 := cached_first NA_INTEGER s s1 x type q hx hwf hone hnn hg
    have c2 := cached_run NA_INTEGER x q hp mid s1 hmid c1 hrun
    refine ⟨_, cached_hit NA_INTEGER x q type _ hp c2, ?_, ?_, ?_, ?_, ?_⟩ <;>
      rw [findNativeArray_state]

/-- Witness for C1: object `1` is acquired; then object `2` is acquired and
invalidated, the frame is pushed back and refreshed (the entry of object `1`
is in it and is not stale), a call is entered and object `3` is acquired;
acquiring object `1` again returns the first buffer and appends nothing. -/
theorem getNativeArray_twice_witness :
    ∃ s3,
      getNativeArray R_NaInt
        (run R_NaInt (getNativeArray R_NaInt state0 1 SEXPTYPE.INTSXP).state
          [Op.getNativeArray 2 SEXPTYPE.LGLSXP, Op.invalidateNativeArray 2, Op.updateJObjects,
            Op.updateNativeArrays, Op.callEnter 7, Op.getNativeArray 3 SEXPTYPE.INTSXP]).state
        1 SEXPTYPE.INTSXP
        = Result.ok 5000 s3 ∧
      s3.nativeArrayTableHwm = 3 := by
  obtain ⟨s3, h1, _, h3, _⟩ :=
    getNativeArray_twice R_NaInt state0 1 SEXPTYPE.INTSXP 5000
      [Op.getNativeArray 2 SEXPTYPE.LGLSXP, Op.invalidateNativeArray 2, Op.updateJObjects,
        Op.updateNativeArrays, Op.callEnter 7, Op.getNativeArray 3 SEXPTYPE.INTSXP]
      (by decide) (by decide)
      (fun i j hi => absurd hi (Nat.not_lt_zero i)) (fun i hi => absurd hi (Nat.not_lt_zero i))
      (by decide) (by decide) (by decide) (by decide)
  exact ⟨s3, h1, h3.trans (by decide)⟩

/-! ## C21: the last-hit cache -/

/-- The scan loop of `findNativeArray` is the search for the first live entry
identical to the object among the indices it visits. -/
theorem findScan_eq_find (s : State) (x : SEXP) :
    ∀ (n i : Nat), findScan s x i n
      = (List.range' i n).find? (fun j => decide (Mirrors s.env (s.elem j) x)) := by
  intro n
  induction n with
  | zero => intro i; rfl
  | succ n ih =>
    intro i
    rw [List.range'_succ, List.find?_cons]
    simp only [findScan]
    by_cases hc : (s.elem i).obj ≠ NULL ∧ fast_IsSameObject s.env (s.elem i).obj x = true
    · rw [if_pos hc]
      have hd : decide (Mirrors s.env (s.elem i) x) = true := decide_eq_true hc
      rw [hd]
    · rw [if_neg hc]
      have hd : decide (Mirrors s.env (s.elem i) x) = false := decide_eq_false hc
      rw [hd]
      exact ih (i + 1)

/-- What the plain scan returns is the first live entry identical to the object. -/
theorem plainLinearScan_eq (s : State) (x : SEXP) :
    plainLinearScan s x = findScan s x 0 s.nativeArrayTableHwm := by
  unfold plainLinearScan
  rw [findScan_eq_find, List.range_eq_range']

/-- C21. In a table with at most one live entry per object, for every value of
`nativeArrayTableLastIndex` and every object `x`, `findNativeArray` returns
the entry that the plain linear scan of `[0, hwm)` returns, and it returns
none exactly when no live entry below the high-water mark is identical to
`x`; it changes nothing but `nativeArrayTableLastIndex`. -/
theorem findNativeArray_refines (s : State) (x : SEXP) (li : Nat) (hu : Unique s) :
    (findNativeArray { s with nativeArrayTableLastIndex := li } x).1 = plainLinearScan s x ∧
    ((findNativeArray { s with nativeArrayTableLastIndex := li } x).1 = none ↔
      ∀ j, j < s.nativeArrayTableHwm → ¬ Mirrors s.env (s.elem j) x) ∧
    (findNativeArray { s with nativeArrayTableLastIndex := li } x).2
      = { s with nativeArrayTableLastIndex :=
            (findNativeArray { s with nativeArrayTableLastIndex := li } x).2.nativeArrayTableLastIndex } := by
  refine ⟨?_, ?_, findNativeArray_state _ x⟩
  · rw [plainLinearScan_eq]
    cases hp : findScan s x 0 s.nativeArrayTableHwm with
    | none =>
      apply findNativeArray_eq_none
      intro j hj hm
      exact findScan_none s x _ _ hp j (Nat.zero_le _) (by simpa using hj) hm
    | some k =>
      obtain ⟨_, k2, k3, k4, _⟩ := findScan_some s x _ _ k hp
      obtain ⟨m, hm⟩ := findNativeArray_isSome { s with nativeArrayTableLastIndex := li } x k
        (by simpa using k2) k3 k4
      obtain ⟨m1, m2, m3⟩ := findNativeArray_some _ x m hm
      rw [hm]
      have hsame : fast_IsSameObject s.env (s.elem m).obj (s.elem k).obj = true :=
        fast_IsSameObject_trans s.env _ _ _ m3 (fast_IsSameObject_symm s.env _ _ k4)
      rw [hu m m1 k (by simpa using k2) m2 k3 hsame]
  · constructor
    · intro h j hj
      exact findNativeArray_none { s with nativeArrayTableLastIndex := li } x h j hj
    · intro h
      exact findNativeArray_eq_none { s with nativeArrayTableLastIndex := li } x h

/-- Witness for C21: in `stateTwo` object `1` is at index `0`; with the last hit
at index `1`, and with a last hit left at index `5` above the high-water mark,
`findNativeArray` returns index `0`, as the plain scan does. -/
theorem findNativeArray_refines_witness :
    (findNativeArray { stateTwo with nativeArrayTableLastIndex := 1 } 1).1 = some 0 ∧
    (findNativeArray { stateTwo with nativeArrayTableLastIndex := 5 } 1).1 = some 0 ∧
    plainLinearScan stateTwo 1 = some 0 := by
  have h1 := (findNativeArray_refines stateTwo 1 1 (by decide)).1
  have h5 := (findNativeArray_refines stateTwo 1 5 (by decide)).1
  have hp : plainLinearScan stateTwo 1 = some 0 := by decide
  rw [hp] at h1 h5
  exact ⟨h1, h5, hp⟩

/-! ## C22: where `callEnter` writes -/

/-- C22, the code at the failing input. After sixteen nested `callEnter` from
the initial state the depth is `16` and slot `16` of neither stack has been
written. A further `callEnter` stores its recovery point at index `16` of
`callErrorJmpBufTable`, past its sixteen slots, and only then reaches the
overflow check and ends in the fatal error; the mark stack is written after
the check and stays as it was. At every depth the recovery point is stored
at index `callDepth`, whether the call returns or not. -/
theorem callEnter_store_before_check :
    (run R_NaInt (init_utils env0) (List.replicate 16 (Op.callEnter 7))).isOk = true ∧
    (run R_NaInt (init_utils env0) (List.replicate 16 (Op.callEnter 7))).state.callDepth = 16 ∧
    (run R_NaInt (init_utils env0)
      (List.replicate 16 (Op.callEnter 7))).state.callErrorJmpBufTable 16 = NULL ∧
    (callEnter (run R_NaInt (init_utils env0)
      (List.replicate 16 (Op.callEnter 7))).state 8).isOk = false ∧
    (callEnter (run R_NaInt (init_utils env0)
      (List.replicate 16 (Op.callEnter 7))).state 8).state.callErrorJmpBufTable 16 = 8 ∧
    (callEnter (run R_NaInt (init_utils env0)
      (List.replicate 16 (Op.callEnter 7))).state 8).state.nativeArrayTableHwmStack 16 = 0 ∧
    (∀ (s : State) (jmpbuf : Ptr),
      (callEnter s jmpbuf).state.callErrorJmpBufTable s.callDepth = jmpbuf) := by
  refine ⟨by decide, by decide, by decide, by decide, by decide, by decide, ?_⟩
  intro s jmpbuf
  unfold callEnter
  simp only []
  split <;> simp [Result.state]

/-! ## C23: the requested kind on a hit -/

/-- C23, as amended. Let entry `i` be the one live entry below the high-water mark that is
identical to the object `x`, with a non-null buffer. For every requested
kind, supported or not, `getNativeArray(x, kind)` returns, with the buffer
recorded in entry `i`; the table, its high-water mark, its capacity and the
environment are as before (no extraction, no new entry), so the entry keeps
the kind it was registered with. -/
theorem getNativeArray_hit_any_kind (NA_INTEGER : Int) (s : State) (x : SEXP) (i : Nat)
    (type : SEXPTYPE)
    (hi : i < s.nativeArrayTableHwm) (hm : Mirrors s.env (s.elem i) x)
    (hdata : (s.elem i).data ≠ NULL)
    (honly : ∀ j, j < s.nativeArrayTableHwm → j ≠ i → ¬ Mirrors s.env (s.elem j) x) :
    ∃ st, getNativeArray NA_INTEGER s x type = Result.ok (s.elem i).data st ∧
      st.nativeArrayTable = s.nativeArrayTable ∧
      st.nativeArrayTableHwm = s.nativeArrayTableHwm ∧
      st.nativeArrayTableLength = s.nativeArrayTableLength ∧
      st.env = s.env ∧
      (st.elem i).type = (s.elem i).type := by
  obtain ⟨m, hfm⟩ := findNativeArray_isSome s x i hi hm.1 hm.2
  obtain ⟨m1, m2, m3⟩ := findNativeArray_some s x m hfm
  have hmi : m = i := by
    by_contra hne
    exact honly m m1 hne ⟨m2, m3⟩
  subst hmi
  have hfs := findNativeArray_state s x
  refine ⟨(findNativeArray s x).2, getNativeArray_hit NA_INTEGER s x type m hfm hdata, ?_, ?_, ?_,
    ?_, ?_⟩
  · rw [hfs]
  · rw [hfs]
  · rw [hfs]
  · rw [hfs]
  · rw [hfs]; rfl

/-- Witness for C23: object `1` is acquired as an integer vector from the
initial state; asking for it again as a boolean vector, and with a kind that
`getNativeArray` rejects on a miss, returns the same buffer `5000`, and the
entry still has the kind `INTSXP`. -/
theorem getNativeArray_hit_any_kind_witness :
    (getNativeArray R_NaInt state0 1 SEXPTYPE.INTSXP).val? = some 5000 ∧
    (∃ st, getNativeArray R_NaInt (getNativeArray R_NaInt state0 1 SEXPTYPE.INTSXP).state 1
        SEXPTYPE.LGLSXP = Result.ok 5000 st ∧
      st.elem 0 = ⟨SEXPTYPE.INTSXP, 1, 1001, 5000⟩) ∧
    (∃ st, getNativeArray R_NaInt (getNativeArray R_NaInt state0 1 SEXPTYPE.INTSXP).state 1
        (SEXPTYPE.OTHER 99) = Result.ok 5000 st ∧
      st.elem 0 = ⟨SEXPTYPE.INTSXP, 1, 1001, 5000⟩) := by
  have he : (getNativeArray R_NaInt state0 1 SEXPTYPE.INTSXP).state.elem 0
      = ⟨SEXPTYPE.INTSXP, 1, 1001, 5000⟩ := by decide
  refine ⟨by decide, ?_, ?_⟩
  · obtain ⟨st, h0, h1, _⟩ := getNativeArray_hit_any_kind R_NaInt
      (getNativeArray R_NaInt state0 1 SEXPTYPE.INTSXP).state 1 0 SEXPTYPE.LGLSXP
      (by decide) (by decide) (by decide) (by decide)
    rw [he] at h0
    exact ⟨st, h0, by simp only [State.elem, h1]; exact he⟩
  · obtain ⟨st, h0, h1, _⟩ := getNativeArray_hit_any_kind R_NaInt
      (getNativeArray R_NaInt state0 1 SEXPTYPE.INTSXP).state 1 0 (SEXPTYPE.OTHER 99)
      (by decide) (by decide) (by decide) (by decide)
    rw [he] at h0
    exact ⟨st, h0, by simp only [State.elem, h1]; exact he⟩

/-- C23 as stated fails. Where `malloc(0)` returns `NULL`, object `1` is acquired
first as an empty boolean vector (entry `0`, null buffer) and then as an
integer vector (entry `1`, buffer `5002`): it has a live integer entry with a
non-null buffer. `getNativeArray` still finds entry `0`: with a kind it
rejects it ends in the fatal error, and with the kind `INTSXP` it extracts
again, appends an entry and does not return `5002`. -/
theorem getNativeArray_hit_any_kind_counterexample :
    (run R_NaInt (init_utils envNull)
      [Op.getNativeArray 1 SEXPTYPE.LGLSXP, Op.getNativeArray 1 SEXPTYPE.INTSXP]).isOk = true ∧
    (run R_NaInt (init_utils envNull)
      [Op.getNativeArray 1 SEXPTYPE.LGLSXP,
        Op.getNativeArray 1 SEXPTYPE.INTSXP]).state.nativeArrayTableHwm = 2 ∧
    (run R_NaInt (init_utils envNull)
      [Op.getNativeArray 1 SEXPTYPE.LGLSXP, Op.getNativeArray 1 SEXPTYPE.INTSXP]).state.elem 0
        = ⟨SEXPTYPE.LGLSXP, 1, 1001, NULL⟩ ∧
    (run R_NaInt (init_utils envNull)
      [Op.getNativeArray 1 SEXPTYPE.LGLSXP, Op.getNativeArray 1 SEXPTYPE.INTSXP]).state.elem 1
        = ⟨SEXPTYPE.INTSXP, 1, 1001, 5002⟩ ∧
    (getNativeArray R_NaInt (run R_NaInt (init_utils envNull)
      [Op.getNativeArray 1 SEXPTYPE.LGLSXP, Op.getNativeArray 1 SEXPTYPE.INTSXP]).state 1
        (SEXPTYPE.OTHER 99)).isOk = false ∧
    (getNativeArray R_NaInt (run R_NaInt (init_utils envNull)
      [Op.getNativeArray 1 SEXPTYPE.LGLSXP, Op.getNativeArray 1 SEXPTYPE.INTSXP]).state 1
        SEXPTYPE.INTSXP).val? ≠ some 5002 ∧
    (getNativeArray R_NaInt (run R_NaInt (init_utils envNull)
      [Op.getNativeArray 1 SEXPTYPE.LGLSXP, Op.getNativeArray 1 SEXPTYPE.INTSXP]).state 1
        SEXPTYPE.INTSXP).state.nativeArrayTableHwm = 3 := by
  decide

/-! ## C24: create-or-find and the permanent flag -/

/-- C24 as stated fails. `addGlobalRef` caches object `5` twice from the initial
state, with a non-permanent reference `9000` and a permanent one `9001`.
`createGlobalRef(5, 1)` returns `9000` and changes nothing, the release
clears the entry of `9000`, and `findCachedGlobalRef(5)` then returns `9001`,
not `NULL`. -/
theorem createGlobalRef_keeps_flag_counterexample :
    (addGlobalRef (addGlobalRef state0 5 0).state 5 1).state.gelem 0 = ⟨0, 9000⟩ ∧
    (addGlobalRef (addGlobalRef state0 5 0).state 5 1).state.gelem 1 = ⟨1, 9001⟩ ∧
    (createGlobalRef (addGlobalRef (addGlobalRef state0 5 0).state 5 1).state 5 1).val?
      = some 9000 ∧
    (createGlobalRef (addGlobalRef (addGlobalRef state0 5 0).state 5 1).state 5 1).state.gelem 0
      = ⟨0, 9000⟩ ∧
    (releaseGlobalRef (createGlobalRef
      (addGlobalRef (addGlobalRef state0 5 0).state 5 1).state 5 1).state 5).isOk = true ∧
    (releaseGlobalRef (createGlobalRef
      (addGlobalRef (addGlobalRef state0 5 0).state 5 1).state 5 1).state 5).state.gelem 0
      = ⟨0, NULL⟩ ∧
    findCachedGlobalRef (releaseGlobalRef (createGlobalRef
      (addGlobalRef (addGlobalRef state0 5 0).state 5 1).state 5 1).state 5).state 5 = 9001 ∧
    (9001 : SEXP) ≠ NULL := by
  decide

/-- C24, as amended. Let entry `k` of the global reference table be a
non-cleared, non-permanent entry identical to the object.
`createGlobalRef(object, 1)` returns the reference of a non-cleared entry
identical to the object (that of entry `k` when it is the only one) and
leaves the state as it was, so the flag of entry `k` stays `0`; a following
`releaseGlobalRef(object)` returns and clears entry `k`; and when no
non-cleared entry identical to the object is permanent,
`findCachedGlobalRef(object)` then returns `NULL`. -/
theorem createGlobalRef_keeps_flag (s : State) (obj : SEXP) (k : Nat)
    (hk : k < s.cachedGlobalRefsHwm) (hg : (s.gelem k).gref ≠ NULL)
    (hsame : fast_IsSameObject s.env (s.gelem k).gref obj = true)
    (hflag : (s.gelem k).permanent = 0) :
    (∃ m, m < s.cachedGlobalRefsHwm ∧ (s.gelem m).gref ≠ NULL ∧
      fast_IsSameObject s.env (s.gelem m).gref obj = true ∧
      createGlobalRef s obj 1 = Result.ok (s.gelem m).gref s) ∧
    ((∀ j, j < s.cachedGlobalRefsHwm → j ≠ k →
        ¬ ((s.gelem j).gref ≠ NULL ∧ fast_IsSameObject s.env (s.gelem j).gref obj = true)) →
      createGlobalRef s obj 1 = Result.ok (s.gelem k).gref s) ∧
    ((createGlobalRef s obj 1).state.gelem k).permanent = 0 ∧
    (∃ st, releaseGlobalRef (createGlobalRef s obj 1).state obj = Result.ok () st ∧
      (st.gelem k).gref = NULL ∧ (st.gelem k).permanent = 0 ∧
      ((∀ j, j < s.cachedGlobalRefsHwm → (s.gelem j).gref ≠ NULL →
          fast_IsSameObject s.env (s.gelem j).gref obj = true → (s.gelem j).permanent = 0) →
        findCachedGlobalRef st obj = NULL)) := by
  have hhit : findCachedGlobalRef s obj ≠ NULL := by
    intro h
    exact (findCachedGlobalRef_null s obj).mp h k hk ⟨hg, hsame⟩
  have hfind : ∃ m, m < s.cachedGlobalRefsHwm ∧ (s.gelem m).gref ≠ NULL ∧
      fast_IsSameObject s.env (s.gelem m).gref obj = true ∧
      findCachedGlobalRef s obj = (s.gelem m).gref := by
    unfold findCachedGlobalRef at hhit ⊢
    rcases findCachedGlobalRefFrom_spec s obj s.cachedGlobalRefsHwm 0 with
      ⟨a, _⟩ | ⟨m, _, b, c, d, e⟩
    · exact absurd a hhit
    · exact ⟨m, by omega, c, d, e⟩
  obtain ⟨m, m1, m2, m3, m4⟩ := hfind
  have hcreate : createGlobalRef s obj 1 = Result.ok (s.gelem m).gref s := by
    unfold createGlobalRef
    rw [if_neg hhit, m4]
  have hstate : (createGlobalRef s obj 1).state = s := by rw [hcreate]; rfl
  refine ⟨⟨m, m1, m2, m3, hcreate⟩, ?_, by rw [hstate]; exact hflag, ?_⟩
  · intro honly
    have hmk : m = k := by
      by_contra hne
      exact honly m m1 hne ⟨m2, m3⟩
    rw [← hmk]
    exact hcreate
  · rw [hstate]
    obtain ⟨st, r0, r1, _, _, r4, r5, r6⟩ := releaseGlobalRef_spec s obj
    have hck : st.gelem k = { s.gelem k with gref := NULL } := r5 k ⟨hk, hflag, hg, hsame⟩
    refine ⟨st, r0, by rw [hck], by rw [hck]; exact hflag, ?_⟩
    intro hnoperm
    rw [findCachedGlobalRef_null]
    intro j hj hmatch
    rw [r1] at hj
    by_cases hc : Cleared s obj j
    · rw [r5 j hc] at hmatch
      exact hmatch.1 rfl
    · rw [r6 j hc, fast_IsSameObject_congr _ _ r4] at hmatch
      exact hc ⟨hj, hnoperm j hj hmatch.1 hmatch.2, hmatch.1, hmatch.2⟩

/-- Witness for C24: object `5` is cached from the initial state with a
non-permanent reference, `9000`. Asking for a permanent one returns `9000` and
changes nothing; the release then clears the entry and the object is no
longer found. -/
theorem createGlobalRef_keeps_flag_witness :
    (createGlobalRef state0 5 0).state.gelem 0 = ⟨0, 9000⟩ ∧
    createGlobalRef (createGlobalRef state0 5 0).state 5 1
      = Result.ok 9000 (createGlobalRef state0 5 0).state ∧
    (∃ st, releaseGlobalRef (createGlobalRef (createGlobalRef state0 5 0).state 5 1).state 5
        = Result.ok () st ∧
      (st.gelem 0).gref = NULL ∧ (st.gelem 0).permanent = 0 ∧
      findCachedGlobalRef st 5 = NULL) := by
  have h := createGlobalRef_keeps_flag (createGlobalRef state0 5 0).state 5 0
    (by decide) (by decide) (by decide) (by decide)
  obtain ⟨st, h0, h1, h2, h3⟩ := h.2.2.2
  exact ⟨by decide, h.2.1 (by decide), st, h0, h1, h2, h3 (by decide)⟩

end Rffiutils
